import Mathlib

/-!
# Flipper application ELF loader (`lib/flipper_application/flipper_application_i.c`)

A shallow embedding of the loader core: the relocation arithmetic, the file
cursor, the section classifier, the section loader, the symbol resolver, the
relocation engine and the entry-point fixup.

Conventions of the embedding.

* `uint32_t`/`Elf32_Addr` values are `Nat`, reduced `% 2^32` where the C
  arithmetic can wrap; `int32_t` values are `Int`, converted with `toI32` and
  `toU32` (two's complement); `uint16_t` stores reduce `% 2^16`.
* Memory is a function from byte addresses to bytes; a pointer is an address
  and `0` is `NULL`.
* C strings are lists of bytes without the terminating NUL.
-/

namespace FlipperElf

/-! ## Machine integers -/

/-- The modulus of 32-bit arithmetic, `2^32`. -/
def U32 : Nat := 4294967296

/-- Bit pattern of an `int32_t` value, read as an unsigned 32-bit number. -/
def toU32 (x : Int) : Nat := (x % 4294967296).toNat

/-- Conversion of a 32-bit pattern to `int32_t` (two's complement). -/
def toI32 (n : Nat) : Int :=
  if n % 4294967296 < 2147483648 then ((n % 4294967296 : Nat) : Int)
  else ((n % 4294967296 : Nat) : Int) - 4294967296

/-- The C operator `~` on a `uint32_t`. -/
def not32 (x : Nat) : Nat := 4294967295 - x % 4294967296

/-- The C subtraction `a - b` on `uint32_t` operands. -/
def sub32 (a b : Nat) : Nat := (a % 4294967296 + (4294967296 - b % 4294967296)) % 4294967296

/-! ## Byte-addressed memory -/

/-- Memory: the byte stored at each address. -/
abbrev Mem := Nat → Nat

/-- Read of one byte. -/
def read8 (m : Mem) (a : Nat) : Nat := m a % 256

/-- Store of one byte. -/
def write8 (m : Mem) (a v : Nat) : Mem := fun x => if x = a then v % 256 else m x

/-- Little-endian `uint16_t` load, `((uint16_t*)a)[0]`. -/
def read16 (m : Mem) (a : Nat) : Nat := read8 m a + 256 * read8 m (a + 1)

/-- Little-endian `uint16_t` store. -/
def write16 (m : Mem) (a v : Nat) : Mem := write8 (write8 m a v) (a + 1) (v / 256)

/-- Little-endian `uint32_t` load, `*((uint32_t*)a)`. -/
def read32 (m : Mem) (a : Nat) : Nat :=
  read8 m a + 256 * read8 m (a + 1) + 65536 * read8 m (a + 2) + 16777216 * read8 m (a + 3)

/-- Little-endian `uint32_t` store. -/
def write32 (m : Mem) (a v : Nat) : Mem :=
  write8 (write8 (write8 (write8 m a v) (a + 1) (v / 256)) (a + 2) (v / 65536)) (a + 3)
    (v / 16777216)

/-- Store of a run of bytes starting at `a` (the destination of a file read). -/
def writeBytes (m : Mem) (a : Nat) (bs : List Nat) : Mem :=
  fun x => if a ≤ x ∧ x < a + bs.length then bs.getD (x - a) 0 % 256 else m x

/-! ## Relocation types and constants (from `elf.h`, not part of the sources) -/

/-- Modelled from the spec: relocation type `R_ARM_NONE` (0), declared in the absent `elf.h`. -/
def R_ARM_NONE : Int := 0

/-- Modelled from the spec: relocation type `R_ARM_ABS32` (2), declared in the absent `elf.h`. -/
def R_ARM_ABS32 : Int := 2

/-- Modelled from the spec: relocation type `R_ARM_THM_PC22` (10), declared in the absent
`elf.h`. -/
def R_ARM_THM_PC22 : Int := 10

/-- Modelled from the spec: relocation type `R_ARM_THM_JUMP24` (30), declared in the absent
`elf.h`. -/
def R_ARM_THM_JUMP24 : Int := 30

/-- Modelled from the spec: the "invalid" sentinel of the symbol resolver,
`ELF_INVALID_ADDRESS`, declared in the absent `flipper_application_i.h` (all ones). -/
def ELF_INVALID_ADDRESS : Nat := 4294967295

/-- Modelled from the spec: `SHN_UNDEF = 0`, declared in the absent `elf.h`. -/
def SHN_UNDEF : Nat := 0

/-- Modelled from the spec: section type `SHT_NOBITS` (8), declared in the absent `elf.h`. -/
def SHT_NOBITS : Nat := 8

/-! ## Relocation arithmetic -/

/-- The register part of `elf_relocate_jmp_call`: from the two halfwords read at the site
to the two halfwords written back. -/
def jmp_call_insn (upper_insn lower_insn relAddr symAddr : Nat) : Nat × Nat :=
  let S := (upper_insn >>> 10) &&& 1
  let J1 := (lower_insn >>> 13) &&& 1
  let J2 := (lower_insn >>> 11) &&& 1
  let offset : Int :=
    toI32 ((S <<< 24) ||| ((not32 (J1 ^^^ S) &&& 1) <<< 23) |||
      ((not32 (J2 ^^^ S) &&& 1) <<< 22) ||| ((upper_insn &&& 0x03ff) <<< 12) |||
      ((lower_insn &&& 0x07ff) <<< 1))
  let offset : Int := if toU32 offset &&& 0x01000000 ≠ 0 then offset - 0x02000000 else offset
  let offset : Int := toI32 (toU32 offset + sub32 symAddr relAddr)
  let S := toU32 (offset >>> (24 : Nat)) &&& 1
  let J1 := S ^^^ (toU32 (~~~(offset >>> (23 : Nat))) &&& 1)
  let J2 := S ^^^ (toU32 (~~~(offset >>> (22 : Nat))) &&& 1)
  let upper_insn :=
    ((upper_insn &&& 0xf800) ||| (S <<< 10) ||| (toU32 (offset >>> (12 : Nat)) &&& 0x03ff)) % 65536
  let lower_insn :=
    ((lower_insn &&& 0xd000) ||| (J1 <<< 13) ||| (J2 <<< 11) |||
      (toU32 (offset >>> (1 : Nat)) &&& 0x07ff)) % 65536
  (upper_insn, lower_insn)

/-- `elf_relocate_jmp_call`: patch the Thumb-2 BL / B.W pair at `relAddr`. -/
def elf_relocate_jmp_call (mem : Mem) (relAddr : Nat) (_type : Int) (symAddr : Nat) : Mem :=
  let upper_insn := read16 mem relAddr
  let lower_insn := read16 mem (relAddr + 2)
  let r := jmp_call_insn upper_insn lower_insn relAddr symAddr
  let mem := write16 mem relAddr r.1
  write16 mem (relAddr + 2) r.2

/-- `elf_relocate_symbol`: apply one relocation of the given type. -/
def elf_relocate_symbol (mem : Mem) (relAddr : Nat) (type : Int) (symAddr : Nat) : Bool × Mem :=
  if type = R_ARM_ABS32 then
    (true, write32 mem relAddr ((read32 mem relAddr + symAddr) % 4294967296))
  else if type = R_ARM_THM_PC22 ∨ type = R_ARM_THM_JUMP24 then
    (true, elf_relocate_jmp_call mem relAddr type symAddr)
  else
    (false, mem)

/-- The signed 25-bit branch offset encoded in a Thumb-2 BL / B.W pair: `S`, `J1`, `J2`,
`imm10`, `imm11` reassembled, then sign-extended at bit 24 (the spec's decoding). -/
def thumb_branch_offset (upper lower : Nat) : Int :=
  let S := (upper >>> 10) &&& 1
  let J1 := (lower >>> 13) &&& 1
  let J2 := (lower >>> 11) &&& 1
  let offset : Nat :=
    (S <<< 24) ||| ((not32 (J1 ^^^ S) &&& 1) <<< 23) ||| ((not32 (J2 ^^^ S) &&& 1) <<< 22) |||
      ((upper &&& 0x03ff) <<< 12) ||| ((lower &&& 0x07ff) <<< 1)
  if offset &&& 0x01000000 ≠ 0 then (offset : Int) - 0x02000000 else (offset : Int)

/-- An integer masked to 25 bits and read as a signed 25-bit number. -/
def mask25_signed (x : Int) : Int :=
  if x % 33554432 < 16777216 then x % 33554432 else x % 33554432 - 33554432

/-- The raw 25-bit field assembled from an instruction pair, written with division and
remainder (proved equal to the bit-level expression in `raw_offset_eq`). -/
def raw_offset (upper lower : Nat) : Nat :=
  (upper / 1024 % 2) * 16777216 + (1 - (lower / 8192 % 2 + upper / 1024 % 2) % 2) * 8388608 +
    (1 - (lower / 2048 % 2 + upper / 1024 % 2) % 2) * 4194304 + (upper % 1024) * 4096 +
    (lower % 2048) * 2

/-- The `int32_t offset` of `elf_relocate_jmp_call` after `offset += symAddr - relAddr`. -/
def new_offset (upper lower relAddr symAddr : Nat) : Int :=
  toI32 (toU32 (thumb_branch_offset upper lower) + sub32 symAddr relAddr)

/-! ## C strings -/

/-- The bytes of a string literal, without the terminating NUL. -/
def cstr (s : String) : List Nat := s.toList.map Char.toNat

/-- ` cstr_prefix(prefix, string)`: `strncmp(prefix, string, strlen(prefix)) == 0`. -/
def cstr_prefix (pre string : List Nat) : Bool := pre.isPrefixOf string

/-! ## File cursor (the storage API is an external collaborator) -/

/-- An open file: its content and the cursor. -/
structure File where
  bytes : List Nat
  pos : Nat

/-- Modelled from the spec: `storage_file_seek(fd, offset, true)`, the absolute seek of the
file cursor adapter (§4.1); the storage sources are absent. A seek past the end of the file
fails and leaves the cursor where it was. -/
def storage_file_seek (fd : File) (offset : Nat) : Bool × File :=
  if offset ≤ fd.bytes.length then (true, { fd with pos := offset }) else (false, fd)

/-- Modelled from the spec: `storage_file_tell(fd)` of the file cursor adapter (§4.1). -/
def storage_file_tell (fd : File) : Nat := fd.pos

/-- Modelled from the spec: `storage_file_read(fd, buf, n)` of the file cursor adapter (§4.1):
up to `n` bytes from the cursor, fewer at the end of the file; the number of bytes read is the
length of the result (not truncated to 16 bits, although the one caller that keeps the number,
for a 32-byte block, keeps it in a `uint16_t`). The cursor advances by that number. -/
def storage_file_read (fd : File) (n : Nat) : List Nat × File :=
  let bs := ((fd.bytes.drop fd.pos).take n).map (fun b => b % 256)
  (bs, { fd with pos := fd.pos + bs.length })

/-- Modelled from the spec: `storage_file_get_error(fd)`; `0` is `FSE_OK`. Short reads and
failed seeks are the only failures of the adapter, so the error flag stays clear. -/
def storage_file_get_error (_fd : File) : Nat := 0

/-! ## ELF records (layouts of the absent `elf.h`) -/

/-- Little-endian 16-bit field at index `i` of a byte buffer. -/
def le16 (bs : List Nat) (i : Nat) : Nat := bs.getD i 0 + 256 * bs.getD (i + 1) 0

/-- Little-endian 32-bit field at index `i` of a byte buffer. -/
def le32 (bs : List Nat) (i : Nat) : Nat :=
  bs.getD i 0 + 256 * bs.getD (i + 1) 0 + 65536 * bs.getD (i + 2) 0 + 16777216 * bs.getD (i + 3) 0

/-- Modelled from the spec: `Elf32_Shdr`, the 40-byte section header of the absent `elf.h`. -/
structure Elf32_Shdr where
  sh_name : Nat
  sh_type : Nat
  sh_flags : Nat
  sh_addr : Nat
  sh_offset : Nat
  sh_size : Nat
  sh_link : Nat
  sh_info : Nat
  sh_addralign : Nat
  sh_entsize : Nat
  deriving DecidableEq, Repr, Inhabited

/-- Modelled from the spec: `Elf32_Sym`, the 16-byte symbol entry of the absent `elf.h`. -/
structure Elf32_Sym where
  st_name : Nat
  st_value : Nat
  st_size : Nat
  st_info : Nat
  st_other : Nat
  st_shndx : Nat
  deriving DecidableEq, Repr, Inhabited

/-- Modelled from the spec: `Elf32_Rel`, the 8-byte relocation entry of the absent `elf.h`. -/
structure Elf32_Rel where
  r_offset : Nat
  r_info : Nat
  deriving DecidableEq, Repr, Inhabited

/-- Modelled from the spec: the fields of `Elf32_Ehdr` (52 bytes, absent `elf.h`) that the
loader uses. -/
structure Elf32_Ehdr where
  e_entry : Nat
  e_shoff : Nat
  e_shnum : Nat
  e_shstrndx : Nat
  deriving DecidableEq, Repr, Inhabited

/-- The section header held by 40 bytes read from the file. -/
def parse_shdr (bs : List Nat) : Elf32_Shdr :=
  { sh_name := le32 bs 0, sh_type := le32 bs 4, sh_flags := le32 bs 8, sh_addr := le32 bs 12,
    sh_offset := le32 bs 16, sh_size := le32 bs 20, sh_link := le32 bs 24, sh_info := le32 bs 28,
    sh_addralign := le32 bs 32, sh_entsize := le32 bs 36 }

/-- The symbol entry held by 16 bytes read from the file. -/
def parse_sym (bs : List Nat) : Elf32_Sym :=
  { st_name := le32 bs 0, st_value := le32 bs 4, st_size := le32 bs 8, st_info := bs.getD 12 0,
    st_other := bs.getD 13 0, st_shndx := le16 bs 14 }

/-- The relocation entry held by 8 bytes read from the file. -/
def parse_rel (bs : List Nat) : Elf32_Rel :=
  { r_offset := le32 bs 0, r_info := le32 bs 4 }

/-- The ELF header fields held by 52 bytes read from the file. -/
def parse_ehdr (bs : List Nat) : Elf32_Ehdr :=
  { e_entry := le32 bs 24, e_shoff := le32 bs 32, e_shnum := le16 bs 48, e_shstrndx := le16 bs 50 }

/-- Modelled from the spec: `ELF32_R_SYM(r_info) = r_info >> 8` (macro of the absent `elf.h`). -/
def ELF32_R_SYM (r_info : Nat) : Nat := r_info >>> 8

/-- Modelled from the spec: `ELF32_R_TYPE(r_info) = r_info & 0xFF` (macro of the absent
`elf.h`). -/
def ELF32_R_TYPE (r_info : Nat) : Int := ((r_info &&& 0xFF : Nat) : Int)

/-! ## The image handle -/

/-- `ELFSection`: one record of the section map. `data = 0` is the null pointer. -/
structure ELFSection where
  data : Nat
  sec_idx : Nat
  rel_sec_idx : Nat
  deriving DecidableEq, Repr, Inhabited

/-- `ELFFile`: the ELF summary of the handle. `sections` is the `ELFSectionDict`, kept in
insertion order (the iteration order of the dictionary); `relocation_cache` is the
`RelocationAddressCache`. -/
structure ELFFile where
  entry : Nat
  sections_count : Nat
  section_table : Nat
  section_table_strings : Nat
  symbol_count : Nat
  symbol_table : Nat
  symbol_table_strings : Nat
  sections : List (List Nat × ELFSection)
  relocation_cache : List (Nat × Nat)

/-- `FlipperApplicationState`: what the loader publishes. A memory-map entry is a pair
`(address, name)`. -/
structure FlipperApplicationState where
  mmap_entry_count : Nat
  mmap_entries : List (Nat × List Nat)
  debug_link_size : Nat
  debug_link : Nat

/-- `FlipperApplication`: the image handle, together with the parts of the machine that the
loader reads and writes: the file system (`storage`), the open file (`fd`), memory (`mem`),
the allocator (`heap`, the next free address), the host resolver (`resolver_callback`), the
size of the manifest record (`manifest_size`, the `sizeof` of a type the sources do not
declare), and the content of the uninitialised name buffer (`stack_garbage`). -/
structure FlipperApplication where
  storage : List Nat → Option (List Nat)
  fd : File
  elf : ELFFile
  state : FlipperApplicationState
  manifest : List Nat
  manifest_size : Nat
  resolver_callback : List Nat → Option Nat
  mem : Mem
  heap : Nat
  stack_garbage : List Nat

/-- `FlipperApplicationLoadStatus`. -/
inductive FlipperApplicationLoadStatus where
  | Success
  | UnspecifiedError
  | NoFreeMemory
  | MissingImports
  deriving DecidableEq, Repr

/-- Modelled from the spec: `aligned_malloc(size, align)`, the external aligned allocator
(§4.5): a fresh, zeroed, non-null buffer of `size` bytes at a multiple of `align`. -/
def aligned_malloc (fap : FlipperApplication) (size align : Nat) : Nat × FlipperApplication :=
  let al := max align 1
  let p := ((max fap.heap 1 + al - 1) / al) * al
  (p, { fap with heap := p + size, mem := writeBytes fap.mem p (List.replicate size 0) })

/-- Modelled from the spec: `malloc(size)`, the external allocator, as `aligned_malloc` with
the alignment of a machine word. -/
def malloc (fap : FlipperApplication) (size : Nat) : Nat × FlipperApplication :=
  aligned_malloc fap size 4

/-- Modelled from the spec: `storage_file_open(fd, path, FSAM_READ, FSOM_OPEN_EXISTING)` of
the absent storage API: succeeds when the file exists and leaves the cursor at 0. -/
def storage_file_open (fap : FlipperApplication) (path : List Nat) : Bool × FlipperApplication :=
  match fap.storage path with
  | some bs => (true, { fap with fd := { bytes := bs, pos := 0 } })
  | none => (false, fap)

/-! ## Relocation cache -/

/-- `relocation_cache_get`: the cached address of a symbol index, if any. -/
def relocation_cache_get (cache : List (Nat × Nat)) (symEntry : Nat) : Option Nat :=
  cache.lookup symEntry

/-- `relocation_cache_put`: store (or replace) the address of a symbol index. -/
def relocation_cache_put (cache : List (Nat × Nat)) (symEntry symAddr : Nat) :
    List (Nat × Nat) :=
  (symEntry, symAddr) :: cache.filter (fun p => p.1 != symEntry)

/-! ## Section map -/

/-- `ELFSectionDict_get`: the record stored under a key. -/
def ELFSectionDict_get (d : List (List Nat × ELFSection)) (key : List Nat) : Option ELFSection :=
  d.lookup key

/-- `ELFSectionDict_set_at`: store a record under a key (replacing a record already there). -/
def ELFSectionDict_set_at (d : List (List Nat × ELFSection)) (key : List Nat) (v : ELFSection) :
    List (List Nat × ELFSection) :=
  match d with
  | [] => [(key, v)]
  | (k, w) :: rest =>
    if k = key then (k, v) :: rest else (k, w) :: ELFSectionDict_set_at rest key v

/-! ## Reading names, headers and symbols -/

/-- The loop of `elf_read_string_from_offset`: read blocks of `ELF_NAME_BUFFER_LEN = 32` bytes
into `buffer` (which keeps its old bytes after a short read), append the C string held by the
buffer to `name`, stop with success when the block holds a terminator, with failure when
nothing was read. `fuel` bounds the number of blocks. -/
def elf_read_string_loop : Nat → File → List Nat → List Nat → Bool × File × List Nat
  | 0, fd, _, name => (false, fd, name)
  | fuel + 1, fd, buffer, name =>
    let r := storage_file_read fd 32
    let buffer := r.1 ++ buffer.drop r.1.length
    let str := buffer.takeWhile (fun b => b != 0)
    let name := name ++ str
    if str.length < 32 then (true, r.2, name)
    else if storage_file_get_error r.2 ≠ 0 ∨ r.1.length = 0 then (false, r.2, name)
    else elf_read_string_loop fuel r.2 buffer name

/-- `elf_read_string_from_offset`: append to `name` the NUL-terminated string at `offset`,
restoring the cursor. The local buffer starts with indeterminate content. -/
def elf_read_string_from_offset (fap : FlipperApplication) (offset : Nat) (name : List Nat) :
    Bool × FlipperApplication × List Nat :=
  let old := storage_file_tell fap.fd
  let s := storage_file_seek fap.fd offset
  let r :=
    if s.1 then
      elf_read_string_loop (s.2.bytes.length - s.2.pos + 1) s.2
        ((fap.stack_garbage ++ List.replicate 32 0).take 32) name
    else (false, s.2, name)
  let back := storage_file_seek r.2.1 old
  (r.1, { fap with fd := back.2 }, r.2.2)

/-- `elf_read_section_name`. -/
def elf_read_section_name (fap : FlipperApplication) (offset : Nat) (name : List Nat) :
    Bool × FlipperApplication × List Nat :=
  elf_read_string_from_offset fap ((fap.elf.section_table_strings + offset) % 4294967296) name

/-- `elf_read_symbol_name`. -/
def elf_read_symbol_name (fap : FlipperApplication) (offset : Nat) (name : List Nat) :
    Bool × FlipperApplication × List Nat :=
  elf_read_string_from_offset fap ((fap.elf.symbol_table_strings + offset) % 4294967296) name

/-- `elf_read_section_header`: seek to `SECTION_OFFSET(elf, section_idx)` and read the 40
bytes of the header. -/
def elf_read_section_header (fap : FlipperApplication) (section_idx : Nat) :
    Bool × FlipperApplication × Elf32_Shdr :=
  let offset := (fap.elf.section_table + section_idx * 40) % 4294967296
  let s := storage_file_seek fap.fd offset
  if s.1 then
    let r := storage_file_read s.2 40
    (r.1.length == 40, { fap with fd := r.2 }, parse_shdr r.1)
  else (false, { fap with fd := s.2 }, default)

/-- `elf_read_section`: the header of a section and, when `sh_name` is not 0, its name. -/
def elf_read_section (fap : FlipperApplication) (section_idx : Nat) (name : List Nat) :
    Bool × FlipperApplication × Elf32_Shdr × List Nat :=
  let h := elf_read_section_header fap section_idx
  if !h.1 then (false, h.2.1, h.2.2, name)
  else if h.2.2.sh_name ≠ 0 then
    let n := elf_read_section_name h.2.1 h.2.2.sh_name name
    (n.1, n.2.1, h.2.2, n.2.2)
  else (true, h.2.1, h.2.2, name)

/-- `elf_read_symbol`: the `n`-th symbol entry and its name (the name of its section when
`st_name` is 0), restoring the cursor. -/
def elf_read_symbol (e : FlipperApplication) (n : Nat) (name : List Nat) :
    Bool × FlipperApplication × Elf32_Sym × List Nat :=
  let old := storage_file_tell e.fd
  let pos := (e.elf.symbol_table + n * 16) % 4294967296
  let s := storage_file_seek e.fd pos
  let r : Bool × FlipperApplication × Elf32_Sym × List Nat :=
    if s.1 then
      let rd := storage_file_read s.2 16
      let e1 := { e with fd := rd.2 }
      let sym := parse_sym rd.1
      if rd.1.length == 16 then
        if sym.st_name ≠ 0 then
          let n := elf_read_symbol_name e1 sym.st_name name
          (n.1, n.2.1, sym, n.2.2)
        else
          let n := elf_read_section e1 sym.st_shndx name
          (n.1, n.2.1, sym, n.2.2.2)
      else (false, e1, sym, name)
    else (false, { e with fd := s.2 }, default, name)
  let back := storage_file_seek r.2.1.fd old
  (r.1, { r.2.1 with fd := back.2 }, r.2.2.1, r.2.2.2)

/-! ## Symbol resolver -/

/-- `elf_section_of`: the first record of the section map with the given `sec_idx`. -/
def elf_section_of (elf : ELFFile) (index : Nat) : Option ELFSection :=
  (elf.sections.find? (fun p => p.2.sec_idx == index)).map Prod.snd

/-- `elf_address_of`: the address of a symbol, or `ELF_INVALID_ADDRESS`. -/
def elf_address_of (e : FlipperApplication) (sym : Elf32_Sym) (sName : List Nat) : Nat :=
  if sym.st_shndx = SHN_UNDEF then
    match e.resolver_callback sName with
    | some addr => addr
    | none => ELF_INVALID_ADDRESS
  else
    match elf_section_of e.elf sym.st_shndx with
    | some symSec => (symSec.data + sym.st_value) % 4294967296
    | none => ELF_INVALID_ADDRESS

/-! ## Relocation engine -/

/-- The symbol lookup of one iteration of `elf_relocate`: the cached address of `symEntry`,
or, on a cache miss, the symbol read from the file, resolved by `elf_address_of` and put in
the cache. The first component is `false` when the symbol cannot be read. -/
def elf_relocate_resolve (e : FlipperApplication) (symEntry : Nat) :
    Bool × FlipperApplication × Nat :=
  match relocation_cache_get e.elf.relocation_cache symEntry with
  | some symAddr => (true, e, symAddr)
  | none =>
    let r := elf_read_symbol e symEntry []
    if !r.1 then (false, r.2.1, 0)
    else
      let symAddr := elf_address_of r.2.1 r.2.2.1 r.2.2.2
      let e1 := r.2.1
      (true,
        { e1 with elf := { e1.elf with
            relocation_cache := relocation_cache_put e1.elf.relocation_cache symEntry symAddr } },
        symAddr)

/-- The patch of one iteration of `elf_relocate`: nothing is written for the invalid
sentinel; otherwise `elf_relocate_symbol` is applied. Returns the new `relocate_result`. -/
def elf_relocate_patch (e : FlipperApplication) (relAddr : Nat) (relType : Int) (symAddr : Nat)
    (relocate_result : Bool) : Bool × FlipperApplication :=
  if symAddr ≠ ELF_INVALID_ADDRESS then
    let r := elf_relocate_symbol e.mem relAddr relType symAddr
    (if !r.1 then false else relocate_result, { e with mem := r.2 })
  else (false, e)

/-- The loop of `elf_relocate` over the remaining `n` relocation entries, read one after the
other from the cursor. A short read of an entry or an unreadable symbol returns `false` at
once. (The yield every `RESOLVER_THREAD_YIELD_STEP` entries has no effect on the state.) -/
def elf_relocate_loop : Nat → FlipperApplication → ELFSection → Bool → Bool × FlipperApplication
  | 0, e, _, relocate_result => (relocate_result, e)
  | n + 1, e, s, relocate_result =>
    let rd := storage_file_read e.fd 8
    let e1 := { e with fd := rd.2 }
    if rd.1.length != 8 then (false, e1)
    else
      let rel := parse_rel rd.1
      let symEntry := ELF32_R_SYM rel.r_info
      let relType := ELF32_R_TYPE rel.r_info
      let relAddr := (s.data + rel.r_offset) % 4294967296
      let rs := elf_relocate_resolve e1 symEntry
      if !rs.1 then (false, rs.2.1)
      else
        let p := elf_relocate_patch rs.2.1 relAddr relType rs.2.2 relocate_result
        elf_relocate_loop n p.2 s p.1

/-- `elf_relocate`: apply the `sh_size / 8` relocation entries of the section with header
`h` to the image of record `s`. -/
def elf_relocate (e : FlipperApplication) (h : Elf32_Shdr) (s : ELFSection) :
    Bool × FlipperApplication :=
  if s.data ≠ 0 then
    let relEntries := h.sh_size / 8
    let sk := storage_file_seek e.fd h.sh_offset
    elf_relocate_loop relEntries { e with fd := sk.2 } s true
  else (false, e)

/-! ## Section classifier -/

/-- `SectionTypeERROR`. -/
def SectionTypeERROR : Nat := 0
/-- `SectionTypeSymTab`. -/
def SectionTypeSymTab : Nat := 1 <<< 0
/-- `SectionTypeStrTab`. -/
def SectionTypeStrTab : Nat := 1 <<< 2
/-- `SectionTypeText`. -/
def SectionTypeText : Nat := 1 <<< 3
/-- `SectionTypeRodata`. -/
def SectionTypeRodata : Nat := 1 <<< 4
/-- `SectionTypeData`. -/
def SectionTypeData : Nat := 1 <<< 5
/-- `SectionTypeBss`. -/
def SectionTypeBss : Nat := 1 <<< 6
/-- `SectionTypeRelText`. -/
def SectionTypeRelText : Nat := 1 <<< 7
/-- `SectionTypeRelRodata`. -/
def SectionTypeRelRodata : Nat := 1 <<< 8
/-- `SectionTypeRelData`. -/
def SectionTypeRelData : Nat := 1 <<< 9
/-- `SectionTypeRelBss`. -/
def SectionTypeRelBss : Nat := 1 <<< 10
/-- `SectionTypeFappManifest`. -/
def SectionTypeFappManifest : Nat := 1 <<< 11
/-- `SectionTypeDebugLink`. -/
def SectionTypeDebugLink : Nat := 1 <<< 12
/-- `SectionTypeUnused`. -/
def SectionTypeUnused : Nat := 1 <<< 13
/-- `SectionTypeValid`. -/
def SectionTypeValid : Nat := SectionTypeSymTab ||| SectionTypeStrTab ||| SectionTypeFappManifest
/-- `SectionTypeRelocate`. -/
def SectionTypeRelocate : Nat :=
  SectionTypeRelText ||| SectionTypeRelRodata ||| SectionTypeRelData ||| SectionTypeRelBss
/-- `SectionTypeGdbSection`. -/
def SectionTypeGdbSection : Nat :=
  SectionTypeText ||| SectionTypeRodata ||| SectionTypeData ||| SectionTypeBss

/-- `IS_FLAGS_SET(v, m)`. -/
def IS_FLAGS_SET (v m : Nat) : Bool := (v &&& m) == m

/-- `flipper_application_load_metadata`: copy the `.fapmeta` section into the manifest field
of the handle; a section smaller than the manifest record is rejected. The bytes read replace
the head of the field (and run past it when `sh_size` exceeds the record). -/
def flipper_application_load_metadata (fap : FlipperApplication) (section_header : Elf32_Shdr) :
    Bool × FlipperApplication :=
  if section_header.sh_size < fap.manifest_size then (false, fap)
  else
    let s := storage_file_seek fap.fd section_header.sh_offset
    if s.1 then
      let r := storage_file_read s.2 section_header.sh_size
      (r.1.length == section_header.sh_size,
        { fap with fd := r.2, manifest := r.1 ++ fap.manifest.drop r.1.length })
    else (false, { fap with fd := s.2 })

/-- `flipper_application_load_debug_link`: allocate and copy the whole section. -/
def flipper_application_load_debug_link (fap : FlipperApplication)
    (section_header : Elf32_Shdr) : Bool × FlipperApplication :=
  let a := malloc fap section_header.sh_size
  let fap1 := a.2
  let fap2 := { fap1 with state := { fap1.state with
    debug_link_size := section_header.sh_size, debug_link := a.1 } }
  let s := storage_file_seek fap2.fd section_header.sh_offset
  if s.1 then
    let r := storage_file_read s.2 section_header.sh_size
    (r.1.length == section_header.sh_size,
      { fap2 with fd := r.2, mem := writeBytes fap2.mem a.1 r.1 })
  else (false, { fap2 with fd := s.2 })

/-- The table `lookup_sections` of `flipper_application_preload_section`. -/
def lookup_sections : List (List Nat × Nat) :=
  [(cstr ".text", SectionTypeText), (cstr ".rodata", SectionTypeRodata),
   (cstr ".data", SectionTypeData), (cstr ".bss", SectionTypeBss),
   (cstr ".rel.text", SectionTypeRelText), (cstr ".rel.rodata", SectionTypeRelRodata),
   (cstr ".rel.data", SectionTypeRelData)]

/-- `flipper_application_preload_section`: classify one section by its name and record it
in the handle. -/
def flipper_application_preload_section (fap : FlipperApplication) (section_idx : Nat)
    (section_header : Elf32_Shdr) (name : List Nat) : Nat × FlipperApplication :=
  match lookup_sections.find? (fun p => cstr_prefix p.1 name) with
  | some p =>
    let name := if (p.2 &&& SectionTypeRelocate) ≠ 0 then name.drop 4 else name
    let sections :=
      match ELFSectionDict_get fap.elf.sections name with
      | some _ => fap.elf.sections
      | none =>
        ELFSectionDict_set_at fap.elf.sections name { data := 0, sec_idx := 0, rel_sec_idx := 0 }
    let section_p := (ELFSectionDict_get sections name).getD default
    let section_p :=
      if (p.2 &&& SectionTypeRelocate) ≠ 0 then { section_p with rel_sec_idx := section_idx }
      else { section_p with sec_idx := section_idx }
    (p.2, { fap with elf := { fap.elf with
      sections := ELFSectionDict_set_at sections name section_p } })
  | none =>
    if name = cstr ".symtab" then
      (SectionTypeSymTab, { fap with elf := { fap.elf with
        symbol_table := section_header.sh_offset,
        symbol_count := section_header.sh_size / 16 } })
    else if name = cstr ".strtab" then
      (SectionTypeStrTab, { fap with elf := { fap.elf with
        symbol_table_strings := section_header.sh_offset } })
    else if name = cstr ".fapmeta" then
      let r := flipper_application_load_metadata fap section_header
      if r.1 then (SectionTypeFappManifest, r.2) else (SectionTypeERROR, r.2)
    else if name = cstr ".gnu_debuglink" then
      let r := flipper_application_load_debug_link fap section_header
      if r.1 then (SectionTypeDebugLink, r.2) else (SectionTypeERROR, r.2)
    else (SectionTypeUnused, fap)

/-! ## Section loader -/

/-- `flipper_application_load_section_data`: allocate the image of a record and fill it from
the file. Returns the success flag, the handle and the updated record. -/
def flipper_application_load_section_data (fap : FlipperApplication) (sec : ELFSection) :
    Bool × FlipperApplication × ELFSection :=
  if sec.sec_idx = 0 then (true, fap, sec)
  else
    let h := elf_read_section_header fap sec.sec_idx
    if !h.1 then (false, h.2.1, sec)
    else if h.2.2.sh_size = 0 then (true, h.2.1, sec)
    else
      let a := aligned_malloc h.2.1 h.2.2.sh_size h.2.2.sh_addralign
      let sec := { sec with data := a.1 }
      let fap1 := a.2
      if h.2.2.sh_type = SHT_NOBITS then (true, fap1, sec)
      else
        let s := storage_file_seek fap1.fd h.2.2.sh_offset
        if !s.1 then (false, { fap1 with fd := s.2 }, sec)
        else
          let r := storage_file_read s.2 h.2.2.sh_size
          (r.1.length == h.2.2.sh_size,
            { fap1 with fd := r.2, mem := writeBytes fap1.mem a.1 r.1 }, sec)

/-- `flipper_application_relocate_section`: relocate the image of a record that has a
relocation section. -/
def flipper_application_relocate_section (fap : FlipperApplication) (sec : ELFSection) :
    Bool × FlipperApplication :=
  if sec.rel_sec_idx ≠ 0 then
    let h := elf_read_section_header fap sec.rel_sec_idx
    if h.1 then elf_relocate h.2.1 h.2.2 sec else (false, h.2.1)
  else (true, fap)

/-! ## External interface -/

/-- `flipper_application_load_elf_headers`. -/
def flipper_application_load_elf_headers (fap : FlipperApplication) (path : List Nat) :
    Bool × FlipperApplication :=
  let o := storage_file_open fap path
  if !o.1 then (false, o.2)
  else
    let s := storage_file_seek o.2.fd 0
    if !s.1 then (false, { o.2 with fd := s.2 })
    else
      let r := storage_file_read s.2 52
      if r.1.length != 52 then (false, { o.2 with fd := r.2 })
      else
        let h := parse_ehdr r.1
        let s2 := storage_file_seek r.2 ((h.e_shoff + h.e_shstrndx * 40) % 4294967296)
        if !s2.1 then (false, { o.2 with fd := s2.2 })
        else
          let r2 := storage_file_read s2.2 40
          if r2.1.length != 40 then (false, { o.2 with fd := r2.2 })
          else
            let sH := parse_shdr r2.1
            let f := o.2
            (true, { f with fd := r2.2, elf := { f.elf with
              entry := h.e_entry, sections_count := h.e_shnum, section_table := h.e_shoff,
              section_table_strings := sH.sh_offset } })

/-- The scan of `flipper_application_load_manifest` over `n` more section indices. -/
def flipper_application_load_manifest_loop : Nat → Nat → FlipperApplication →
    Bool × FlipperApplication
  | 0, _, fap => (false, fap)
  | n + 1, section_idx, fap =>
    let r := elf_read_section fap section_idx []
    if !r.1 then (false, r.2.1)
    else if r.2.2.2 = cstr ".fapmeta" then flipper_application_load_metadata r.2.1 r.2.2.1
    else flipper_application_load_manifest_loop n (section_idx + 1) r.2.1

/-- `flipper_application_load_manifest`. -/
def flipper_application_load_manifest (fap : FlipperApplication) : Bool × FlipperApplication :=
  let fap := { fap with elf := { fap.elf with sections := [] } }
  flipper_application_load_manifest_loop (fap.elf.sections_count - 1) 1 fap

/-- The scan of `flipper_application_load_section_table` over `n` more section indices,
starting at `section_idx`. The first component is `false` when the function returns `false`
from inside the loop; otherwise the second component is `loaded_sections` at loop exit. -/
def flipper_application_load_section_table_loop : Nat → Nat → Nat → FlipperApplication →
    Bool × Nat × FlipperApplication
  | 0, _, loaded_sections, fap => (true, loaded_sections, fap)
  | n + 1, section_idx, loaded_sections, fap =>
    let r := elf_read_section fap section_idx []
    if !r.1 then (false, loaded_sections, r.2.1)
    else
      let p := flipper_application_preload_section r.2.1 section_idx r.2.2.1 r.2.2.2
      let section_type := p.1
      let loaded_sections := loaded_sections ||| section_type
      let fap1 := p.2
      let fap2 :=
        if (section_type &&& SectionTypeGdbSection) ≠ 0 then
          { fap1 with state := { fap1.state with
              mmap_entry_count := fap1.state.mmap_entry_count + 1 } }
        else fap1
      if section_type = SectionTypeERROR then (true, SectionTypeERROR, fap2)
      else flipper_application_load_section_table_loop n (section_idx + 1) loaded_sections fap2

/-- `flipper_application_load_section_table`. -/
def flipper_application_load_section_table (fap : FlipperApplication) :
    Bool × FlipperApplication :=
  let fap := { fap with elf := { fap.elf with sections := [] },
                        state := { fap.state with mmap_entry_count := 0 } }
  let r := flipper_application_load_section_table_loop (fap.elf.sections_count - 1) 1
    SectionTypeERROR fap
  if !r.1 then (false, r.2.2) else (IS_FLAGS_SET r.2.1 SectionTypeValid, r.2.2)

/-- The first loop of `flipper_application_load_sections`: load the data of every record
(all of them, also after a failure). Returns whether every load succeeded, the handle, and
the records with their `data` set. -/
def load_sections_data : FlipperApplication → List (List Nat × ELFSection) →
    Bool × FlipperApplication × List (List Nat × ELFSection)
  | fap, [] => (true, fap, [])
  | fap, (key, sec) :: rest =>
    let r := flipper_application_load_section_data fap sec
    let t := load_sections_data r.2.1 rest
    (r.1 && t.1, t.2.1, (key, r.2.2) :: t.2.2)

/-- The second loop of `flipper_application_load_sections`: relocate every record (all of
them, also after a failure). Returns whether every relocation succeeded. -/
def load_sections_relocate : FlipperApplication → List (List Nat × ELFSection) →
    Bool × FlipperApplication
  | fap, [] => (true, fap)
  | fap, (_, sec) :: rest =>
    let r := flipper_application_relocate_section fap sec
    let t := load_sections_relocate r.2 rest
    (r.1 && t.1, t.2)

/-- The third loop of `flipper_application_load_sections`: the memory-map entries
`(address, name)` of the records with non-null data, in iteration order, and `text_p`, the
data pointer of the record keyed `.text` (0 when there is none). -/
def load_sections_mmap : List (List Nat × ELFSection) → List (Nat × List Nat) → Nat →
    List (Nat × List Nat) × Nat
  | [], entries, text_p => (entries, text_p)
  | (key, sec) :: rest, entries, text_p =>
    let entries := if sec.data ≠ 0 then entries ++ [(sec.data % 4294967296, key)] else entries
    let text_p := if key = cstr ".text" then sec.data % 4294967296 else text_p
    load_sections_mmap rest entries text_p

/-- `flipper_application_load_sections`. The result is `none` when
`furi_check(mmap_entry_idx == state->mmap_entry_count)` fails (the firmware halts). -/
def flipper_application_load_sections (fap : FlipperApplication) :
    Option (FlipperApplicationLoadStatus × FlipperApplication) :=
  let fap := { fap with elf := { fap.elf with relocation_cache := [] } }
  let l := load_sections_data fap fap.elf.sections
  let fap1 := l.2.1
  let fap1 := { fap1 with elf := { fap1.elf with sections := l.2.2 } }
  let status :=
    if l.1 then FlipperApplicationLoadStatus.Success
    else FlipperApplicationLoadStatus.UnspecifiedError
  let rl :=
    if status = FlipperApplicationLoadStatus.Success then
      load_sections_relocate fap1 fap1.elf.sections
    else (true, fap1)
  let status := if !rl.1 then FlipperApplicationLoadStatus.MissingImports else status
  let fap2 := rl.2
  if status = FlipperApplicationLoadStatus.Success then
    let m := load_sections_mmap fap2.elf.sections [] 0
    if m.1.length = fap2.state.mmap_entry_count then
      some (status, { fap2 with
        state := { fap2.state with mmap_entries := m.1 },
        elf := { fap2.elf with entry := (fap2.elf.entry + m.2) % 4294967296,
                               relocation_cache := [] } })
    else none
  else
    some (status, { fap2 with elf := { fap2.elf with relocation_cache := [] } })

/-! ## Views of the handle used to state the properties -/

/-- The parts of a handle that decide what the section scan reads. -/
def same_src (a b : FlipperApplication) : Prop :=
  a.fd.bytes = b.fd.bytes ∧ a.elf.section_table = b.elf.section_table ∧
    a.elf.section_table_strings = b.elf.section_table_strings ∧
    a.stack_garbage = b.stack_garbage ∧ a.manifest_size = b.manifest_size

/-- The name the scan reads at section index `i`. -/
def section_name_at (fap : FlipperApplication) (i : Nat) : List Nat :=
  (elf_read_section fap i []).2.2.2

/-- The header the scan reads at section index `i`. -/
def section_header_at (fap : FlipperApplication) (i : Nat) : Elf32_Shdr :=
  (elf_read_section fap i []).2.2.1

/-- The class `flipper_application_preload_section` gives to section index `i`. -/
def section_class (fap : FlipperApplication) (i : Nat) : Nat :=
  (flipper_application_preload_section (elf_read_section fap i []).2.1 i
    (section_header_at fap i) (section_name_at fap i)).1

/-- Every section index in `[idx, idx + n)` is read and classified without error. -/
def scan_ok (fap : FlipperApplication) (idx n : Nat) : Prop :=
  ∀ i, idx ≤ i → i < idx + n →
    (elf_read_section fap i []).1 = true ∧ section_class fap i ≠ SectionTypeERROR

/-- Some section index in `[idx, idx + n)` has a class with bit `k`. -/
def scan_has (fap : FlipperApplication) (idx n k : Nat) : Prop :=
  ∃ i, idx ≤ i ∧ i < idx + n ∧ (section_class fap i).testBit k = true

/-- The parts of a handle that neither reading nor loading nor relocating changes. -/
def keeps (a b : FlipperApplication) : Prop :=
  b.elf.entry = a.elf.entry ∧ b.elf.sections = a.elf.sections ∧ b.state = a.state ∧
    b.fd.bytes = a.fd.bytes

/-- The runtime base of the `.text` image: the data pointer, as a 32-bit address, of the
record keyed `.text` in the section map (0, the null pointer, when there is no such record). -/
def text_base (sections : List (List Nat × ELFSection)) : Nat :=
  match ELFSectionDict_get sections (cstr ".text") with
  | some s => s.data % 4294967296
  | none => 0

/-- The invariant of the section scan: the entry point is `e` and the keys of the section map
are distinct. -/
def table_inv (e : Nat) (fap : FlipperApplication) : Prop :=
  fap.elf.entry = e ∧ (fap.elf.sections.map Prod.fst).Nodup

/-- The handle after the first loop of `flipper_application_load_sections`. -/
def after_load (fap : FlipperApplication) : FlipperApplication :=
  let g := { fap with elf := { fap.elf with relocation_cache := [] } }
  let l := load_sections_data g g.elf.sections
  let f := l.2.1
  { f with elf := { f.elf with sections := l.2.2 } }

/-- Whether every record loaded in the first loop of `flipper_application_load_sections`. -/
def load_ok (fap : FlipperApplication) : Bool :=
  (load_sections_data { fap with elf := { fap.elf with relocation_cache := [] } }
    fap.elf.sections).1

/-- The outcome of the second loop of `flipper_application_load_sections`, run after a
successful first loop. -/
def after_relocate (fap : FlipperApplication) : Bool × FlipperApplication :=
  load_sections_relocate (after_load fap) (after_load fap).elf.sections

/-- The relocation entry at the cursor. -/
def next_rel (e : FlipperApplication) : Elf32_Rel := parse_rel (storage_file_read e.fd 8).1

/-- The symbol lookup for the relocation entry at the cursor: success flag, handle after the
lookup, and `symAddr`. -/
def next_resolve (e : FlipperApplication) : Bool × FlipperApplication × Nat :=
  elf_relocate_resolve { e with fd := (storage_file_read e.fd 8).2 }
    (ELF32_R_SYM (next_rel e).r_info)

/-- The site of the relocation entry at the cursor, `relAddr`. -/
def next_site (e : FlipperApplication) (s : ELFSection) : Nat :=
  (s.data + (next_rel e).r_offset) % 4294967296

/-- The header that `flipper_application_load_section_data` reads for a record. -/
def payload_header (fap : FlipperApplication) (sec : ELFSection) : Elf32_Shdr :=
  (elf_read_section_header fap sec.sec_idx).2.2

/-- The open file after `flipper_application_load_section_data` has read the header of a
record. -/
def payload_fd (fap : FlipperApplication) (sec : ELFSection) : File :=
  (elf_read_section_header fap sec.sec_idx).2.1.fd

/-- Section index `k` is the first section named exactly `.fapmeta` that a scan starting at
`idx` meets, and every section from `idx` up to it is read. -/
def first_fapmeta (fap : FlipperApplication) (idx k : Nat) : Prop :=
  idx ≤ k ∧ (∀ i, idx ≤ i → i ≤ k → (elf_read_section fap i []).1 = true) ∧
    (∀ i, idx ≤ i → i < k → section_name_at fap i ≠ cstr ".fapmeta") ∧
    section_name_at fap k = cstr ".fapmeta"

/-- The ELF header fields read from the first 52 bytes of a file. -/
def file_ehdr (bytes : List Nat) : Elf32_Ehdr :=
  parse_ehdr ((bytes.take 52).map (fun b => b % 256))

/-- The file offset `e_shoff + e_shstrndx * sizeof(Elf32_Shdr)` of the header of the
section-name string table. -/
def shstr_header_offset (bytes : List Nat) : Nat :=
  ((file_ehdr bytes).e_shoff + (file_ehdr bytes).e_shstrndx * 40) % 4294967296

/-- The section header read from the 40 bytes at `shstr_header_offset`: the header of the
section-name string table. -/
def file_shstr_header (bytes : List Nat) : Elf32_Shdr :=
  parse_shdr (((bytes.drop (shstr_header_offset bytes)).take 40).map (fun b => b % 256))

/-- The name begins with `.text`, `.rodata`, `.data` or `.bss`. -/
def is_payload_name (name : List Nat) : Bool :=
  cstr_prefix (cstr ".text") name || cstr_prefix (cstr ".rodata") name ||
    cstr_prefix (cstr ".data") name || cstr_prefix (cstr ".bss") name

/-- The name begins with `.rel.text`, `.rel.rodata` or `.rel.data`. -/
def is_rel_name (name : List Nat) : Bool :=
  cstr_prefix (cstr ".rel.text") name || cstr_prefix (cstr ".rel.rodata") name ||
    cstr_prefix (cstr ".rel.data") name

/-- The record stored under a key, or the fresh record `{NULL, 0, 0}` that
`flipper_application_preload_section` inserts when there is none. -/
def record_or_new (d : List (List Nat × ELFSection)) (key : List Nat) : ELFSection :=
  (ELFSectionDict_get d key).getD { data := 0, sec_idx := 0, rel_sec_idx := 0 }

/-- The key under which `flipper_application_preload_section` stores the record of a section
that matched the entry `p` of `lookup_sections`. -/
def preload_key (p : List Nat × Nat) (name : List Nat) : List Nat :=
  if (p.2 &&& SectionTypeRelocate) ≠ 0 then name.drop 4 else name

/-- The name begins with `.text`, `.rodata` or `.data`, the prefixes whose `.rel` variant
is in `lookup_sections`. -/
def is_relocatable_name (name : List Nat) : Bool :=
  cstr_prefix (cstr ".text") name || cstr_prefix (cstr ".rodata") name ||
    cstr_prefix (cstr ".data") name

/-- The bytes of a file from an offset on, as a read delivers them. -/
def file_bytes_from (fd : File) (offset : Nat) : List Nat :=
  (fd.bytes.drop offset).map (fun b => b % 256)

/-- The C string at the head of a run of bytes: the bytes before the first NUL. -/
def c_string_of (bs : List Nat) : List Nat := bs.takeWhile (fun b => b != 0)

/-! ## Concrete inputs -/

/-- A site holding the BL placeholder `0xF7FF 0xFFFE` at address `0x20000000`. -/
def mem_bl_placeholder : Mem := write16 (write16 (fun _ => 0) 0x20000000 0xF7FF) 0x20000002 0xFFFE

/-- The four bytes of a little-endian 32-bit word. -/
def le32_bytes (v : Nat) : List Nat :=
  [v % 256, v / 256 % 256, v / 65536 % 256, v / 16777216 % 256]

/-- The 40 bytes of a section header with the given name offset, type, file offset, size and
alignment. -/
def shdr_bytes (name type offset size align : Nat) : List Nat :=
  le32_bytes name ++ le32_bytes type ++ le32_bytes 0 ++ le32_bytes 0 ++ le32_bytes offset ++
    le32_bytes size ++ le32_bytes 0 ++ le32_bytes 0 ++ le32_bytes align ++ le32_bytes 0

/-- The 52 bytes of an ELF header with the given entry, section table offset, section count
and index of the section-name string table. -/
def ehdr_bytes (entry shoff shnum shstrndx : Nat) : List Nat :=
  List.replicate 24 0 ++ le32_bytes entry ++ le32_bytes 0 ++ le32_bytes shoff ++
    List.replicate 12 0 ++ [shnum % 256, shnum / 256, shstrndx % 256, shstrndx / 256]

/-- The 16 bytes of a symbol entry. -/
def sym_bytes (name value shndx : Nat) : List Nat :=
  le32_bytes name ++ le32_bytes value ++ le32_bytes 0 ++ [0, 0, shndx % 256, shndx / 256]

/-- The 8 bytes of a relocation entry. -/
def rel_bytes (offset sym type : Nat) : List Nat :=
  le32_bytes offset ++ le32_bytes (sym * 256 + type)

/-- An empty handle over a file system that holds one file, at the empty path; the manifest
record has 4 bytes, the heap starts at `0x20000000` and the host resolves the name `bar` to
`0xDEADBEEF` and no other name. -/
def fap_with (file : List Nat) : FlipperApplication :=
  { storage := fun p => if p = [] then some file else none,
    fd := { bytes := [], pos := 0 },
    elf := { entry := 0, sections_count := 0, section_table := 0, section_table_strings := 0,
             symbol_count := 0, symbol_table := 0, symbol_table_strings := 0, sections := [],
             relocation_cache := [] },
    state := { mmap_entry_count := 0, mmap_entries := [], debug_link_size := 0, debug_link := 0 },
    manifest := [0, 0, 0, 0],
    manifest_size := 4,
    resolver_callback := fun n => if n = cstr "bar" then some 0xDEADBEEF else none,
    mem := fun _ => 0,
    heap := 0x20000000,
    stack_garbage := [] }

/-- The handle after `LoadHeaders` and `LoadSectionTable` on a file. -/
def fap_classified (file : List Nat) : FlipperApplication :=
  (flipper_application_load_section_table
    (flipper_application_load_elf_headers (fap_with file) []).2).2

/-- The section-name string table of the concrete objects:
`.text` at 1, `.bss` at 7, `.symtab` at 12, `.strtab` at 20, `.shstrtab` at 28, `.fapmeta` at
38, `.rel.text` at 47; 57 bytes. -/
def shstrtab_bytes : List Nat :=
  [0] ++ cstr ".text" ++ [0] ++ cstr ".bss" ++ [0] ++ cstr ".symtab" ++ [0] ++
  cstr ".strtab" ++ [0] ++ cstr ".shstrtab" ++ [0] ++ cstr ".fapmeta" ++ [0] ++
  cstr ".rel.text" ++ [0]

/-- An object file with `.text` (8 bytes in the file, `0x4770 0xBF00` twice), `.bss`, a
section 3 that is `.symtab` when `name3 = 12`, `.strtab`, `.shstrtab` and `.fapmeta`;
`e_entry`, the name offset of section 3, the size of `.bss` and the `sh_size` of `.text` are
parameters. The section table is at 52, the strings at 332, `.text` at 392, the manifest at
400; the file has 404 bytes. -/
def elf_basic (entry name3 bss_size text_size : Nat) : List Nat :=
  ehdr_bytes entry 52 7 5 ++
  shdr_bytes 0 0 0 0 0 ++
  shdr_bytes 1 1 392 text_size 4 ++
  shdr_bytes 7 8 400 bss_size 4 ++
  shdr_bytes name3 2 400 0 4 ++
  shdr_bytes 20 3 400 0 1 ++
  shdr_bytes 28 3 332 57 1 ++
  shdr_bytes 38 1 400 4 1 ++
  shstrtab_bytes ++ [0, 0, 0] ++
  [0x70, 0x47, 0x00, 0xBF, 0x70, 0x47, 0x00, 0xBF] ++
  [1, 2, 3, 4]

/-- The object `elf_basic` with `e_entry = 0`, a `.symtab` and a `.bss` of `sh_size = 0`. -/
def elf_empty_bss : List Nat := elf_basic 0 12 0 8

/-- An object file with relocations. Section 1 (8 zero bytes at 432) is `.text` when
`name1 = 1`; section 2 is `.rel.text` with two `R_ARM_ABS32` entries, at offset 0 against
symbol 1 (`foo`, undefined) and at offset 4 against symbol 2 (`bar`, undefined); then
`.symtab` (3 symbols), `.strtab`, `.shstrtab`, `.fapmeta` and a 4-byte `.bss`. The section
table is at 52, the section names at 372, the relocation entries at 440, the symbols at 456,
the symbol names at 504, the manifest at 513. -/
def elf_reloc (name1 : Nat) : List Nat :=
  ehdr_bytes 0 52 8 5 ++
  shdr_bytes 0 0 0 0 0 ++
  shdr_bytes name1 1 432 8 4 ++
  shdr_bytes 47 9 440 16 4 ++
  shdr_bytes 12 2 456 48 4 ++
  shdr_bytes 20 3 504 9 1 ++
  shdr_bytes 28 3 372 57 1 ++
  shdr_bytes 38 1 513 4 1 ++
  shdr_bytes 7 8 517 4 4 ++
  shstrtab_bytes ++ [0, 0, 0] ++
  [0, 0, 0, 0, 0, 0, 0, 0] ++
  rel_bytes 0 1 2 ++ rel_bytes 4 2 2 ++
  sym_bytes 0 0 0 ++ sym_bytes 1 0 0 ++ sym_bytes 5 0 0 ++
  [0] ++ cstr "foo" ++ [0] ++ cstr "bar" ++ [0] ++
  [1, 2, 3, 4]

/-- The handle after `LoadHeaders` on a file. -/
def fap_headers (file : List Nat) : FlipperApplication :=
  (flipper_application_load_elf_headers (fap_with file) []).2

/-- The handle at the start of the loop of `elf_relocate` for the `.text` record of
`elf_reloc 1`: every record loaded, the cursor at the first relocation entry (440). -/
def reloc_start : FlipperApplication :=
  let f := after_load (fap_classified (elf_reloc 1))
  { f with fd := { bytes := f.fd.bytes, pos := 440 } }

/-- The `.text` record of `elf_reloc 1` after loading. -/
def reloc_text : ELFSection := { data := 0x20000000, sec_idx := 1, rel_sec_idx := 2 }

/-- The object `elf_basic 1 12 16 8` with a foreign identification: `EI_CLASS = 2` (64-bit),
`EI_DATA = 2` (big-endian) and `e_machine = 62` (x86-64). -/
def elf_foreign : List Nat :=
  [0x7F, 0x45, 0x4C, 0x46, 2, 2, 1, 0, 0, 0, 0, 0, 0, 0, 0, 0, 1, 0, 62, 0] ++
    (elf_basic 1 12 16 8).drop 20

/-- A handle on a file that holds, from offset 2 on, a string of `n` letters `A`, its NUL and
further bytes; the cursor is at 1. -/
def fap_string (n : Nat) : FlipperApplication :=
  { fap_with [] with
    fd := { bytes := [7, 7] ++ List.replicate n 65 ++ [0, 66, 0], pos := 1 } }

/-- The handle after `LoadHeaders` on `elf_basic 1 12 16 8`, whose `.fapmeta` section
(index 6) holds 4 bytes, for a manifest record of 2 bytes. -/
def fap_short_record : FlipperApplication :=
  { fap_headers (elf_basic 1 12 16 8) with manifest_size := 2, manifest := [0, 0] }

/-! # Theorems -/

/-! ## Bit operations as arithmetic -/

theorem and_shifted_mask (x m n : Nat) : x &&& (m <<< n) = ((x >>> n) &&& m) <<< n := by
  apply Nat.eq_of_testBit_eq
  intro i
  simp only [Nat.testBit_and, Nat.testBit_shiftLeft, Nat.testBit_shiftRight]
  by_cases h : i ≥ n
  · have : n + (i - n) = i := by omega
    simp [h, this]
  · simp [h]

theorem and_f800 (u : Nat) : u &&& 0xf800 = (u / 2048 % 32) * 2048 := by
  have h := and_shifted_mask u 31 11
  have e : (31 : Nat) <<< 11 = 0xf800 := by decide
  rw [e] at h
  rw [h, Nat.shiftLeft_eq, Nat.shiftRight_eq_div_pow]
  have := Nat.and_pow_two_sub_one_eq_mod (u / 2 ^ 11) 5
  norm_num at this ⊢
  rw [this]

theorem and_13 (y : Nat) (h : y < 16) : y &&& 13 = y - 2 * (y / 2 % 2) := by
  interval_cases y <;> decide

theorem and_d000 (l : Nat) : l &&& 0xd000 = (l / 4096 % 16 - 2 * (l / 8192 % 2)) * 4096 := by
  have h := and_shifted_mask l 13 12
  have e : (13 : Nat) <<< 12 = 0xd000 := by decide
  rw [e] at h
  rw [h, Nat.shiftLeft_eq, Nat.shiftRight_eq_div_pow]
  have h2 := Nat.and_pow_two_sub_one_eq_mod (l / 2 ^ 12) 4
  have h3 : l / 2 ^ 12 &&& 13 = (l / 2 ^ 12 &&& 15) &&& 13 := by
    rw [Nat.land_assoc]; rfl
  rw [h3]
  norm_num at h2 ⊢
  rw [h2, and_13 _ (Nat.mod_lt _ (by norm_num))]
  have : l / 4096 % 16 / 2 % 2 = l / 8192 % 2 := by omega
  rw [this]

theorem or_eq_add (a b k : Nat) (ha : a % 2 ^ k = 0) (hb : b < 2 ^ k) : a ||| b = a + b := by
  have h := Nat.mul_add_lt_is_or hb (a / 2 ^ k)
  have e : 2 ^ k * (a / 2 ^ k) = a := by
    have := Nat.div_add_mod a (2 ^ k)
    omega
  rw [e] at h
  exact h.symm

theorem xor_bit (a b : Nat) (ha : a ≤ 1) (hb : b ≤ 1) : a ^^^ b = (a + b) % 2 := by
  interval_cases a <;> interval_cases b <;> decide

theorem int_not (x : Int) : ~~~x = -x - 1 := by
  cases x with
  | ofNat n => show Int.negSucc n = -(n : Int) - 1; rw [Int.negSucc_eq]; omega
  | negSucc n => show ((n : Nat) : Int) = -(Int.negSucc n) - 1; rw [Int.negSucc_eq]; omega



theorem or5_eq_add (s a b c d : Nat) (_hs : s ≤ 1) (ha : a ≤ 1) (hb : b ≤ 1) (hc : c < 1024)
    (hd : d < 2048) :
    s * 16777216 ||| a * 8388608 ||| b * 4194304 ||| c * 4096 ||| d * 2 =
      s * 16777216 + a * 8388608 + b * 4194304 + c * 4096 + d * 2 := by
  have h1 : s * 16777216 ||| a * 8388608 = s * 16777216 + a * 8388608 :=
    or_eq_add _ _ 24 (by omega) (by omega)
  have h2 : (s * 16777216 + a * 8388608) ||| b * 4194304 =
      s * 16777216 + a * 8388608 + b * 4194304 := or_eq_add _ _ 23 (by omega) (by omega)
  have h3 : (s * 16777216 + a * 8388608 + b * 4194304) ||| c * 4096 =
      s * 16777216 + a * 8388608 + b * 4194304 + c * 4096 :=
    or_eq_add _ _ 22 (by omega) (by omega)
  have h4 : (s * 16777216 + a * 8388608 + b * 4194304 + c * 4096) ||| d * 2 =
      s * 16777216 + a * 8388608 + b * 4194304 + c * 4096 + d * 2 :=
    or_eq_add _ _ 12 (by omega) (by omega)
  rw [h1, h2, h3, h4]

theorem not32_and_one (x : Nat) (h : x ≤ 1) : not32 x &&& 1 = 1 - x := by
  unfold not32
  rw [Nat.and_one_is_mod]
  omega

theorem raw_offset_eq (upper lower : Nat) :
    ((((upper >>> 10) &&& 1) <<< 24) |||
      ((not32 (((lower >>> 13) &&& 1) ^^^ ((upper >>> 10) &&& 1)) &&& 1) <<< 23) |||
      ((not32 (((lower >>> 11) &&& 1) ^^^ ((upper >>> 10) &&& 1)) &&& 1) <<< 22) |||
      ((upper &&& 0x03ff) <<< 12) ||| ((lower &&& 0x07ff) <<< 1)) = raw_offset upper lower := by
  have e10 : upper &&& 0x03ff = upper % 1024 := Nat.and_pow_two_sub_one_eq_mod upper 10
  have e11 : lower &&& 0x07ff = lower % 2048 := Nat.and_pow_two_sub_one_eq_mod lower 11
  have hS : (upper >>> 10) &&& 1 = upper / 1024 % 2 := by
    rw [Nat.and_one_is_mod, Nat.shiftRight_eq_div_pow]
  have h1 : (lower >>> 13) &&& 1 = lower / 8192 % 2 := by
    rw [Nat.and_one_is_mod, Nat.shiftRight_eq_div_pow]
  have h2 : (lower >>> 11) &&& 1 = lower / 2048 % 2 := by
    rw [Nat.and_one_is_mod, Nat.shiftRight_eq_div_pow]
  rw [e10, e11, hS, h1, h2, xor_bit _ _ (by omega) (by omega), xor_bit _ _ (by omega) (by omega),
    not32_and_one _ (by omega), not32_and_one _ (by omega)]
  simp only [Nat.shiftLeft_eq]
  exact or5_eq_add _ _ _ _ _ (by omega) (by omega) (by omega) (by omega) (by omega)

theorem raw_offset_lt (upper lower : Nat) : raw_offset upper lower < 33554432 := by
  unfold raw_offset; omega

theorem and_bit24 (x : Nat) : x &&& 0x01000000 = (x / 16777216 % 2) * 16777216 := by
  have h := and_shifted_mask x 1 24
  have e : (1 : Nat) <<< 24 = 0x01000000 := by decide
  rw [e] at h
  rw [h, Nat.shiftLeft_eq, Nat.shiftRight_eq_div_pow, Nat.and_one_is_mod]

theorem thumb_branch_offset_eq (upper lower : Nat) :
    thumb_branch_offset upper lower =
      if raw_offset upper lower / 16777216 % 2 = 1 then (raw_offset upper lower : Int) - 33554432
      else (raw_offset upper lower : Int) := by
  unfold thumb_branch_offset
  simp only [raw_offset_eq, and_bit24]
  have := raw_offset_lt upper lower
  split <;> split <;> first | rfl | omega


theorem upper_or (a s d : Nat) (hs : s ≤ 1) (hd : d < 1024) :
    a * 2048 ||| s * 1024 ||| d = a * 2048 + s * 1024 + d := by
  have h1 : a * 2048 ||| s * 1024 = a * 2048 + s * 1024 := or_eq_add _ _ 11 (by omega) (by omega)
  have h2 : (a * 2048 + s * 1024) ||| d = a * 2048 + s * 1024 + d :=
    or_eq_add _ _ 10 (by omega) (by omega)
  rw [h1, h2]

theorem lower_or (A B j1 j2 d : Nat) (hB : B ≤ 1) (h1 : j1 ≤ 1) (h2 : j2 ≤ 1)
    (hd : d < 2048) :
    (A * 4 + B) * 4096 ||| j1 * 8192 ||| j2 * 2048 ||| d =
      A * 16384 + j1 * 8192 + B * 4096 + j2 * 2048 + d := by
  have e1 : (A * 4 + B) * 4096 ||| j1 * 8192 = A * 16384 + j1 * 8192 + B * 4096 := by
    have a1 : A * 16384 ||| B * 4096 = A * 16384 + B * 4096 :=
      or_eq_add _ _ 14 (by omega) (by omega)
    have a2 : A * 16384 ||| j1 * 8192 = A * 16384 + j1 * 8192 :=
      or_eq_add _ _ 14 (by omega) (by omega)
    have a3 : (A * 16384 + j1 * 8192) ||| B * 4096 = A * 16384 + j1 * 8192 + B * 4096 :=
      or_eq_add _ _ 13 (by omega) (by omega)
    have a4 : (A * 4 + B) * 4096 = A * 16384 + B * 4096 := by omega
    rw [a4, ← a1, Nat.lor_assoc, Nat.lor_comm (B * 4096), ← Nat.lor_assoc, a2, a3]
  have e2 : (A * 16384 + j1 * 8192 + B * 4096) ||| j2 * 2048 =
      A * 16384 + j1 * 8192 + B * 4096 + j2 * 2048 := or_eq_add _ _ 12 (by omega) (by omega)
  have e3 : (A * 16384 + j1 * 8192 + B * 4096 + j2 * 2048) ||| d =
      A * 16384 + j1 * 8192 + B * 4096 + j2 * 2048 + d := or_eq_add _ _ 11 (by omega) (by omega)
  rw [e1, e2, e3]

theorem toU32_and_one (x : Int) : toU32 x &&& 1 = (x % 2).toNat := by
  unfold toU32
  rw [Nat.and_one_is_mod]
  omega

theorem toU32_and_3ff (x : Int) : toU32 x &&& 0x03ff = (x % 1024).toNat := by
  unfold toU32
  have := Nat.and_pow_two_sub_one_eq_mod (x % 4294967296).toNat 10
  norm_num at this ⊢
  rw [this]
  omega

theorem toU32_and_7ff (x : Int) : toU32 x &&& 0x07ff = (x % 2048).toNat := by
  unfold toU32
  have := Nat.and_pow_two_sub_one_eq_mod (x % 4294967296).toNat 11
  norm_num at this ⊢
  rw [this]
  omega

theorem jmp_call_insn_eq (upper lower relAddr symAddr : Nat) :
    jmp_call_insn upper lower relAddr symAddr =
      ((upper / 2048 % 32) * 2048 +
          (new_offset upper lower relAddr symAddr / 16777216 % 2).toNat * 1024 +
          (new_offset upper lower relAddr symAddr / 4096 % 1024).toNat,
        (lower / 16384 % 4) * 16384 +
          (((new_offset upper lower relAddr symAddr / 16777216 % 2).toNat +
            (1 - (new_offset upper lower relAddr symAddr / 8388608 % 2).toNat)) % 2) * 8192 +
          (lower / 4096 % 2) * 4096 +
          (((new_offset upper lower relAddr symAddr / 16777216 % 2).toNat +
            (1 - (new_offset upper lower relAddr symAddr / 4194304 % 2).toNat)) % 2) * 2048 +
          (new_offset upper lower relAddr symAddr / 2 % 2048).toNat) := by
  have hoff : (if toU32 (toI32 (raw_offset upper lower)) &&& 0x01000000 ≠ 0
        then toI32 (raw_offset upper lower) - 0x02000000 else toI32 (raw_offset upper lower)) =
      thumb_branch_offset upper lower := by
    have hlt := raw_offset_lt upper lower
    have e1 : toI32 (raw_offset upper lower) = (raw_offset upper lower : Int) := by
      unfold toI32; split <;> omega
    have e2 : toU32 ((raw_offset upper lower : Nat) : Int) = raw_offset upper lower := by
      unfold toU32; omega
    rw [e1, e2]
    unfold thumb_branch_offset
    simp only [raw_offset_eq]
  unfold jmp_call_insn
  simp only [raw_offset_eq, hoff]
  have hfold : toI32 (toU32 (thumb_branch_offset upper lower) + sub32 symAddr relAddr) =
      new_offset upper lower relAddr symAddr := rfl
  simp only [hfold]
  generalize new_offset upper lower relAddr symAddr = o
  have s24 : o >>> (24 : Nat) = o / 16777216 := by rw [Int.shiftRight_eq_div_pow]; norm_num
  have s23 : o >>> (23 : Nat) = o / 8388608 := by rw [Int.shiftRight_eq_div_pow]; norm_num
  have s22 : o >>> (22 : Nat) = o / 4194304 := by rw [Int.shiftRight_eq_div_pow]; norm_num
  have s12 : o >>> (12 : Nat) = o / 4096 := by rw [Int.shiftRight_eq_div_pow]; norm_num
  have s1 : o >>> (1 : Nat) = o / 2 := by rw [Int.shiftRight_eq_div_pow]; norm_num
  have n23 : ((-(o / 8388608) - 1) % 2).toNat = 1 - (o / 8388608 % 2).toNat := by omega
  have n22 : ((-(o / 4194304) - 1) % 2).toNat = 1 - (o / 4194304 % 2).toNat := by omega
  simp only [s24, s23, s22, s12, s1, int_not, toU32_and_one, toU32_and_3ff, toU32_and_7ff,
    and_f800, and_d000, Nat.shiftLeft_eq, n23, n22]
  rw [xor_bit _ _ (by omega) (by omega), xor_bit _ _ (by omega) (by omega)]
  have hl : (lower / 4096 % 16 - 2 * (lower / 8192 % 2)) * 4096 =
      (lower / 16384 % 4 * 4 + lower / 4096 % 2) * 4096 := by omega
  have p10 : (2 : Nat) ^ 10 = 1024 := by norm_num
  have p13 : (2 : Nat) ^ 13 = 8192 := by norm_num
  have p11 : (2 : Nat) ^ 11 = 2048 := by norm_num
  rw [hl, p10, p13, p11, upper_or _ _ _ (by omega) (by omega),
    lower_or _ _ _ _ _ (by omega) (by omega) (by omega) (by omega)]
  refine Prod.ext ?_ ?_
  · show _ % 65536 = _
    omega
  · show _ % 65536 = _
    omega

theorem raw_offset_encode (a s b23 b22 i10 A B i11 : Nat) (hs : s ≤ 1) (h23 : b23 ≤ 1)
    (h22 : b22 ≤ 1) (h10 : i10 < 1024) (hB : B ≤ 1) (h11 : i11 < 2048) :
    raw_offset (a * 2048 + s * 1024 + i10)
        (A * 16384 + ((s + (1 - b23)) % 2) * 8192 + B * 4096 + ((s + (1 - b22)) % 2) * 2048 + i11) =
      s * 16777216 + b23 * 8388608 + b22 * 4194304 + i10 * 4096 + i11 * 2 := by
  have cs : s = 0 ∨ s = 1 := by omega
  have c23 : b23 = 0 ∨ b23 = 1 := by omega
  have c22 : b22 = 0 ∨ b22 = 1 := by omega
  unfold raw_offset
  rcases cs with rfl | rfl <;> rcases c23 with rfl | rfl <;> rcases c22 with rfl | rfl <;>
    norm_num <;> omega

theorem int_bits25 (o : Int) :
    o % 33554432 = (((o / 16777216 % 2).toNat * 16777216 + (o / 8388608 % 2).toNat * 8388608 +
      (o / 4194304 % 2).toNat * 4194304 + (o / 4096 % 1024).toNat * 4096 +
      (o / 2 % 2048).toNat * 2 : Nat) : Int) + o % 2 := by
  omega

theorem decode_patched (upper lower relAddr symAddr : Nat) :
    thumb_branch_offset (jmp_call_insn upper lower relAddr symAddr).1
        (jmp_call_insn upper lower relAddr symAddr).2 =
      mask25_signed (((symAddr : Int) - (relAddr : Int) + thumb_branch_offset upper lower) -
        ((symAddr : Int) - (relAddr : Int) + thumb_branch_offset upper lower) % 2) := by
  have hno : new_offset upper lower relAddr symAddr % 4294967296 =
      ((symAddr : Int) - (relAddr : Int) + thumb_branch_offset upper lower) % 4294967296 := by
    unfold new_offset toI32 toU32 sub32
    split <;> omega
  rw [jmp_call_insn_eq]
  generalize new_offset upper lower relAddr symAddr = o at hno ⊢
  generalize thumb_branch_offset upper lower = d at hno ⊢
  rw [thumb_branch_offset_eq]
  simp only []
  rw [raw_offset_encode _ _ _ _ _ _ _ _ (by omega) (by omega) (by omega) (by omega) (by omega)
    (by omega)]
  have hb := int_bits25 o
  generalize (o / 16777216 % 2).toNat * 16777216 + (o / 8388608 % 2).toNat * 8388608 +
      (o / 4194304 % 2).toNat * 4194304 + (o / 4096 % 1024).toNat * 4096 +
      (o / 2 % 2048).toNat * 2 = r at hb ⊢
  unfold mask25_signed
  split <;> split <;> omega

theorem thumb_branch_offset_even (upper lower : Nat) : thumb_branch_offset upper lower % 2 = 0 := by
  rw [thumb_branch_offset_eq]
  unfold raw_offset
  split <;> omega

theorem jmp_call_insn_lt (upper lower relAddr symAddr : Nat) :
    (jmp_call_insn upper lower relAddr symAddr).1 < 65536 ∧
      (jmp_call_insn upper lower relAddr symAddr).2 < 65536 := by
  unfold jmp_call_insn
  exact ⟨Nat.mod_lt _ (by norm_num), Nat.mod_lt _ (by norm_num)⟩

/-! ## Memory -/

theorem read8_write8_same (m : Mem) (a v : Nat) : read8 (write8 m a v) a = v % 256 := by
  simp [read8, write8]

theorem read8_write8_other (m : Mem) (a b v : Nat) (h : b ≠ a) :
    read8 (write8 m a v) b = read8 m b := by
  simp [read8, write8, h]

theorem read16_write16_same (m : Mem) (a v : Nat) : read16 (write16 m a v) a = v % 65536 := by
  unfold read16 write16
  rw [read8_write8_other _ _ _ _ (by omega), read8_write8_same, read8_write8_same]
  omega

theorem read16_write16_other (m : Mem) (a b v : Nat) (h : b + 1 < a ∨ a + 1 < b) :
    read16 (write16 m a v) b = read16 m b := by
  unfold read16 write16
  rw [read8_write8_other _ _ _ _ (by omega), read8_write8_other _ _ _ _ (by omega),
    read8_write8_other _ _ _ _ (by omega), read8_write8_other _ _ _ _ (by omega)]

theorem read32_write32_same (m : Mem) (a v : Nat) :
    read32 (write32 m a v) a = v % 4294967296 := by
  unfold read32 write32
  rw [read8_write8_other _ _ _ _ (by omega), read8_write8_other _ _ _ _ (by omega),
    read8_write8_other _ _ _ _ (by omega), read8_write8_same,
    read8_write8_other _ _ _ _ (by omega), read8_write8_other _ _ _ _ (by omega),
    read8_write8_same, read8_write8_other _ _ _ _ (by omega), read8_write8_same,
    read8_write8_same]
  omega

theorem write32_bytes (m : Mem) (a v : Nat) :
    read8 (write32 m a v) a = v % 256 ∧ read8 (write32 m a v) (a + 1) = v / 256 % 256 ∧
      read8 (write32 m a v) (a + 2) = v / 65536 % 256 ∧
      read8 (write32 m a v) (a + 3) = v / 16777216 % 256 := by
  unfold write32
  refine ⟨?_, ?_, ?_, ?_⟩
  · rw [read8_write8_other _ _ _ _ (by omega), read8_write8_other _ _ _ _ (by omega),
      read8_write8_other _ _ _ _ (by omega), read8_write8_same]
  · rw [read8_write8_other _ _ _ _ (by omega), read8_write8_other _ _ _ _ (by omega),
      read8_write8_same]
  · rw [read8_write8_other _ _ _ _ (by omega), read8_write8_same]
  · rw [read8_write8_same]

/-- The patched halfwords read back from memory are the ones `jmp_call_insn` computes. -/
theorem elf_relocate_jmp_call_read (mem : Mem) (relAddr : Nat) (type : Int) (symAddr : Nat) :
    read16 (elf_relocate_jmp_call mem relAddr type symAddr) relAddr =
        (jmp_call_insn (read16 mem relAddr) (read16 mem (relAddr + 2)) relAddr symAddr).1 ∧
      read16 (elf_relocate_jmp_call mem relAddr type symAddr) (relAddr + 2) =
        (jmp_call_insn (read16 mem relAddr) (read16 mem (relAddr + 2)) relAddr symAddr).2 := by
  have hlt := jmp_call_insn_lt (read16 mem relAddr) (read16 mem (relAddr + 2)) relAddr symAddr
  unfold elf_relocate_jmp_call
  simp only []
  constructor
  · rw [read16_write16_other _ _ _ _ (by omega), read16_write16_same]
    exact Nat.mod_eq_of_lt hlt.1
  · rw [read16_write16_same]
    exact Nat.mod_eq_of_lt hlt.2

/-! ## Relocation of one site -/

/-- C1 (as stated, refuted): a BL placeholder at `0x20000000` relocated against the odd
address `0x20000401` (a Thumb function symbol) decodes to `0x3FC`, while
`(symAddr - relAddr) + addend` masked to 25 bits signed is `0x3FD`: the encoding has no bit 0. -/
theorem C1_counterexample :
    thumb_branch_offset
        (read16 (elf_relocate_jmp_call mem_bl_placeholder 0x20000000 R_ARM_THM_PC22 0x20000401)
          0x20000000)
        (read16 (elf_relocate_jmp_call mem_bl_placeholder 0x20000000 R_ARM_THM_PC22 0x20000401)
          0x20000002) ≠
      mask25_signed (((0x20000401 : Nat) : Int) - ((0x20000000 : Nat) : Int) +
        thumb_branch_offset (read16 mem_bl_placeholder 0x20000000)
          (read16 mem_bl_placeholder 0x20000002)) := by
  decide

/-- C1 (amended): for every memory, site and symbol address, the signed 25-bit offset decoded
from the halfwords patched by `elf_relocate_jmp_call` is `(symAddr - relAddr) + addend` with
bit 0 cleared, masked to 25 bits signed; when `symAddr - relAddr` is even it is
`(symAddr - relAddr) + addend` masked to 25 bits signed. -/
theorem C1_jmp_call_offset (mem : Mem) (relAddr : Nat) (type : Int) (symAddr : Nat) :
    thumb_branch_offset (read16 (elf_relocate_jmp_call mem relAddr type symAddr) relAddr)
        (read16 (elf_relocate_jmp_call mem relAddr type symAddr) (relAddr + 2)) =
      mask25_signed
        (((symAddr : Int) - (relAddr : Int) +
            thumb_branch_offset (read16 mem relAddr) (read16 mem (relAddr + 2))) -
          ((symAddr : Int) - (relAddr : Int) +
            thumb_branch_offset (read16 mem relAddr) (read16 mem (relAddr + 2))) % 2) ∧
    (((symAddr : Int) - (relAddr : Int)) % 2 = 0 →
      thumb_branch_offset (read16 (elf_relocate_jmp_call mem relAddr type symAddr) relAddr)
          (read16 (elf_relocate_jmp_call mem relAddr type symAddr) (relAddr + 2)) =
        mask25_signed ((symAddr : Int) - (relAddr : Int) +
          thumb_branch_offset (read16 mem relAddr) (read16 mem (relAddr + 2)))) := by
  have hr := elf_relocate_jmp_call_read mem relAddr type symAddr
  have hd := decode_patched (read16 mem relAddr) (read16 mem (relAddr + 2)) relAddr symAddr
  have he := thumb_branch_offset_even (read16 mem relAddr) (read16 mem (relAddr + 2))
  rw [hr.1, hr.2, hd]
  refine ⟨rfl, fun h => ?_⟩
  have : ((symAddr : Int) - (relAddr : Int) +
      thumb_branch_offset (read16 mem relAddr) (read16 mem (relAddr + 2))) % 2 = 0 := by omega
  rw [this, sub_zero]

/-- C1 witness: the BL placeholder at `0x20000000` relocated against `0x20000400`. -/
theorem C1_jmp_call_offset_witness :
    (((0x20000400 : Nat) : Int) - ((0x20000000 : Nat) : Int)) % 2 = 0 ∧
      thumb_branch_offset
          (read16 (elf_relocate_jmp_call mem_bl_placeholder 0x20000000 R_ARM_THM_PC22 0x20000400)
            0x20000000)
          (read16 (elf_relocate_jmp_call mem_bl_placeholder 0x20000000 R_ARM_THM_PC22 0x20000400)
            (0x20000000 + 2)) =
        mask25_signed (((0x20000400 : Nat) : Int) - ((0x20000000 : Nat) : Int) +
          thumb_branch_offset (read16 mem_bl_placeholder 0x20000000)
            (read16 mem_bl_placeholder (0x20000000 + 2))) :=
  ⟨by decide,
    (C1_jmp_call_offset mem_bl_placeholder 0x20000000 R_ARM_THM_PC22 0x20000400).2 (by decide)⟩

/-- C2: for every memory, site and symbol address, `elf_relocate_symbol` with `R_ARM_ABS32`
returns true and leaves at the site the little-endian word `(before + symAddr) mod 2^32`; a
site holding 0 relocated against `0xDEADBEEF` reads the bytes `EF BE AD DE`. -/
theorem C2_abs32 (mem : Mem) (relAddr symAddr : Nat) :
    (elf_relocate_symbol mem relAddr R_ARM_ABS32 symAddr).1 = true ∧
      read32 (elf_relocate_symbol mem relAddr R_ARM_ABS32 symAddr).2 relAddr =
        (read32 mem relAddr + symAddr) % 4294967296 ∧
      (read8 (elf_relocate_symbol (write32 mem relAddr 0) relAddr R_ARM_ABS32 0xDEADBEEF).2
          relAddr = 0xEF ∧
        read8 (elf_relocate_symbol (write32 mem relAddr 0) relAddr R_ARM_ABS32 0xDEADBEEF).2
          (relAddr + 1) = 0xBE ∧
        read8 (elf_relocate_symbol (write32 mem relAddr 0) relAddr R_ARM_ABS32 0xDEADBEEF).2
          (relAddr + 2) = 0xAD ∧
        read8 (elf_relocate_symbol (write32 mem relAddr 0) relAddr R_ARM_ABS32 0xDEADBEEF).2
          (relAddr + 3) = 0xDE) := by
  have h : ∀ (m : Mem) (s : Nat), elf_relocate_symbol m relAddr R_ARM_ABS32 s =
      (true, write32 m relAddr ((read32 m relAddr + s) % 4294967296)) := by
    intro m s
    simp [elf_relocate_symbol]
  refine ⟨by rw [h], ?_, ?_⟩
  · rw [h]
    simp only []
    rw [read32_write32_same, Nat.mod_mod]
  · rw [h]
    simp only []
    rw [read32_write32_same]
    have hb := write32_bytes (write32 mem relAddr 0) relAddr
      ((0 % 4294967296 + 0xDEADBEEF) % 4294967296)
    exact hb

/-- C4: for every relocation type outside `R_ARM_NONE`, `R_ARM_ABS32`, `R_ARM_THM_PC22` and
`R_ARM_THM_JUMP24`, `elf_relocate_symbol` returns false and the memory after the call is the
memory before it. -/
theorem C4_unsupported (mem : Mem) (relAddr : Nat) (type : Int) (symAddr : Nat)
    (h0 : type ≠ R_ARM_NONE) (h1 : type ≠ R_ARM_ABS32) (h2 : type ≠ R_ARM_THM_PC22)
    (h3 : type ≠ R_ARM_THM_JUMP24) :
    (elf_relocate_symbol mem relAddr type symAddr).1 = false ∧
      ∀ a, (elf_relocate_symbol mem relAddr type symAddr).2 a = mem a := by
  have _ := h0
  simp [elf_relocate_symbol, h1, h2, h3]

/-- C4 witness: relocation type 3 (`R_ARM_REL32`). -/
theorem C4_unsupported_witness :
    (elf_relocate_symbol (fun _ => 0) 0x20000000 3 0x08000000).1 = false ∧
      ∀ a, (elf_relocate_symbol (fun _ => 0) 0x20000000 3 0x08000000).2 a = (fun _ => 0) a :=
  C4_unsupported (fun _ => 0) 0x20000000 3 0x08000000 (by decide) (by decide) (by decide)
    (by decide)

/-! ## What reading, loading and relocating leave unchanged -/

theorem same_src_refl (a : FlipperApplication) : same_src a a := ⟨rfl, rfl, rfl, rfl, rfl⟩

theorem same_src_symm {a b : FlipperApplication} (h : same_src a b) : same_src b a :=
  ⟨h.1.symm, h.2.1.symm, h.2.2.1.symm, h.2.2.2.1.symm, h.2.2.2.2.symm⟩

theorem same_src_trans {a b c : FlipperApplication} (h1 : same_src a b) (h2 : same_src b c) :
    same_src a c :=
  ⟨h1.1.trans h2.1, h1.2.1.trans h2.2.1, h1.2.2.1.trans h2.2.2.1, h1.2.2.2.1.trans h2.2.2.2.1,
    h1.2.2.2.2.trans h2.2.2.2.2⟩

theorem storage_file_seek_bytes (fd : File) (off : Nat) :
    (storage_file_seek fd off).2.bytes = fd.bytes := by
  unfold storage_file_seek; split <;> rfl

theorem storage_file_read_bytes (fd : File) (n : Nat) :
    (storage_file_read fd n).2.bytes = fd.bytes := rfl

/-- A seek gives the same verdict on two files with the same content, and the same file when
it succeeds. -/
theorem storage_file_seek_congr (f g : File) (h : f.bytes = g.bytes) (off : Nat) :
    (storage_file_seek f off).1 = (storage_file_seek g off).1 ∧
      ((storage_file_seek f off).1 = true →
        (storage_file_seek f off).2 = (storage_file_seek g off).2) := by
  unfold storage_file_seek
  rw [h]
  split
  · exact ⟨rfl, fun _ => rfl⟩
  · exact ⟨rfl, fun h => by simp at h⟩

theorem elf_read_string_loop_bytes (fuel : Nat) (fd : File) (buffer name : List Nat) :
    (elf_read_string_loop fuel fd buffer name).2.1.bytes = fd.bytes := by
  induction fuel generalizing fd buffer name with
  | zero => rfl
  | succ n ih =>
    unfold elf_read_string_loop
    simp only []
    split
    · rfl
    · split
      · rfl
      · rw [ih]; rfl

theorem elf_read_string_from_offset_congr (a b : FlipperApplication) (hb : a.fd.bytes = b.fd.bytes)
    (hg : a.stack_garbage = b.stack_garbage) (offset : Nat) (name : List Nat) :
    (elf_read_string_from_offset a offset name).1 = (elf_read_string_from_offset b offset name).1 ∧
      (elf_read_string_from_offset a offset name).2.2 =
        (elf_read_string_from_offset b offset name).2.2 := by
  have hs := storage_file_seek_congr a.fd b.fd hb offset
  unfold elf_read_string_from_offset
  simp only []
  rw [← hs.1, ← hg]
  by_cases hc : (storage_file_seek a.fd offset).1 = true
  · rw [← hs.2 hc]
    simp [hc]
  · simp [hc]

theorem elf_read_string_from_offset_src (a : FlipperApplication) (offset : Nat)
    (name : List Nat) : same_src (elf_read_string_from_offset a offset name).2.1 a := by
  unfold elf_read_string_from_offset
  refine ⟨?_, rfl, rfl, rfl, rfl⟩
  simp only []
  rw [storage_file_seek_bytes]
  split
  · rw [elf_read_string_loop_bytes, storage_file_seek_bytes]
  · rw [storage_file_seek_bytes]

theorem elf_read_section_header_congr (a b : FlipperApplication) (h : same_src a b) (i : Nat) :
    (elf_read_section_header a i).1 = (elf_read_section_header b i).1 ∧
      (elf_read_section_header a i).2.2 = (elf_read_section_header b i).2.2 := by
  have hs := storage_file_seek_congr a.fd b.fd h.1
    ((a.elf.section_table + i * 40) % 4294967296)
  unfold elf_read_section_header
  simp only []
  rw [← h.2.1, ← hs.1]
  by_cases hc : (storage_file_seek a.fd ((a.elf.section_table + i * 40) % 4294967296)).1 = true
  · rw [← hs.2 hc]
    simp [hc]
  · simp [hc]

theorem elf_read_section_header_src (a : FlipperApplication) (i : Nat) :
    same_src (elf_read_section_header a i).2.1 a := by
  unfold elf_read_section_header
  simp only []
  split
  · exact ⟨by simp [storage_file_read_bytes, storage_file_seek_bytes], rfl, rfl, rfl, rfl⟩
  · exact ⟨by simp [storage_file_seek_bytes], rfl, rfl, rfl, rfl⟩

theorem elf_read_section_src (a : FlipperApplication) (i : Nat) (name : List Nat) :
    same_src (elf_read_section a i name).2.1 a := by
  unfold elf_read_section
  simp only []
  split
  · exact elf_read_section_header_src a i
  · split
    · exact same_src_trans (elf_read_string_from_offset_src _ _ _) (elf_read_section_header_src a i)
    · exact elf_read_section_header_src a i

theorem elf_read_section_congr (a b : FlipperApplication) (h : same_src a b) (i : Nat)
    (name : List Nat) :
    (elf_read_section a i name).1 = (elf_read_section b i name).1 ∧
      (elf_read_section a i name).2.2 = (elf_read_section b i name).2.2 := by
  have hh := elf_read_section_header_congr a b h i
  have ha := elf_read_section_header_src a i
  have hb := elf_read_section_header_src b i
  have hab : same_src (elf_read_section_header a i).2.1 (elf_read_section_header b i).2.1 :=
    same_src_trans ha (same_src_trans h (same_src_symm hb))
  have hn := elf_read_string_from_offset_congr _ _ hab.1 hab.2.2.2.1
    (((elf_read_section_header a i).2.1.elf.section_table_strings +
      (elf_read_section_header a i).2.2.sh_name) % 4294967296) name
  unfold elf_read_section elf_read_section_name
  simp only []
  rw [← hh.1, ← hh.2, ← hab.2.2.1]
  split
  · exact ⟨rfl, rfl⟩
  · split
    · exact ⟨hn.1, by rw [hn.2]⟩
    · exact ⟨rfl, rfl⟩

theorem flipper_application_load_metadata_congr (a b : FlipperApplication) (h : same_src a b)
    (hdr : Elf32_Shdr) :
    (flipper_application_load_metadata a hdr).1 = (flipper_application_load_metadata b hdr).1 := by
  have hs := storage_file_seek_congr a.fd b.fd h.1 hdr.sh_offset
  unfold flipper_application_load_metadata
  rw [← h.2.2.2.2]
  split
  · rfl
  · simp only []
    rw [← hs.1]
    by_cases hc : (storage_file_seek a.fd hdr.sh_offset).1 = true
    · rw [← hs.2 hc]
      simp [hc]
    · simp [hc]

theorem flipper_application_load_metadata_src (a : FlipperApplication) (hdr : Elf32_Shdr) :
    same_src (flipper_application_load_metadata a hdr).2 a := by
  unfold flipper_application_load_metadata
  split
  · exact same_src_refl a
  · simp only []
    split
    · exact ⟨by simp [storage_file_read_bytes, storage_file_seek_bytes], rfl, rfl, rfl, rfl⟩
    · exact ⟨by simp [storage_file_seek_bytes], rfl, rfl, rfl, rfl⟩

theorem flipper_application_load_debug_link_congr (a b : FlipperApplication) (h : same_src a b)
    (hdr : Elf32_Shdr) :
    (flipper_application_load_debug_link a hdr).1 =
      (flipper_application_load_debug_link b hdr).1 := by
  have hs := storage_file_seek_congr a.fd b.fd h.1 hdr.sh_offset
  unfold flipper_application_load_debug_link malloc aligned_malloc
  simp only []
  rw [← hs.1]
  by_cases hc : (storage_file_seek a.fd hdr.sh_offset).1 = true
  · rw [← hs.2 hc]
    simp [hc]
  · simp [hc]

theorem flipper_application_load_debug_link_src (a : FlipperApplication) (hdr : Elf32_Shdr) :
    same_src (flipper_application_load_debug_link a hdr).2 a := by
  unfold flipper_application_load_debug_link malloc aligned_malloc
  simp only []
  split
  · exact ⟨by simp [storage_file_read_bytes, storage_file_seek_bytes], rfl, rfl, rfl, rfl⟩
  · exact ⟨by simp [storage_file_seek_bytes], rfl, rfl, rfl, rfl⟩

theorem flipper_application_preload_section_congr (a b : FlipperApplication) (h : same_src a b)
    (i : Nat) (hdr : Elf32_Shdr) (name : List Nat) :
    (flipper_application_preload_section a i hdr name).1 =
      (flipper_application_preload_section b i hdr name).1 := by
  have hm := flipper_application_load_metadata_congr a b h hdr
  have hd := flipper_application_load_debug_link_congr a b h hdr
  unfold flipper_application_preload_section
  split
  · rfl
  · simp only []
    rw [← hm, ← hd]
    split
    · rfl
    · split
      · rfl
      · split
        · split <;> rfl
        · split
          · split <;> rfl
          · rfl

theorem flipper_application_preload_section_src (a : FlipperApplication) (i : Nat)
    (hdr : Elf32_Shdr) (name : List Nat) :
    same_src (flipper_application_preload_section a i hdr name).2 a := by
  have hm := flipper_application_load_metadata_src a hdr
  have hd := flipper_application_load_debug_link_src a hdr
  unfold flipper_application_preload_section
  split
  · exact ⟨rfl, rfl, rfl, rfl, rfl⟩
  · simp only []
    split
    · exact ⟨rfl, rfl, rfl, rfl, rfl⟩
    · split
      · exact ⟨rfl, rfl, rfl, rfl, rfl⟩
      · split
        · split <;> exact hm
        · split
          · split <;> exact hd
          · exact same_src_refl a

theorem lookup_sections_class (fap : FlipperApplication) (i : Nat) (hdr : Elf32_Shdr)
    (name : List Nat) (p : List Nat × Nat)
    (h : lookup_sections.find? (fun p => cstr_prefix p.1 name) = some p) :
    (flipper_application_preload_section fap i hdr name).1 = p.2 ∧
      p.2.testBit 0 = false ∧ p.2.testBit 2 = false ∧ p.2.testBit 11 = false ∧ p.2 ≠ 0 ∧
      name ≠ cstr ".symtab" ∧ name ≠ cstr ".strtab" ∧ name ≠ cstr ".fapmeta" ∧
      name ≠ cstr ".gnu_debuglink" := by
  have hp : p ∈ lookup_sections := List.mem_of_find?_eq_some h
  have hpre : cstr_prefix p.1 name = true := by
    have := List.find?_some h
    simpa using this
  refine ⟨?_, ?_⟩
  · unfold flipper_application_preload_section
    rw [h]
  · simp only [lookup_sections, List.mem_cons, List.mem_singleton, List.not_mem_nil,
      or_false] at hp
    rcases hp with rfl | rfl | rfl | rfl | rfl | rfl | rfl <;>
      refine ⟨by decide, by decide, by decide, by decide, ?_, ?_, ?_, ?_⟩ <;>
      (intro hn; rw [hn] at hpre; revert hpre; decide)

theorem preload_class_none (fap : FlipperApplication) (i : Nat) (hdr : Elf32_Shdr)
    (name : List Nat) (h : lookup_sections.find? (fun p => cstr_prefix p.1 name) = none) :
    (flipper_application_preload_section fap i hdr name).1 =
      if name = cstr ".symtab" then SectionTypeSymTab
      else if name = cstr ".strtab" then SectionTypeStrTab
      else if name = cstr ".fapmeta" then
        (if (flipper_application_load_metadata fap hdr).1 then SectionTypeFappManifest
         else SectionTypeERROR)
      else if name = cstr ".gnu_debuglink" then
        (if (flipper_application_load_debug_link fap hdr).1 then SectionTypeDebugLink
         else SectionTypeERROR)
      else SectionTypeUnused := by
  unfold flipper_application_preload_section
  rw [h]
  simp only []
  split
  · rfl
  · split
    · rfl
    · split
      · split <;> rfl
      · split
        · split <;> rfl
        · rfl

theorem cstr_names_ne :
    cstr ".strtab" ≠ cstr ".symtab" ∧ cstr ".fapmeta" ≠ cstr ".symtab" ∧
      cstr ".fapmeta" ≠ cstr ".strtab" ∧ cstr ".gnu_debuglink" ≠ cstr ".symtab" ∧
      cstr ".gnu_debuglink" ≠ cstr ".strtab" ∧ cstr ".gnu_debuglink" ≠ cstr ".fapmeta" := by
  decide

theorem preload_class_bit0 (fap : FlipperApplication) (i : Nat) (hdr : Elf32_Shdr)
    (name : List Nat) :
    (flipper_application_preload_section fap i hdr name).1.testBit 0 = true ↔
      name = cstr ".symtab" := by
  cases h : lookup_sections.find? (fun p => cstr_prefix p.1 name) with
  | some p =>
    have hc := lookup_sections_class fap i hdr name p h
    rw [hc.1]
    constructor
    · intro hb; rw [hc.2.1] at hb; exact absurd hb (by simp)
    · intro hn; exact absurd hn hc.2.2.2.2.2.1
  | none =>
    rw [preload_class_none fap i hdr name h]
    constructor
    · intro hb
      by_contra hn
      rw [if_neg hn] at hb
      revert hb
      split
      · decide
      · split
        · split <;> decide
        · split
          · split <;> decide
          · decide
    · intro hn
      rw [if_pos hn]
      decide

theorem preload_class_bit2 (fap : FlipperApplication) (i : Nat) (hdr : Elf32_Shdr)
    (name : List Nat) :
    (flipper_application_preload_section fap i hdr name).1.testBit 2 = true ↔
      name = cstr ".strtab" := by
  cases h : lookup_sections.find? (fun p => cstr_prefix p.1 name) with
  | some p =>
    have hc := lookup_sections_class fap i hdr name p h
    rw [hc.1]
    constructor
    · intro hb; rw [hc.2.2.1] at hb; exact absurd hb (by simp)
    · intro hn; exact absurd hn hc.2.2.2.2.2.2.1
  | none =>
    rw [preload_class_none fap i hdr name h]
    constructor
    · intro hb
      by_contra hn
      revert hb
      rw [if_neg hn]
      split
      · decide
      · split
        · split <;> decide
        · split
          · split <;> decide
          · decide
    · intro hn
      have h1 : name ≠ cstr ".symtab" := by rw [hn]; exact cstr_names_ne.1
      rw [if_neg h1, if_pos hn]
      decide

theorem preload_class_bit11 (fap : FlipperApplication) (i : Nat) (hdr : Elf32_Shdr)
    (name : List Nat) :
    (flipper_application_preload_section fap i hdr name).1.testBit 11 = true ↔
      (name = cstr ".fapmeta" ∧ (flipper_application_load_metadata fap hdr).1 = true) := by
  cases h : lookup_sections.find? (fun p => cstr_prefix p.1 name) with
  | some p =>
    have hc := lookup_sections_class fap i hdr name p h
    rw [hc.1]
    constructor
    · intro hb; rw [hc.2.2.2.1] at hb; exact absurd hb (by simp)
    · intro hn; exact absurd hn.1 hc.2.2.2.2.2.2.2.1
  | none =>
    rw [preload_class_none fap i hdr name h]
    constructor
    · intro hb
      by_cases h1 : name = cstr ".symtab"
      · rw [if_pos h1] at hb; exact absurd hb (by decide)
      · rw [if_neg h1] at hb
        by_cases h2 : name = cstr ".strtab"
        · rw [if_pos h2] at hb; exact absurd hb (by decide)
        · rw [if_neg h2] at hb
          by_cases h3 : name = cstr ".fapmeta"
          · rw [if_pos h3] at hb
            refine ⟨h3, ?_⟩
            by_contra hm
            rw [if_neg hm] at hb
            revert hb; decide
          · rw [if_neg h3] at hb
            exfalso
            revert hb
            split
            · split <;> decide
            · decide
    · intro hn
      have h1 : name ≠ cstr ".symtab" := by rw [hn.1]; exact cstr_names_ne.2.1
      have h2 : name ≠ cstr ".strtab" := by rw [hn.1]; exact cstr_names_ne.2.2.1
      rw [if_neg h1, if_neg h2, if_pos hn.1, if_pos hn.2]
      decide

theorem preload_class_error (fap : FlipperApplication) (i : Nat) (hdr : Elf32_Shdr)
    (name : List Nat) :
    (flipper_application_preload_section fap i hdr name).1 = SectionTypeERROR ↔
      ((name = cstr ".fapmeta" ∧ (flipper_application_load_metadata fap hdr).1 = false) ∨
        (name = cstr ".gnu_debuglink" ∧
          (flipper_application_load_debug_link fap hdr).1 = false)) := by
  cases h : lookup_sections.find? (fun p => cstr_prefix p.1 name) with
  | some p =>
    have hc := lookup_sections_class fap i hdr name p h
    rw [hc.1]
    constructor
    · intro hb; exact absurd hb hc.2.2.2.2.1
    · rintro (hn | hn)
      · exact absurd hn.1 hc.2.2.2.2.2.2.2.1
      · exact absurd hn.1 hc.2.2.2.2.2.2.2.2
  | none =>
    rw [preload_class_none fap i hdr name h]
    by_cases h1 : name = cstr ".symtab"
    · rw [if_pos h1]
      constructor
      · intro hb; exact absurd hb (by decide)
      · rintro (hn | hn)
        · rw [h1] at hn; exact absurd hn.1.symm cstr_names_ne.2.1
        · rw [h1] at hn; exact absurd hn.1.symm cstr_names_ne.2.2.2.1
    · rw [if_neg h1]
      by_cases h2 : name = cstr ".strtab"
      · rw [if_pos h2]
        constructor
        · intro hb; exact absurd hb (by decide)
        · rintro (hn | hn)
          · rw [h2] at hn; exact absurd hn.1.symm cstr_names_ne.2.2.1
          · rw [h2] at hn; exact absurd hn.1.symm cstr_names_ne.2.2.2.2.1
      · rw [if_neg h2]
        by_cases h3 : name = cstr ".fapmeta"
        · rw [if_pos h3]
          by_cases hm : (flipper_application_load_metadata fap hdr).1 = true
          · rw [if_pos hm]
            constructor
            · intro hb; exact absurd hb (by decide)
            · rintro (hn | hn)
              · rw [hm] at hn; exact absurd hn.2 (by simp)
              · rw [h3] at hn; exact absurd hn.1.symm cstr_names_ne.2.2.2.2.2
          · rw [if_neg hm]
            constructor
            · intro _; exact Or.inl ⟨h3, by simpa using hm⟩
            · intro _; rfl
        · rw [if_neg h3]
          by_cases h4 : name = cstr ".gnu_debuglink"
          · rw [if_pos h4]
            by_cases hm : (flipper_application_load_debug_link fap hdr).1 = true
            · rw [if_pos hm]
              constructor
              · intro hb; exact absurd hb (by decide)
              · rintro (hn | hn)
                · exact absurd hn.1 h3
                · rw [hm] at hn; exact absurd hn.2 (by simp)
            · rw [if_neg hm]
              constructor
              · intro _; exact Or.inr ⟨h4, by simpa using hm⟩
              · intro _; rfl
          · rw [if_neg h4]
            constructor
            · intro hb; exact absurd hb (by decide)
            · rintro (hn | hn)
              · exact absurd hn.1 h3
              · exact absurd hn.1 h4

theorem testBit_valid (i : Nat) (h : SectionTypeValid.testBit i = true) :
    i = 0 ∨ i = 2 ∨ i = 11 := by
  by_cases hi : i < 12
  · interval_cases i <;> first | (left; rfl) | (right; left; rfl) | (right; right; rfl) |
      exact absurd h (by decide)
  · have : SectionTypeValid < 2 ^ i :=
      lt_of_lt_of_le (by decide : SectionTypeValid < 2 ^ 12)
        (Nat.pow_le_pow_right (by norm_num) (by omega))
    rw [Nat.testBit_lt_two_pow this] at h
    exact absurd h (by simp)

theorem is_flags_set_valid (v : Nat) :
    IS_FLAGS_SET v SectionTypeValid = true ↔
      ∀ k, (k = 0 ∨ k = 2 ∨ k = 11) → v.testBit k = true := by
  unfold IS_FLAGS_SET
  rw [beq_iff_eq]
  constructor
  · intro h k hk
    have hb : (v &&& SectionTypeValid).testBit k = SectionTypeValid.testBit k := by rw [h]
    rw [Nat.testBit_and] at hb
    have hv : SectionTypeValid.testBit k = true := by
      rcases hk with rfl | rfl | rfl <;> decide
    rw [hv] at hb
    simpa using hb
  · intro h
    apply Nat.eq_of_testBit_eq
    intro i
    rw [Nat.testBit_and]
    by_cases hv : SectionTypeValid.testBit i = true
    · rw [hv, h i (testBit_valid i hv)]
      rfl
    · have : SectionTypeValid.testBit i = false := by simpa using hv
      rw [this]
      simp

theorem load_section_table_loop_iff (n : Nat) :
    ∀ (idx loaded : Nat) (fap fap0 : FlipperApplication), same_src fap fap0 →
      (((flipper_application_load_section_table_loop n idx loaded fap).1 = true ∧
          IS_FLAGS_SET (flipper_application_load_section_table_loop n idx loaded fap).2.1
            SectionTypeValid = true) ↔
        (scan_ok fap0 idx n ∧
          ∀ k, (k = 0 ∨ k = 2 ∨ k = 11) → (loaded.testBit k = true ∨ scan_has fap0 idx n k))) := by
  induction n with
  | zero =>
    intro idx loaded fap fap0 _
    unfold flipper_application_load_section_table_loop
    simp only [true_and]
    rw [is_flags_set_valid]
    constructor
    · intro h
      exact ⟨fun i h1 h2 => by omega, fun k hk => Or.inl (h k hk)⟩
    · rintro ⟨_, h⟩ k hk
      rcases h k hk with h | ⟨i, h1, h2, _⟩
      · exact h
      · omega
  | succ n ih =>
    intro idx loaded fap fap0 hsrc
    have hr := elf_read_section_congr fap fap0 hsrc idx []
    have hrs : same_src (elf_read_section fap idx []).2.1 (elf_read_section fap0 idx []).2.1 :=
      same_src_trans (elf_read_section_src fap idx [])
        (same_src_trans hsrc (same_src_symm (elf_read_section_src fap0 idx [])))
    have hcls : (flipper_application_preload_section (elf_read_section fap idx []).2.1 idx
        (elf_read_section fap idx []).2.2.1 (elf_read_section fap idx []).2.2.2).1 =
        section_class fap0 idx := by
      unfold section_class section_header_at section_name_at
      rw [← hr.2]
      exact flipper_application_preload_section_congr _ _ hrs _ _ _
    have hps : ∀ (x : FlipperApplication), same_src x
        (flipper_application_preload_section (elf_read_section fap idx []).2.1 idx
          (elf_read_section fap idx []).2.2.1 (elf_read_section fap idx []).2.2.2).2 →
        same_src x fap0 := fun x hx =>
      same_src_trans hx (same_src_trans (flipper_application_preload_section_src _ _ _ _)
        (same_src_trans (elf_read_section_src fap idx []) hsrc))
    unfold flipper_application_load_section_table_loop
    simp only []
    rw [hcls]
    by_cases hok : (elf_read_section fap idx []).1 = true
    · simp only [hok, Bool.not_true, Bool.false_eq_true, if_false]
      by_cases herr : section_class fap0 idx = SectionTypeERROR
      · rw [if_pos herr]
        constructor
        · rintro ⟨_, h⟩
          have h2 : IS_FLAGS_SET SectionTypeERROR SectionTypeValid = true := h
          exact absurd h2 (by decide)
        · rintro ⟨h, _⟩
          exact absurd herr (h idx (le_refl _) (by omega)).2
      · rw [if_neg herr]
        have hsrc2 : same_src
            (if section_class fap0 idx &&& SectionTypeGdbSection ≠ 0 then
              { (flipper_application_preload_section (elf_read_section fap idx []).2.1 idx
                  (elf_read_section fap idx []).2.2.1 (elf_read_section fap idx []).2.2.2).2 with
                state := { (flipper_application_preload_section (elf_read_section fap idx []).2.1
                  idx (elf_read_section fap idx []).2.2.1
                  (elf_read_section fap idx []).2.2.2).2.state with
                  mmap_entry_count := (flipper_application_preload_section
                    (elf_read_section fap idx []).2.1 idx (elf_read_section fap idx []).2.2.1
                    (elf_read_section fap idx []).2.2.2).2.state.mmap_entry_count + 1 } }
            else (flipper_application_preload_section (elf_read_section fap idx []).2.1 idx
                  (elf_read_section fap idx []).2.2.1 (elf_read_section fap idx []).2.2.2).2)
            fap0 := by
          split
          · exact hps _ ⟨rfl, rfl, rfl, rfl, rfl⟩
          · exact hps _ (same_src_refl _)
        rw [ih (idx + 1) (loaded ||| section_class fap0 idx) _ fap0 hsrc2]
        have hok0 : (elf_read_section fap0 idx []).1 = true := by rw [← hr.1]; exact hok
        constructor
        · rintro ⟨hs, hb⟩
          refine ⟨fun i h1 h2 => ?_, fun k hk => ?_⟩
          · by_cases hi : i = idx
            · subst hi; exact ⟨hok0, herr⟩
            · exact hs i (by omega) (by omega)
          · rcases hb k hk with h | ⟨i, h1, h2, h3⟩
            · rw [Nat.testBit_or, Bool.or_eq_true] at h
              rcases h with h | h
              · exact Or.inl h
              · exact Or.inr ⟨idx, le_refl _, by omega, h⟩
            · exact Or.inr ⟨i, by omega, by omega, h3⟩
        · rintro ⟨hs, hb⟩
          refine ⟨fun i h1 h2 => hs i (by omega) (by omega), fun k hk => ?_⟩
          rcases hb k hk with h | ⟨i, h1, h2, h3⟩
          · left
            rw [Nat.testBit_or, h]
            rfl
          · by_cases hi : i = idx
            · subst hi
              left
              rw [Nat.testBit_or, h3]
              simp
            · exact Or.inr ⟨i, by omega, by omega, h3⟩
    · have hokf : (elf_read_section fap idx []).1 = false := by simpa using hok
      simp only [hokf, Bool.not_false, if_true]
      constructor
      · rintro ⟨h, _⟩
        exact absurd h (by simp)
      · rintro ⟨h, _⟩
        have := (h idx (le_refl _) (by omega)).1
        rw [← hr.1, hokf] at this
        exact absurd this (by simp)

theorem keeps_refl (a : FlipperApplication) : keeps a a := ⟨rfl, rfl, rfl, rfl⟩

theorem keeps_trans {a b c : FlipperApplication} (h1 : keeps a b) (h2 : keeps b c) : keeps a c :=
  ⟨h2.1.trans h1.1, h2.2.1.trans h1.2.1, h2.2.2.1.trans h1.2.2.1, h2.2.2.2.trans h1.2.2.2⟩

theorem elf_read_string_from_offset_keeps (fap : FlipperApplication) (offset : Nat)
    (name : List Nat) : keeps fap (elf_read_string_from_offset fap offset name).2.1 := by
  unfold elf_read_string_from_offset
  refine ⟨rfl, rfl, rfl, ?_⟩
  simp only []
  rw [storage_file_seek_bytes]
  split
  · rw [elf_read_string_loop_bytes, storage_file_seek_bytes]
  · rw [storage_file_seek_bytes]

theorem elf_read_section_header_keeps (fap : FlipperApplication) (i : Nat) :
    keeps fap (elf_read_section_header fap i).2.1 := by
  unfold elf_read_section_header
  simp only []
  split
  · exact ⟨rfl, rfl, rfl, by simp [storage_file_read_bytes, storage_file_seek_bytes]⟩
  · exact ⟨rfl, rfl, rfl, by simp [storage_file_seek_bytes]⟩

theorem elf_read_section_keeps (fap : FlipperApplication) (i : Nat) (name : List Nat) :
    keeps fap (elf_read_section fap i name).2.1 := by
  unfold elf_read_section
  simp only []
  split
  · exact elf_read_section_header_keeps fap i
  · split
    · exact keeps_trans (elf_read_section_header_keeps fap i)
        (elf_read_string_from_offset_keeps _ _ _)
    · exact elf_read_section_header_keeps fap i

theorem elf_read_symbol_keeps (e : FlipperApplication) (n : Nat) (name : List Nat) :
    keeps e (elf_read_symbol e n name).2.1 := by
  unfold elf_read_symbol
  simp only []
  have hk : ∀ (x : FlipperApplication) (old : Nat), keeps e x →
      keeps e { x with fd := (storage_file_seek x.fd old).2 } := by
    intro x old hx
    exact ⟨hx.1, hx.2.1, hx.2.2.1, by simp [storage_file_seek_bytes, hx.2.2.2]⟩
  apply hk
  have h1 : keeps e { e with fd := (storage_file_read (storage_file_seek e.fd
      ((e.elf.symbol_table + n * 16) % 4294967296)).2 16).2 } :=
    ⟨rfl, rfl, rfl, by simp [storage_file_read_bytes, storage_file_seek_bytes]⟩
  split
  · split
    · split
      · exact keeps_trans h1 (elf_read_string_from_offset_keeps _ _ _)
      · exact keeps_trans h1 (elf_read_section_keeps _ _ _)
    · exact h1
  · exact ⟨rfl, rfl, rfl, by simp [storage_file_seek_bytes]⟩

theorem elf_relocate_resolve_keeps (e : FlipperApplication) (symEntry : Nat) :
    keeps e (elf_relocate_resolve e symEntry).2.1 := by
  unfold elf_relocate_resolve
  split
  · exact keeps_refl e
  · simp only []
    split
    · exact elf_read_symbol_keeps e symEntry []
    · have h := elf_read_symbol_keeps e symEntry []
      exact ⟨h.1, h.2.1, h.2.2.1, h.2.2.2⟩

theorem elf_relocate_patch_keeps (e : FlipperApplication) (relAddr : Nat) (relType : Int)
    (symAddr : Nat) (r : Bool) : keeps e (elf_relocate_patch e relAddr relType symAddr r).2 := by
  unfold elf_relocate_patch
  split
  · exact ⟨rfl, rfl, rfl, rfl⟩
  · exact keeps_refl e

theorem elf_relocate_loop_keeps (n : Nat) (e : FlipperApplication) (s : ELFSection) (r : Bool) :
    keeps e (elf_relocate_loop n e s r).2 := by
  induction n generalizing e r with
  | zero => exact keeps_refl e
  | succ n ih =>
    unfold elf_relocate_loop
    simp only []
    have h1 : keeps e { e with fd := (storage_file_read e.fd 8).2 } := ⟨rfl, rfl, rfl, rfl⟩
    split
    · exact h1
    · split
      · exact keeps_trans h1 (elf_relocate_resolve_keeps _ _)
      · exact keeps_trans (keeps_trans h1 (elf_relocate_resolve_keeps _ _))
          (keeps_trans (elf_relocate_patch_keeps _ _ _ _ _) (ih _ _))

theorem elf_relocate_keeps (e : FlipperApplication) (h : Elf32_Shdr) (s : ELFSection) :
    keeps e (elf_relocate e h s).2 := by
  unfold elf_relocate
  split
  · have h1 : keeps e { e with fd := (storage_file_seek e.fd h.sh_offset).2 } :=
      ⟨rfl, rfl, rfl, by simp [storage_file_seek_bytes]⟩
    exact keeps_trans h1 (elf_relocate_loop_keeps _ _ _ _)
  · exact keeps_refl e

theorem flipper_application_relocate_section_keeps (fap : FlipperApplication)
    (sec : ELFSection) : keeps fap (flipper_application_relocate_section fap sec).2 := by
  unfold flipper_application_relocate_section
  split
  · simp only []
    split
    · exact keeps_trans (elf_read_section_header_keeps _ _) (elf_relocate_keeps _ _ _)
    · exact elf_read_section_header_keeps _ _
  · exact keeps_refl fap

theorem load_sections_relocate_keeps (fap : FlipperApplication)
    (l : List (List Nat × ELFSection)) : keeps fap (load_sections_relocate fap l).2 := by
  induction l generalizing fap with
  | nil => exact keeps_refl fap
  | cons p rest ih =>
    obtain ⟨k, sec⟩ := p
    unfold load_sections_relocate
    exact keeps_trans (flipper_application_relocate_section_keeps _ _) (ih _)

theorem aligned_malloc_keeps (fap : FlipperApplication) (size align : Nat) :
    keeps fap (aligned_malloc fap size align).2 := ⟨rfl, rfl, rfl, rfl⟩

theorem flipper_application_load_section_data_keeps (fap : FlipperApplication)
    (sec : ELFSection) : keeps fap (flipper_application_load_section_data fap sec).2.1 := by
  unfold flipper_application_load_section_data
  have hh := elf_read_section_header_keeps fap sec.sec_idx
  split
  · exact keeps_refl fap
  · simp only []
    split
    · exact hh
    · split
      · exact hh
      · split
        · exact keeps_trans hh (aligned_malloc_keeps _ _ _)
        · split
          · exact keeps_trans hh ⟨rfl, rfl, rfl, by simp [storage_file_seek_bytes]; rfl⟩
          · exact keeps_trans hh
              ⟨rfl, rfl, rfl, by simp [storage_file_seek_bytes, storage_file_read_bytes]; rfl⟩

theorem load_sections_data_keeps (fap : FlipperApplication)
    (l : List (List Nat × ELFSection)) : keeps fap (load_sections_data fap l).2.1 := by
  induction l generalizing fap with
  | nil => exact keeps_refl fap
  | cons p rest ih =>
    obtain ⟨k, sec⟩ := p
    unfold load_sections_data
    exact keeps_trans (flipper_application_load_section_data_keeps _ _) (ih _)

/-! ## The name loop has enough fuel -/

theorem storage_file_read_length (fd : File) (n : Nat) :
    (storage_file_read fd n).1.length = min n (fd.bytes.length - fd.pos) := by
  simp [storage_file_read]

theorem storage_file_read_pos (fd : File) (n : Nat) :
    (storage_file_read fd n).2.pos = fd.pos + (storage_file_read fd n).1.length := rfl

/-- One more unit of fuel does not change the outcome of the name loop once the fuel exceeds
the number of bytes left in the file. -/
theorem elf_read_string_loop_fuel_succ (fuel : Nat) :
    ∀ (fd : File) (buffer name : List Nat), fd.bytes.length - fd.pos + 1 ≤ fuel →
      elf_read_string_loop (fuel + 1) fd buffer name =
        elf_read_string_loop fuel fd buffer name := by
  induction fuel with
  | zero => intro fd buffer name h; omega
  | succ n ih =>
    intro fd buffer name h
    rw [elf_read_string_loop.eq_def (n + 1 + 1), elf_read_string_loop.eq_def (n + 1)]
    simp only []
    split
    · rfl
    · split
      · rfl
      · rename_i h1 h2
        apply ih
        have hl := storage_file_read_length fd 32
        have hp := storage_file_read_pos fd 32
        have hb : (storage_file_read fd 32).2.bytes = fd.bytes := rfl
        have hne : (storage_file_read fd 32).1.length ≠ 0 := fun hc => h2 (Or.inr hc)
        rw [hb, hp]
        omega

/-- The fuel given by `elf_read_string_from_offset`, the number of bytes left plus one, is
enough: more fuel gives the same outcome, so the loop never stops for lack of fuel. -/
theorem elf_read_string_loop_fuel (k : Nat) (fd : File) (buffer name : List Nat) :
    elf_read_string_loop (fd.bytes.length - fd.pos + 1 + k) fd buffer name =
      elf_read_string_loop (fd.bytes.length - fd.pos + 1) fd buffer name := by
  induction k with
  | zero => rfl
  | succ k ih =>
    rw [← ih]
    exact elf_read_string_loop_fuel_succ (fd.bytes.length - fd.pos + 1 + k) fd buffer name
      (Nat.le_add_right _ _)

/-! ## The memory-map count -/

set_option maxRecDepth 1000000 in
/-- C5 (the code breaks its own assertion): on an object whose `.bss` has `sh_size = 0`,
`LoadHeaders` and `LoadSectionTable` succeed with `mmap_entry_count = 2`, every record loads
and relocates, one memory-map entry is populated, and
`furi_check(mmap_entry_idx == mmap_entry_count)` fails. -/
theorem C5_empty_bss_fails_check :
    (flipper_application_load_elf_headers (fap_with elf_empty_bss) []).1 = true ∧
    (flipper_application_load_section_table
      (flipper_application_load_elf_headers (fap_with elf_empty_bss) []).2).1 = true ∧
    (fap_classified elf_empty_bss).state.mmap_entry_count = 2 ∧
    (fap_classified elf_empty_bss).elf.sections =
      [(cstr ".text", { data := 0, sec_idx := 1, rel_sec_idx := 0 }),
       (cstr ".bss", { data := 0, sec_idx := 2, rel_sec_idx := 0 })] ∧
    (load_sections_data (fap_classified elf_empty_bss)
      (fap_classified elf_empty_bss).elf.sections).1 = true ∧
    (load_sections_data (fap_classified elf_empty_bss)
      (fap_classified elf_empty_bss).elf.sections).2.2 =
      [(cstr ".text", { data := 0x20000000, sec_idx := 1, rel_sec_idx := 0 }),
       (cstr ".bss", { data := 0, sec_idx := 2, rel_sec_idx := 0 })] ∧
    (flipper_application_load_sections (fap_classified elf_empty_bss)).isNone = true := by
  decide

/-! ## The section table -/

/-- C6: `LoadSectionTable` returns true if and only if every section index in
`1 .. sections_count-1` is read (header and name) and classified without error, and the
sections read include one named exactly `.symtab`, one named exactly `.strtab` and one named
exactly `.fapmeta` whose manifest loads; a section classifies as an error exactly when it is
a `.fapmeta` whose manifest does not load or a `.gnu_debuglink` that cannot be read; and the
function returns false for every file without a section named `.symtab`. -/
theorem C6_load_section_table (fap : FlipperApplication) :
    ((flipper_application_load_section_table fap).1 = true ↔
      ((∀ i, 1 ≤ i → i < fap.elf.sections_count →
          (elf_read_section fap i []).1 = true ∧ section_class fap i ≠ SectionTypeERROR) ∧
        (∃ i, 1 ≤ i ∧ i < fap.elf.sections_count ∧ section_name_at fap i = cstr ".symtab") ∧
        (∃ i, 1 ≤ i ∧ i < fap.elf.sections_count ∧ section_name_at fap i = cstr ".strtab") ∧
        (∃ i, 1 ≤ i ∧ i < fap.elf.sections_count ∧ section_name_at fap i = cstr ".fapmeta" ∧
          (flipper_application_load_metadata (elf_read_section fap i []).2.1
            (section_header_at fap i)).1 = true))) ∧
    (∀ i, section_class fap i = SectionTypeERROR ↔
      ((section_name_at fap i = cstr ".fapmeta" ∧
          (flipper_application_load_metadata (elf_read_section fap i []).2.1
            (section_header_at fap i)).1 = false) ∨
        (section_name_at fap i = cstr ".gnu_debuglink" ∧
          (flipper_application_load_debug_link (elf_read_section fap i []).2.1
            (section_header_at fap i)).1 = false))) ∧
    ((∀ i, 1 ≤ i → i < fap.elf.sections_count → section_name_at fap i ≠ cstr ".symtab") →
      (flipper_application_load_section_table fap).1 = false) := by
  have hiff : (flipper_application_load_section_table fap).1 = true ↔
      (scan_ok fap 1 (fap.elf.sections_count - 1) ∧
        ∀ k, (k = 0 ∨ k = 2 ∨ k = 11) → scan_has fap 1 (fap.elf.sections_count - 1) k) := by
    have h := load_section_table_loop_iff (fap.elf.sections_count - 1) 1 SectionTypeERROR
      { fap with elf := { fap.elf with sections := [] },
                 state := { fap.state with mmap_entry_count := 0 } } fap ⟨rfl, rfl, rfl, rfl, rfl⟩
    have hz : ∀ k, ¬ (SectionTypeERROR.testBit k = true) := by
      intro k; simp [SectionTypeERROR]
    have hl : (flipper_application_load_section_table fap).1 = true ↔
        ((flipper_application_load_section_table_loop (fap.elf.sections_count - 1) 1
            SectionTypeERROR
            { fap with elf := { fap.elf with sections := [] },
                       state := { fap.state with mmap_entry_count := 0 } }).1 = true ∧
          IS_FLAGS_SET (flipper_application_load_section_table_loop
            (fap.elf.sections_count - 1) 1 SectionTypeERROR
            { fap with elf := { fap.elf with sections := [] },
                       state := { fap.state with mmap_entry_count := 0 } }).2.1
            SectionTypeValid = true) := by
      unfold flipper_application_load_section_table
      simp only []
      split
      · rename_i hc
        constructor
        · intro hf; exact absurd hf (by simp)
        · rintro ⟨h1, _⟩
          rw [h1] at hc
          exact absurd hc (by simp)
      · rename_i hc
        constructor
        · intro hf; exact ⟨by simpa using hc, hf⟩
        · rintro ⟨_, h2⟩; exact h2
    rw [hl, h]
    constructor
    · rintro ⟨h1, h2⟩
      exact ⟨h1, fun k hk => (h2 k hk).resolve_left (hz k)⟩
    · rintro ⟨h1, h2⟩
      exact ⟨h1, fun k hk => Or.inr (h2 k hk)⟩
  have hrange : ∀ i, (1 ≤ i ∧ i < 1 + (fap.elf.sections_count - 1)) ↔
      (1 ≤ i ∧ i < fap.elf.sections_count) := by
    intro i; omega
  have hmain : (flipper_application_load_section_table fap).1 = true ↔
      ((∀ i, 1 ≤ i → i < fap.elf.sections_count →
          (elf_read_section fap i []).1 = true ∧ section_class fap i ≠ SectionTypeERROR) ∧
        (∃ i, 1 ≤ i ∧ i < fap.elf.sections_count ∧ section_name_at fap i = cstr ".symtab") ∧
        (∃ i, 1 ≤ i ∧ i < fap.elf.sections_count ∧ section_name_at fap i = cstr ".strtab") ∧
        (∃ i, 1 ≤ i ∧ i < fap.elf.sections_count ∧ section_name_at fap i = cstr ".fapmeta" ∧
          (flipper_application_load_metadata (elf_read_section fap i []).2.1
            (section_header_at fap i)).1 = true)) := by
    rw [hiff]
    constructor
    · rintro ⟨hs, hb⟩
      refine ⟨fun i h1 h2 => hs i h1 (by omega), ?_, ?_, ?_⟩
      · obtain ⟨i, h1, h2, h3⟩ := hb 0 (Or.inl rfl)
        exact ⟨i, h1, by omega, (preload_class_bit0 _ _ _ _).1 h3⟩
      · obtain ⟨i, h1, h2, h3⟩ := hb 2 (Or.inr (Or.inl rfl))
        exact ⟨i, h1, by omega, (preload_class_bit2 _ _ _ _).1 h3⟩
      · obtain ⟨i, h1, h2, h3⟩ := hb 11 (Or.inr (Or.inr rfl))
        have := (preload_class_bit11 _ _ _ _).1 h3
        exact ⟨i, h1, by omega, this.1, this.2⟩
    · rintro ⟨hs, ⟨i0, a1, a2, a3⟩, ⟨i2, b1, b2, b3⟩, ⟨i11, c1, c2, c3, c4⟩⟩
      refine ⟨fun i h1 h2 => hs i h1 (by omega), ?_⟩
      rintro k (rfl | rfl | rfl)
      · exact ⟨i0, a1, by omega, (preload_class_bit0 _ _ _ _).2 a3⟩
      · exact ⟨i2, b1, by omega, (preload_class_bit2 _ _ _ _).2 b3⟩
      · exact ⟨i11, c1, by omega, (preload_class_bit11 _ _ _ _).2 ⟨c3, c4⟩⟩
  refine ⟨hmain, fun i => preload_class_error _ _ _ _, fun hno => ?_⟩
  by_contra hc
  have ht : (flipper_application_load_section_table fap).1 = true := by simpa using hc
  obtain ⟨i, h1, h2, h3⟩ := (hmain.1 ht).2.1
  exact hno i h1 h2 h3

set_option maxRecDepth 1000000 in
/-- C6 witness: an object whose section 3 is a second `.strtab`, so that no section is
named `.symtab`. -/
theorem C6_load_section_table_witness :
    (∀ i, 1 ≤ i → i < (fap_headers (elf_basic 0 20 0 8)).elf.sections_count →
        section_name_at (fap_headers (elf_basic 0 20 0 8)) i ≠ cstr ".symtab") ∧
      (flipper_application_load_section_table (fap_headers (elf_basic 0 20 0 8))).1 = false :=
  ⟨fun i h1 h2 => by
      have h3 : i < 7 := h2
      interval_cases i <;> decide,
    (C6_load_section_table (fap_headers (elf_basic 0 20 0 8))).2.2 (fun i h1 h2 => by
      have h3 : i < 7 := h2
      interval_cases i <;> decide)⟩

/-! ## The entry point -/

theorem load_sections_mmap_text (l : List (List Nat × ELFSection))
    (hk : (l.map Prod.fst).Nodup) (entries : List (Nat × List Nat)) (t : Nat) :
    (load_sections_mmap l entries t).2 =
      match ELFSectionDict_get l (cstr ".text") with
      | some s => s.data % 4294967296
      | none => t := by
  induction l generalizing entries t with
  | nil => rfl
  | cons p rest ih =>
    obtain ⟨k, sec⟩ := p
    simp only [List.map_cons, List.nodup_cons] at hk
    unfold load_sections_mmap
    simp only []
    rw [ih hk.2]
    unfold ELFSectionDict_get
    by_cases hkey : k = cstr ".text"
    · subst hkey
      have hnone : List.lookup (cstr ".text") rest = none := by
        rw [List.lookup_eq_none_iff]
        intro p hp
        rw [bne_iff_ne]
        intro heq
        apply hk.1
        rw [List.mem_map]
        exact ⟨p, hp, heq.symm⟩
      simp [List.lookup, hnone]
    · have hne : (cstr ".text" == k) = false := by
        simpa using fun h => hkey h.symm
      simp [List.lookup, hne, hkey]

theorem load_sections_data_keys (fap : FlipperApplication) (l : List (List Nat × ELFSection)) :
    (load_sections_data fap l).2.2.map Prod.fst = l.map Prod.fst := by
  induction l generalizing fap with
  | nil => rfl
  | cons p rest ih =>
    obtain ⟨k, sec⟩ := p
    unfold load_sections_data
    simp only [List.map_cons]
    rw [ih]

theorem ELFSectionDict_set_at_keys (d : List (List Nat × ELFSection)) (key : List Nat)
    (v : ELFSection) :
    (ELFSectionDict_set_at d key v).map Prod.fst =
      if key ∈ d.map Prod.fst then d.map Prod.fst else d.map Prod.fst ++ [key] := by
  induction d with
  | nil => simp [ELFSectionDict_set_at]
  | cons p rest ih =>
    obtain ⟨k, w⟩ := p
    unfold ELFSectionDict_set_at
    by_cases hk : k = key
    · subst hk
      simp
    · have hk2 : ¬ key = k := fun h => hk h.symm
      simp only [if_neg hk, List.map_cons, ih, List.mem_cons, hk2, false_or]
      split <;> simp

theorem ELFSectionDict_set_at_nodup (d : List (List Nat × ELFSection)) (key : List Nat)
    (v : ELFSection) (h : (d.map Prod.fst).Nodup) :
    ((ELFSectionDict_set_at d key v).map Prod.fst).Nodup := by
  rw [ELFSectionDict_set_at_keys]
  split
  · exact h
  · rename_i hn
    rw [List.nodup_append]
    refine ⟨h, List.nodup_singleton key, ?_⟩
    intro a ha hb
    simp only [List.mem_singleton] at hb
    subst hb
    exact hn ha

theorem flipper_application_load_metadata_elf (a : FlipperApplication) (hdr : Elf32_Shdr) :
    (flipper_application_load_metadata a hdr).2.elf = a.elf := by
  unfold flipper_application_load_metadata
  split
  · rfl
  · simp only []
    split <;> rfl

theorem flipper_application_load_debug_link_elf (a : FlipperApplication) (hdr : Elf32_Shdr) :
    (flipper_application_load_debug_link a hdr).2.elf = a.elf := by
  unfold flipper_application_load_debug_link malloc aligned_malloc
  simp only []
  split <;> rfl

theorem flipper_application_preload_section_inv (e : Nat) (a : FlipperApplication) (i : Nat)
    (hdr : Elf32_Shdr) (name : List Nat) (h : table_inv e a) :
    table_inv e (flipper_application_preload_section a i hdr name).2 := by
  have hm := flipper_application_load_metadata_elf a hdr
  have hd := flipper_application_load_debug_link_elf a hdr
  unfold flipper_application_preload_section
  split
  · refine ⟨h.1, ?_⟩
    simp only []
    apply ELFSectionDict_set_at_nodup
    split
    · exact h.2
    · exact ELFSectionDict_set_at_nodup _ _ _ h.2
  · simp only []
    split
    · exact h
    · split
      · exact h
      · split
        · split <;> (unfold table_inv; rw [hm]; exact h)
        · split
          · split <;> (unfold table_inv; rw [hd]; exact h)
          · exact h

theorem load_section_table_loop_inv (e : Nat) (n : Nat) :
    ∀ (idx loaded : Nat) (fap : FlipperApplication), table_inv e fap →
      table_inv e (flipper_application_load_section_table_loop n idx loaded fap).2.2 := by
  induction n with
  | zero => intro idx loaded fap h; exact h
  | succ n ih =>
    intro idx loaded fap h
    have hr := elf_read_section_keeps fap idx []
    have h1 : table_inv e (elf_read_section fap idx []).2.1 := by
      unfold table_inv
      rw [hr.1, hr.2.1]
      exact h
    have h2 := flipper_application_preload_section_inv e _ idx
      (elf_read_section fap idx []).2.2.1 (elf_read_section fap idx []).2.2.2 h1
    unfold flipper_application_load_section_table_loop
    simp only []
    split
    · exact h1
    · have h3 : table_inv e
          (if (flipper_application_preload_section (elf_read_section fap idx []).2.1 idx
              (elf_read_section fap idx []).2.2.1 (elf_read_section fap idx []).2.2.2).1 &&&
                SectionTypeGdbSection ≠ 0 then
            { (flipper_application_preload_section (elf_read_section fap idx []).2.1 idx
                (elf_read_section fap idx []).2.2.1 (elf_read_section fap idx []).2.2.2).2 with
              state := { (flipper_application_preload_section (elf_read_section fap idx []).2.1
                idx (elf_read_section fap idx []).2.2.1
                (elf_read_section fap idx []).2.2.2).2.state with
                mmap_entry_count := (flipper_application_preload_section
                  (elf_read_section fap idx []).2.1 idx (elf_read_section fap idx []).2.2.1
                  (elf_read_section fap idx []).2.2.2).2.state.mmap_entry_count + 1 } }
          else (flipper_application_preload_section (elf_read_section fap idx []).2.1 idx
                (elf_read_section fap idx []).2.2.1 (elf_read_section fap idx []).2.2.2).2) := by
        split
        · exact h2
        · exact h2
      split
      · exact h3
      · exact ih _ _ _ h3

theorem flipper_application_load_section_table_inv (fap : FlipperApplication) :
    table_inv fap.elf.entry (flipper_application_load_section_table fap).2 := by
  have h := load_section_table_loop_inv fap.elf.entry (fap.elf.sections_count - 1) 1
    SectionTypeERROR
    { fap with elf := { fap.elf with sections := [] },
               state := { fap.state with mmap_entry_count := 0 } }
    ⟨rfl, by simp⟩
  unfold flipper_application_load_section_table
  simp only []
  split <;> exact h

theorem flipper_application_load_elf_headers_entry (fap : FlipperApplication) (path : List Nat)
    (h : (flipper_application_load_elf_headers fap path).1 = true) :
    ∃ bytes, fap.storage path = some bytes ∧
      (flipper_application_load_elf_headers fap path).2.elf.entry =
        (parse_ehdr ((bytes.take 52).map (fun b => b % 256))).e_entry := by
  unfold flipper_application_load_elf_headers storage_file_open at h ⊢
  cases hs : fap.storage path with
  | none => simp [hs] at h
  | some bytes =>
    refine ⟨bytes, rfl, ?_⟩
    simp only [hs] at h ⊢
    split at h
    · simp at h
    · split at h
      · simp at h
      · split at h
        · simp at h
        · split at h
          · simp at h
          · split at h
            · simp at h
            · rename_i h1 h2 h3 h4 h5
              simp only [h1, h2, h3, h4, h5, if_false]
              simp [storage_file_seek, storage_file_read]

theorem after_load_entry (fap : FlipperApplication) :
    (after_load fap).elf.entry = fap.elf.entry ∧ (after_load fap).state = fap.state ∧
      (after_load fap).elf.sections.map Prod.fst = fap.elf.sections.map Prod.fst := by
  have hk := load_sections_data_keeps
    { fap with elf := { fap.elf with relocation_cache := [] } } fap.elf.sections
  refine ⟨hk.1, hk.2.2.1, ?_⟩
  exact load_sections_data_keys _ _

/-- The three outcomes of `flipper_application_load_sections`, by stage. -/
theorem flipper_application_load_sections_eq (fap : FlipperApplication) :
    flipper_application_load_sections fap =
      if load_ok fap = false then
        some (FlipperApplicationLoadStatus.UnspecifiedError,
          { after_load fap with
            elf := { (after_load fap).elf with relocation_cache := [] } })
      else if (after_relocate fap).1 = false then
        some (FlipperApplicationLoadStatus.MissingImports,
          { (after_relocate fap).2 with
            elf := { (after_relocate fap).2.elf with relocation_cache := [] } })
      else if (load_sections_mmap (after_relocate fap).2.elf.sections [] 0).1.length =
          (after_relocate fap).2.state.mmap_entry_count then
        some (FlipperApplicationLoadStatus.Success,
          { (after_relocate fap).2 with
            state := { (after_relocate fap).2.state with
              mmap_entries := (load_sections_mmap (after_relocate fap).2.elf.sections [] 0).1 },
            elf := { (after_relocate fap).2.elf with
              entry := ((after_relocate fap).2.elf.entry +
                (load_sections_mmap (after_relocate fap).2.elf.sections [] 0).2) % 4294967296,
              relocation_cache := [] } })
      else none := by
  unfold flipper_application_load_sections after_relocate after_load load_ok
  simp only []
  cases h1 : (load_sections_data { fap with elf := { fap.elf with relocation_cache := [] } }
    fap.elf.sections).1 with
  | false => simp
  | true =>
    simp only [if_true, Bool.true_eq_false, if_false]
    split <;> simp_all

theorem after_relocate_keeps (fap : FlipperApplication) :
    (after_relocate fap).2.elf.entry = fap.elf.entry ∧
      (after_relocate fap).2.elf.sections = (after_load fap).elf.sections ∧
      (after_relocate fap).2.state = fap.state := by
  have hk := load_sections_relocate_keeps (after_load fap) (after_load fap).elf.sections
  have hl := after_load_entry fap
  exact ⟨hk.1.trans hl.1, hk.2.1, hk.2.2.1.trans hl.2.1⟩

/-- On success the entry point is rebased by the `.text` pointer, for every handle whose
section map has distinct keys. -/
theorem load_sections_entry (fap : FlipperApplication)
    (hk : (fap.elf.sections.map Prod.fst).Nodup)
    (hs : (flipper_application_load_sections fap).map Prod.fst =
      some FlipperApplicationLoadStatus.Success) :
    ∃ fap1, flipper_application_load_sections fap =
        some (FlipperApplicationLoadStatus.Success, fap1) ∧
      fap1.elf.entry = (fap.elf.entry + text_base fap1.elf.sections) % 4294967296 := by
  have hr := after_relocate_keeps fap
  have hl := after_load_entry fap
  have hm := load_sections_mmap_text (after_relocate fap).2.elf.sections
    (by rw [hr.2.1, hl.2.2]; exact hk) [] 0
  rw [flipper_application_load_sections_eq] at hs ⊢
  split at hs
  · simp at hs
  · split at hs
    · simp at hs
    · split at hs
      · rename_i h1 h2 h3
        rw [if_neg h1, if_neg h2, if_pos h3]
        refine ⟨_, rfl, ?_⟩
        simp only []
        rw [hm, hr.1]
        rfl
      · simp at hs

/-- C7: when `LoadHeaders` succeeds on a file and `LoadSections`, run after
`LoadSectionTable`, returns Success, the entry point stored in the handle is
`(e_entry + base(.text)) mod 2^32`, where `e_entry` is the field of the ELF header that
`LoadHeaders` recorded and `base(.text)` is the data pointer of the record keyed `.text`
(the null pointer when the section map has no such record). -/
theorem C7_entry_point (fap : FlipperApplication) (path : List Nat)
    (h1 : (flipper_application_load_elf_headers fap path).1 = true)
    (h3 : (flipper_application_load_sections
        (flipper_application_load_section_table
          (flipper_application_load_elf_headers fap path).2).2).map Prod.fst =
      some FlipperApplicationLoadStatus.Success) :
    ∃ bytes fap1, fap.storage path = some bytes ∧
      flipper_application_load_sections
        (flipper_application_load_section_table
          (flipper_application_load_elf_headers fap path).2).2 =
        some (FlipperApplicationLoadStatus.Success, fap1) ∧
      (flipper_application_load_elf_headers fap path).2.elf.entry =
        (parse_ehdr ((bytes.take 52).map (fun b => b % 256))).e_entry ∧
      fap1.elf.entry =
        ((parse_ehdr ((bytes.take 52).map (fun b => b % 256))).e_entry +
          text_base fap1.elf.sections) % 4294967296 := by
  obtain ⟨bytes, hb, he⟩ := flipper_application_load_elf_headers_entry fap path h1
  have hinv := flipper_application_load_section_table_inv
    (flipper_application_load_elf_headers fap path).2
  obtain ⟨fap1, hl, hent⟩ := load_sections_entry _ hinv.2 h3
  refine ⟨bytes, fap1, hb, hl, he, ?_⟩
  rw [hent, hinv.1, he]

set_option maxRecDepth 1000000 in
/-- C7 witness: an object with `e_entry = 1`, `.text` and a 16-byte `.bss`. -/
theorem C7_entry_point_witness :
    (flipper_application_load_elf_headers (fap_with (elf_basic 1 12 16 8)) []).1 = true ∧
    (flipper_application_load_sections
        (flipper_application_load_section_table
          (flipper_application_load_elf_headers (fap_with (elf_basic 1 12 16 8)) []).2).2).map
      Prod.fst = some FlipperApplicationLoadStatus.Success ∧
    ∃ bytes fap1, (fap_with (elf_basic 1 12 16 8)).storage [] = some bytes ∧
      flipper_application_load_sections
        (flipper_application_load_section_table
          (flipper_application_load_elf_headers (fap_with (elf_basic 1 12 16 8)) []).2).2 =
        some (FlipperApplicationLoadStatus.Success, fap1) ∧
      (flipper_application_load_elf_headers (fap_with (elf_basic 1 12 16 8)) []).2.elf.entry =
        (parse_ehdr ((bytes.take 52).map (fun b => b % 256))).e_entry ∧
      fap1.elf.entry =
        ((parse_ehdr ((bytes.take 52).map (fun b => b % 256))).e_entry +
          text_base fap1.elf.sections) % 4294967296 :=
  ⟨by decide, by decide,
    C7_entry_point (fap_with (elf_basic 1 12 16 8)) [] (by decide) (by decide)⟩

/-! ## The relocation loop -/

/-- One iteration of the relocation loop on an entry that is read with its symbol. -/
theorem elf_relocate_loop_step (n : Nat) (e : FlipperApplication) (s : ELFSection) (r : Bool)
    (hrd : (storage_file_read e.fd 8).1.length = 8) (hres : (next_resolve e).1 = true) :
    elf_relocate_loop (n + 1) e s r =
      elf_relocate_loop n
        (elf_relocate_patch (next_resolve e).2.1 (next_site e s)
          (ELF32_R_TYPE (next_rel e).r_info) (next_resolve e).2.2 r).2 s
        (elf_relocate_patch (next_resolve e).2.1 (next_site e s)
          (ELF32_R_TYPE (next_rel e).r_info) (next_resolve e).2.2 r).1 := by
  unfold next_resolve next_rel at hres
  conv_lhs => unfold elf_relocate_loop
  simp only [hrd, hres, bne_self_eq_false, Bool.false_eq_true, if_false, Bool.not_true]
  rfl

/-! ## The status of a failed relocation -/

theorem load_sections_relocate_false_iff (l : List (List Nat × ELFSection))
    (fap : FlipperApplication) :
    (load_sections_relocate fap l).1 = false ↔
      ∃ pre key sec post, l = pre ++ (key, sec) :: post ∧
        (flipper_application_relocate_section (load_sections_relocate fap pre).2 sec).1 =
          false := by
  induction l generalizing fap with
  | nil =>
    constructor
    · intro h; exact absurd h (by simp [load_sections_relocate])
    · rintro ⟨pre, key, sec, post, h, _⟩
      exact absurd h (by simp)
  | cons p rest ih =>
    obtain ⟨k, s⟩ := p
    constructor
    · intro h
      unfold load_sections_relocate at h
      simp only [Bool.and_eq_false_iff] at h
      rcases h with h | h
      · exact ⟨[], k, s, rest, rfl, h⟩
      · obtain ⟨pre, key, sec, post, h1, h2⟩ := (ih _).1 h
        refine ⟨(k, s) :: pre, key, sec, post, by rw [h1]; rfl, ?_⟩
        unfold load_sections_relocate
        exact h2
    · rintro ⟨pre, key, sec, post, h1, h2⟩
      unfold load_sections_relocate
      simp only [Bool.and_eq_false_iff]
      cases pre with
      | nil =>
        simp only [List.nil_append, List.cons.injEq, Prod.mk.injEq] at h1
        obtain ⟨⟨rfl, rfl⟩, rfl⟩ := h1
        exact Or.inl h2
      | cons q pre1 =>
        simp only [List.cons_append, List.cons.injEq] at h1
        obtain ⟨rfl, rfl⟩ := h1
        right
        apply (ih _).2
        refine ⟨pre1, key, sec, post, rfl, ?_⟩
        unfold load_sections_relocate at h2
        exact h2

theorem flipper_application_relocate_section_false_iff (g : FlipperApplication)
    (sec : ELFSection) :
    (flipper_application_relocate_section g sec).1 = false ↔
      (sec.rel_sec_idx ≠ 0 ∧
        ((elf_read_section_header g sec.rel_sec_idx).1 = false ∨ sec.data = 0 ∨
          (elf_relocate_loop ((elf_read_section_header g sec.rel_sec_idx).2.2.sh_size / 8)
            { (elf_read_section_header g sec.rel_sec_idx).2.1 with
              fd := (storage_file_seek (elf_read_section_header g sec.rel_sec_idx).2.1.fd
                (elf_read_section_header g sec.rel_sec_idx).2.2.sh_offset).2 }
            sec true).1 = false)) := by
  unfold flipper_application_relocate_section elf_relocate
  by_cases h0 : sec.rel_sec_idx = 0
  · simp [h0]
  · by_cases h1 : (elf_read_section_header g sec.rel_sec_idx).1 = true
    · by_cases h2 : sec.data = 0
      · simp [h0, h1, h2]
      · simp [h0, h1, h2]
    · simp [h0, h1]

theorem elf_relocate_loop_succ_false_iff (n : Nat) (e : FlipperApplication) (s : ELFSection)
    (r : Bool) :
    (elf_relocate_loop (n + 1) e s r).1 = false ↔
      ((storage_file_read e.fd 8).1.length ≠ 8 ∨ (next_resolve e).1 = false ∨
        (elf_relocate_loop n
          (elf_relocate_patch (next_resolve e).2.1 (next_site e s)
            (ELF32_R_TYPE (next_rel e).r_info) (next_resolve e).2.2 r).2 s
          (elf_relocate_patch (next_resolve e).2.1 (next_site e s)
            (ELF32_R_TYPE (next_rel e).r_info) (next_resolve e).2.2 r).1).1 = false) := by
  by_cases hrd : (storage_file_read e.fd 8).1.length = 8
  · by_cases hres : (next_resolve e).1 = true
    · rw [elf_relocate_loop_step n e s r hrd hres]
      simp [hrd, hres]
    · have hf : (next_resolve e).1 = false := by simpa using hres
      have : (elf_relocate_loop (n + 1) e s r).1 = false := by
        unfold next_resolve next_rel at hf
        unfold elf_relocate_loop
        simp [hrd, hf]
      simp [this, hf]
  · have : (elf_relocate_loop (n + 1) e s r).1 = false := by
      unfold elf_relocate_loop
      simp [hrd]
    simp [this, hrd]

theorem elf_relocate_symbol_fst (mem : Mem) (relAddr : Nat) (relType : Int) (symAddr : Nat) :
    (elf_relocate_symbol mem relAddr relType symAddr).1 = false ↔
      (relType ≠ R_ARM_ABS32 ∧ relType ≠ R_ARM_THM_PC22 ∧ relType ≠ R_ARM_THM_JUMP24) := by
  unfold elf_relocate_symbol
  split
  · rename_i h; simp [h]
  · split
    · rename_i h1 h2; simp [h1]; tauto
    · rename_i h1 h2; simp [h1]; tauto

theorem elf_relocate_patch_false_iff (e : FlipperApplication) (relAddr : Nat) (relType : Int)
    (symAddr : Nat) (r : Bool) :
    (elf_relocate_patch e relAddr relType symAddr r).1 = false ↔
      (r = false ∨ symAddr = ELF_INVALID_ADDRESS ∨
        (relType ≠ R_ARM_ABS32 ∧ relType ≠ R_ARM_THM_PC22 ∧ relType ≠ R_ARM_THM_JUMP24)) := by
  rw [← elf_relocate_symbol_fst e.mem relAddr relType symAddr]
  unfold elf_relocate_patch
  by_cases h1 : symAddr = ELF_INVALID_ADDRESS
  · simp [h1]
  · simp only [ne_eq, h1, not_false_eq_true, if_true, false_or]
    cases (elf_relocate_symbol e.mem relAddr relType symAddr).1 <;> simp

set_option maxRecDepth 1000000 in
/-- C8 (as stated, refuted): an object with `.rel.text` and no `.text`. `LoadSectionTable`
succeeds; the record keyed `.text` has a relocation section and null data; `LoadSections`
returns MissingImports although no relocation entry was processed: the relocation cache is
empty and the cursor stands right after the header of the relocation section. -/
theorem C8_counterexample :
    (flipper_application_load_section_table (fap_headers (elf_reloc 28))).1 = true ∧
    (flipper_application_load_sections (fap_classified (elf_reloc 28))).map Prod.fst =
      some FlipperApplicationLoadStatus.MissingImports ∧
    (after_load (fap_classified (elf_reloc 28))).elf.sections =
      [(cstr ".text", { data := 0, sec_idx := 0, rel_sec_idx := 2 }),
       (cstr ".bss", { data := 0x20000000, sec_idx := 7, rel_sec_idx := 0 })] ∧
    (elf_read_section_header (after_load (fap_classified (elf_reloc 28))) 2).1 = true ∧
    (after_relocate (fap_classified (elf_reloc 28))).2.elf.relocation_cache = [] ∧
    (after_relocate (fap_classified (elf_reloc 28))).2.fd.pos = 52 + 2 * 40 + 40 := by
  decide

/-- C8 (amended): `LoadSections` returns MissingImports exactly when every record loaded and
the relocation of some record failed; the relocation of a record fails exactly when the
record has a relocation section and its header cannot be read, or the data of the record is
null, or the loop of `elf_relocate` returns false; and the loop returns false exactly when an
entry is read short, or its symbol cannot be read, or some entry has a symbol that resolves
to the invalid sentinel or a type other than `R_ARM_ABS32`, `R_ARM_THM_PC22`,
`R_ARM_THM_JUMP24`. I/O and structural failures of the relocation stage are reported as
MissingImports. -/
theorem C8_missing_imports (fap : FlipperApplication) :
    ((flipper_application_load_sections fap).map Prod.fst =
        some FlipperApplicationLoadStatus.MissingImports ↔
      (load_ok fap = true ∧ (after_relocate fap).1 = false)) ∧
    ((after_relocate fap).1 = false ↔
      ∃ pre key sec post, (after_load fap).elf.sections = pre ++ (key, sec) :: post ∧
        (flipper_application_relocate_section
          (load_sections_relocate (after_load fap) pre).2 sec).1 = false) ∧
    (∀ (g : FlipperApplication) (sec : ELFSection),
      (flipper_application_relocate_section g sec).1 = false ↔
        (sec.rel_sec_idx ≠ 0 ∧
          ((elf_read_section_header g sec.rel_sec_idx).1 = false ∨ sec.data = 0 ∨
            (elf_relocate_loop ((elf_read_section_header g sec.rel_sec_idx).2.2.sh_size / 8)
              { (elf_read_section_header g sec.rel_sec_idx).2.1 with
                fd := (storage_file_seek (elf_read_section_header g sec.rel_sec_idx).2.1.fd
                  (elf_read_section_header g sec.rel_sec_idx).2.2.sh_offset).2 }
              sec true).1 = false))) ∧
    (∀ (e : FlipperApplication) (s : ELFSection) (r : Bool),
      (elf_relocate_loop 0 e s r).1 = r) ∧
    (∀ (n : Nat) (e : FlipperApplication) (s : ELFSection) (r : Bool),
      (elf_relocate_loop (n + 1) e s r).1 = false ↔
        ((storage_file_read e.fd 8).1.length ≠ 8 ∨ (next_resolve e).1 = false ∨
          (elf_relocate_loop n
            (elf_relocate_patch (next_resolve e).2.1 (next_site e s)
              (ELF32_R_TYPE (next_rel e).r_info) (next_resolve e).2.2 r).2 s
            (elf_relocate_patch (next_resolve e).2.1 (next_site e s)
              (ELF32_R_TYPE (next_rel e).r_info) (next_resolve e).2.2 r).1).1 = false)) ∧
    (∀ (e : FlipperApplication) (relAddr : Nat) (relType : Int) (symAddr : Nat) (r : Bool),
      (elf_relocate_patch e relAddr relType symAddr r).1 = false ↔
        (r = false ∨ symAddr = ELF_INVALID_ADDRESS ∨
          (relType ≠ R_ARM_ABS32 ∧ relType ≠ R_ARM_THM_PC22 ∧
            relType ≠ R_ARM_THM_JUMP24))) := by
  refine ⟨?_, load_sections_relocate_false_iff _ _,
    flipper_application_relocate_section_false_iff, fun _ _ _ => rfl,
    elf_relocate_loop_succ_false_iff, elf_relocate_patch_false_iff⟩
  rw [flipper_application_load_sections_eq]
  by_cases h1 : load_ok fap = false
  · simp [h1]
  · by_cases h2 : (after_relocate fap).1 = false
    · simp [h1, h2]
    · rw [if_neg h1, if_neg h2]
      split <;> simp [h2]

/-! ## Load failures -/

theorem load_sections_data_append (fap : FlipperApplication)
    (pre post : List (List Nat × ELFSection)) (key : List Nat) (sec : ELFSection)
    (h : (flipper_application_load_section_data (load_sections_data fap pre).2.1 sec).1 = false) :
    (load_sections_data fap (pre ++ (key, sec) :: post)).1 = false := by
  induction pre generalizing fap with
  | nil =>
    simp only [List.nil_append]
    unfold load_sections_data
    simp only []
    have h2 : (flipper_application_load_section_data fap sec).1 = false := h
    rw [h2]
    rfl
  | cons p rest ih =>
    obtain ⟨k, s⟩ := p
    simp only [List.cons_append]
    unfold load_sections_data
    simp only []
    have h2 : (flipper_application_load_section_data
        (load_sections_data (flipper_application_load_section_data fap s).2.1 rest).2.1 sec).1 =
        false := by
      unfold load_sections_data at h
      exact h
    rw [ih _ h2]
    simp

/-- C9: if loading the data of some record of the section map fails (in the state the
loading loop has reached at that record), `LoadSections` returns UnspecifiedError with the
handle as the loading loop left it, the relocation cache cleared: memory is what the loading
of all records made it (no relocation is applied), and the entry point and the memory map
keep their pre-call values. -/
theorem C9_load_failure_aborts (fap : FlipperApplication)
    (pre post : List (List Nat × ELFSection)) (key : List Nat) (sec : ELFSection)
    (hs : fap.elf.sections = pre ++ (key, sec) :: post)
    (hf : (flipper_application_load_section_data
      (load_sections_data { fap with elf := { fap.elf with relocation_cache := [] } } pre).2.1
      sec).1 = false) :
    flipper_application_load_sections fap =
        some (FlipperApplicationLoadStatus.UnspecifiedError,
          { after_load fap with
            elf := { (after_load fap).elf with relocation_cache := [] } }) ∧
      (after_load fap).mem =
        (load_sections_data { fap with elf := { fap.elf with relocation_cache := [] } }
          fap.elf.sections).2.1.mem ∧
      (after_load fap).elf.entry = fap.elf.entry ∧
      (after_load fap).state.mmap_entries = fap.state.mmap_entries := by
  have hl : load_ok fap = false := by
    unfold load_ok
    rw [hs]
    exact load_sections_data_append _ pre post key sec hf
  have he := after_load_entry fap
  refine ⟨?_, rfl, he.1, by rw [he.2.1]⟩
  rw [flipper_application_load_sections_eq, if_pos hl]

set_option maxRecDepth 1000000 in
/-- C9 witness: the `sh_size` of `.text` is 16 and the file ends 12 bytes after its offset. -/
theorem C9_load_failure_aborts_witness :
    (fap_classified (elf_basic 0 12 4 16)).elf.sections =
        [] ++ (cstr ".text", { data := 0, sec_idx := 1, rel_sec_idx := 0 }) ::
          [(cstr ".bss", { data := 0, sec_idx := 2, rel_sec_idx := 0 })] ∧
      (flipper_application_load_section_data
        (load_sections_data
          { fap_classified (elf_basic 0 12 4 16) with
            elf := { (fap_classified (elf_basic 0 12 4 16)).elf with relocation_cache := [] } }
          []).2.1
        { data := 0, sec_idx := 1, rel_sec_idx := 0 }).1 = false ∧
      (flipper_application_load_sections (fap_classified (elf_basic 0 12 4 16)) =
          some (FlipperApplicationLoadStatus.UnspecifiedError,
            { after_load (fap_classified (elf_basic 0 12 4 16)) with
              elf := { (after_load (fap_classified (elf_basic 0 12 4 16))).elf with
                relocation_cache := [] } }) ∧
        (after_load (fap_classified (elf_basic 0 12 4 16))).mem =
          (load_sections_data
            { fap_classified (elf_basic 0 12 4 16) with
              elf := { (fap_classified (elf_basic 0 12 4 16)).elf with relocation_cache := [] } }
            (fap_classified (elf_basic 0 12 4 16)).elf.sections).2.1.mem ∧
        (after_load (fap_classified (elf_basic 0 12 4 16))).elf.entry =
          (fap_classified (elf_basic 0 12 4 16)).elf.entry ∧
        (after_load (fap_classified (elf_basic 0 12 4 16))).state.mmap_entries =
          (fap_classified (elf_basic 0 12 4 16)).state.mmap_entries) :=
  ⟨by decide, by decide,
    C9_load_failure_aborts (fap_classified (elf_basic 0 12 4 16)) []
      [(cstr ".bss", { data := 0, sec_idx := 2, rel_sec_idx := 0 })] (cstr ".text")
      { data := 0, sec_idx := 1, rel_sec_idx := 0 } (by decide) (by decide)⟩

/-! ## Missing imports -/

set_option maxRecDepth 1000000 in
/-- The missing-import scenario on `elf_reloc 1`: the status is MissingImports, the four
bytes of the site of the unresolved `foo` keep their value 0, and the site of `bar`, an entry
after it, reads `EF BE AD DE`. -/
theorem scenario_missing_import :
    (flipper_application_load_sections (fap_classified (elf_reloc 1))).map
        (fun r => (r.1, (List.range 8).map (fun i => r.2.mem (0x20000000 + i)))) =
      some (FlipperApplicationLoadStatus.MissingImports,
        [0, 0, 0, 0, 0xEF, 0xBE, 0xAD, 0xDE]) := by
  decide

/-! ## Loading the bytes of a section -/

theorem storage_file_read_getD (fd : File) (n i : Nat) (h : i < (storage_file_read fd n).1.length) :
    (storage_file_read fd n).1.getD i 0 = fd.bytes.getD (fd.pos + i) 0 % 256 := by
  unfold storage_file_read at h ⊢
  simp only [List.length_map, List.length_take, List.length_drop] at h
  simp only [List.getD_eq_getElem?_getD, List.getElem?_map, List.getElem?_take, List.getElem?_drop]
  have h1 : i < n := by omega
  have h2 : fd.pos + i < fd.bytes.length := by omega
  simp [h1, List.getElem?_eq_getElem h2]

theorem storage_file_seek_pos (fd : File) (off : Nat) (h : (storage_file_seek fd off).1 = true) :
    (storage_file_seek fd off).2.pos = off ∧ off ≤ fd.bytes.length := by
  unfold storage_file_seek at h ⊢
  split
  · rename_i hle; exact ⟨rfl, hle⟩
  · rename_i hle; simp [hle] at h

theorem read8_writeBytes (m : Mem) (a : Nat) (bs : List Nat) (i : Nat) (h : i < bs.length) :
    read8 (writeBytes m a bs) (a + i) = bs.getD i 0 % 256 := by
  unfold read8 writeBytes
  have h1 : a ≤ a + i ∧ a + i < a + bs.length := ⟨by omega, by omega⟩
  simp only [h1, and_self, if_true, Nat.add_sub_cancel_left]
  exact Nat.mod_mod _ _

theorem aligned_malloc_ne_zero (fap : FlipperApplication) (size align : Nat) :
    (aligned_malloc fap size align).1 ≠ 0 := by
  unfold aligned_malloc
  simp only []
  have hal : 0 < max align 1 := by omega
  have h1 : max align 1 ≤ max fap.heap 1 + max align 1 - 1 := by omega
  have h2 : 1 ≤ (max fap.heap 1 + max align 1 - 1) / max align 1 :=
    (Nat.one_le_div_iff hal).2 h1
  have h3 := Nat.mul_le_mul h2 hal
  omega

/-- The outcome of `flipper_application_load_section_data` on a record whose header is read,
has a size other than 0 and a type other than `SHT_NOBITS`. -/
theorem load_section_data_progbits (fap : FlipperApplication) (sec : ELFSection)
    (hidx : sec.sec_idx ≠ 0) (hh : (elf_read_section_header fap sec.sec_idx).1 = true)
    (hsz : (payload_header fap sec).sh_size ≠ 0)
    (hty : (payload_header fap sec).sh_type ≠ SHT_NOBITS) :
    flipper_application_load_section_data fap sec =
      if (storage_file_seek (payload_fd fap sec) (payload_header fap sec).sh_offset).1 = true then
        ((storage_file_read
            (storage_file_seek (payload_fd fap sec) (payload_header fap sec).sh_offset).2
            (payload_header fap sec).sh_size).1.length == (payload_header fap sec).sh_size,
          { (aligned_malloc (elf_read_section_header fap sec.sec_idx).2.1
              (payload_header fap sec).sh_size (payload_header fap sec).sh_addralign).2 with
            fd := (storage_file_read
              (storage_file_seek (payload_fd fap sec) (payload_header fap sec).sh_offset).2
              (payload_header fap sec).sh_size).2,
            mem := writeBytes
              (aligned_malloc (elf_read_section_header fap sec.sec_idx).2.1
                (payload_header fap sec).sh_size (payload_header fap sec).sh_addralign).2.mem
              (aligned_malloc (elf_read_section_header fap sec.sec_idx).2.1
                (payload_header fap sec).sh_size (payload_header fap sec).sh_addralign).1
              (storage_file_read
                (storage_file_seek (payload_fd fap sec) (payload_header fap sec).sh_offset).2
                (payload_header fap sec).sh_size).1 },
          { sec with data := (aligned_malloc (elf_read_section_header fap sec.sec_idx).2.1
              (payload_header fap sec).sh_size (payload_header fap sec).sh_addralign).1 })
      else
        (false,
          { (aligned_malloc (elf_read_section_header fap sec.sec_idx).2.1
              (payload_header fap sec).sh_size (payload_header fap sec).sh_addralign).2 with
            fd := (storage_file_seek (payload_fd fap sec) (payload_header fap sec).sh_offset).2 },
          { sec with data := (aligned_malloc (elf_read_section_header fap sec.sec_idx).2.1
              (payload_header fap sec).sh_size (payload_header fap sec).sh_addralign).1 }) := by
  unfold payload_header payload_fd at *
  unfold flipper_application_load_section_data
  simp only [hidx, hh, hsz, hty, if_false, Bool.not_true, Bool.false_eq_true]
  have hfd : ∀ (x : FlipperApplication) (a b : Nat), (aligned_malloc x a b).2.fd = x.fd :=
    fun _ _ _ => rfl
  rw [hfd]
  by_cases hs : (storage_file_seek (elf_read_section_header fap sec.sec_idx).2.1.fd
      (elf_read_section_header fap sec.sec_idx).2.2.sh_offset).1 = true
  · simp only [hs, Bool.not_true, Bool.false_eq_true, if_false, if_true]
  · simp only [hs, Bool.not_false, if_true, if_false]
    simp at hs
    simp [hs]

/-- C11: for every record with `sec_idx != 0` whose section header, when it is read, has
`sh_size > 0` and a type other than `SHT_NOBITS`, `flipper_application_load_section_data`
returns true exactly when the header read, the seek to `sh_offset` and the read of `sh_size`
bytes all succeed; on success the image is not NULL and its byte `i` is the file byte at
`sh_offset + i`, for every `i < sh_size`; a read shorter than `sh_size` makes it return
false. -/
theorem C11_load_section_data (fap : FlipperApplication) (sec : ELFSection)
    (hidx : sec.sec_idx ≠ 0)
    (hsz : (elf_read_section_header fap sec.sec_idx).1 = true →
      0 < (payload_header fap sec).sh_size)
    (hty : (elf_read_section_header fap sec.sec_idx).1 = true →
      (payload_header fap sec).sh_type ≠ SHT_NOBITS) :
    ((flipper_application_load_section_data fap sec).1 = true ↔
      ((elf_read_section_header fap sec.sec_idx).1 = true ∧
        (storage_file_seek (payload_fd fap sec) (payload_header fap sec).sh_offset).1 = true ∧
        (storage_file_read
          (storage_file_seek (payload_fd fap sec) (payload_header fap sec).sh_offset).2
          (payload_header fap sec).sh_size).1.length = (payload_header fap sec).sh_size)) ∧
    ((flipper_application_load_section_data fap sec).1 = true →
      (flipper_application_load_section_data fap sec).2.2.data ≠ 0 ∧
      ∀ i, i < (payload_header fap sec).sh_size →
        read8 (flipper_application_load_section_data fap sec).2.1.mem
            ((flipper_application_load_section_data fap sec).2.2.data + i) =
          fap.fd.bytes.getD ((payload_header fap sec).sh_offset + i) 0 % 256) ∧
    ((elf_read_section_header fap sec.sec_idx).1 = true →
      (storage_file_read
          (storage_file_seek (payload_fd fap sec) (payload_header fap sec).sh_offset).2
          (payload_header fap sec).sh_size).1.length < (payload_header fap sec).sh_size →
      (flipper_application_load_section_data fap sec).1 = false) := by
  by_cases hh : (elf_read_section_header fap sec.sec_idx).1 = true
  · have heq := load_section_data_progbits fap sec hidx hh (by have := hsz hh; omega) (hty hh)
    by_cases hs : (storage_file_seek (payload_fd fap sec)
        (payload_header fap sec).sh_offset).1 = true
    · rw [if_pos hs] at heq
      rw [heq]
      simp only [beq_iff_eq]
      refine ⟨⟨fun h => ⟨hh, hs, h⟩, fun h => h.2.2⟩, fun h => ⟨aligned_malloc_ne_zero _ _ _, ?_⟩,
        fun _ h => ?_⟩
      · intro i hi
        have hp := storage_file_seek_pos _ _ hs
        have hb : (payload_fd fap sec).bytes = fap.fd.bytes :=
          (elf_read_section_header_keeps fap sec.sec_idx).2.2.2
        rw [read8_writeBytes _ _ _ _ (by rw [h]; exact hi),
          storage_file_read_getD _ _ _ (by rw [h]; exact hi), hp.1, storage_file_seek_bytes, hb,
          Nat.mod_mod]
      · simp only [beq_eq_false_iff_ne, ne_eq]
        omega
    · rw [if_neg hs] at heq
      rw [heq]
      refine ⟨⟨fun h => absurd h (by simp), fun h => absurd h.2.1 hs⟩,
        fun h => absurd h (by simp), fun _ _ => rfl⟩
  · have hf : (flipper_application_load_section_data fap sec).1 = false := by
      unfold flipper_application_load_section_data
      simp [hidx, hh]
    rw [hf]
    refine ⟨⟨fun h => absurd h (by simp), fun h => absurd h.1 hh⟩,
      fun h => absurd h (by simp), fun _ _ => rfl⟩

set_option maxRecDepth 1000000 in
/-- C11 witness: the `.text` record (section 1) of `elf_basic 1 12 16 8`; its image at
`0x20000000` holds the eight bytes of the section. -/
theorem C11_load_section_data_witness :
    ({ data := 0, sec_idx := 1, rel_sec_idx := 0 } : ELFSection).sec_idx ≠ 0 ∧
    (flipper_application_load_section_data (fap_classified (elf_basic 1 12 16 8))
      { data := 0, sec_idx := 1, rel_sec_idx := 0 }).1 = true ∧
    (flipper_application_load_section_data (fap_classified (elf_basic 1 12 16 8))
      { data := 0, sec_idx := 1, rel_sec_idx := 0 }).2.2.data = 0x20000000 ∧
    (List.range 8).map (fun i =>
      read8 (flipper_application_load_section_data (fap_classified (elf_basic 1 12 16 8))
        { data := 0, sec_idx := 1, rel_sec_idx := 0 }).2.1.mem (0x20000000 + i)) =
      [0x70, 0x47, 0x00, 0xBF, 0x70, 0x47, 0x00, 0xBF] ∧
    (((flipper_application_load_section_data (fap_classified (elf_basic 1 12 16 8))
        { data := 0, sec_idx := 1, rel_sec_idx := 0 }).1 = true ↔
      ((elf_read_section_header (fap_classified (elf_basic 1 12 16 8)) 1).1 = true ∧
        (storage_file_seek
          (payload_fd (fap_classified (elf_basic 1 12 16 8))
            { data := 0, sec_idx := 1, rel_sec_idx := 0 })
          (payload_header (fap_classified (elf_basic 1 12 16 8))
            { data := 0, sec_idx := 1, rel_sec_idx := 0 }).sh_offset).1 = true ∧
        (storage_file_read
          (storage_file_seek
            (payload_fd (fap_classified (elf_basic 1 12 16 8))
              { data := 0, sec_idx := 1, rel_sec_idx := 0 })
            (payload_header (fap_classified (elf_basic 1 12 16 8))
              { data := 0, sec_idx := 1, rel_sec_idx := 0 }).sh_offset).2
          (payload_header (fap_classified (elf_basic 1 12 16 8))
            { data := 0, sec_idx := 1, rel_sec_idx := 0 }).sh_size).1.length =
          (payload_header (fap_classified (elf_basic 1 12 16 8))
            { data := 0, sec_idx := 1, rel_sec_idx := 0 }).sh_size))) :=
  ⟨by decide, by decide, by decide, by decide,
    (C11_load_section_data (fap_classified (elf_basic 1 12 16 8))
      { data := 0, sec_idx := 1, rel_sec_idx := 0 } (by decide) (by decide) (by decide)).1⟩

/-! ## Sections without bytes in the file -/

/-- The allocator returns zeroed memory. -/
theorem aligned_malloc_zero (fap : FlipperApplication) (size align i : Nat) (h : i < size) :
    read8 (aligned_malloc fap size align).2.mem ((aligned_malloc fap size align).1 + i) = 0 := by
  unfold aligned_malloc
  simp only []
  rw [read8_writeBytes _ _ _ _ (by simpa using h)]
  simp [List.getD_eq_getElem?_getD, List.getElem?_replicate, h]

/-- C12: for every record whose section header is read with type `SHT_NOBITS` and
`sh_size > 0`, `flipper_application_load_section_data` returns true with an image that is
not NULL and holds `sh_size` zero bytes, and it leaves the file cursor where the header read
left it (no seek and no read for the body); for a record with `sec_idx == 0` it returns true
and changes neither the handle nor the record; for a record whose header is read with
`sh_size == 0` it returns true and leaves the record as it was; so in both cases a record
whose `data` is NULL keeps it NULL. -/
theorem C12_nobits_and_empty (fap : FlipperApplication) (sec : ELFSection) :
    (sec.sec_idx ≠ 0 → (elf_read_section_header fap sec.sec_idx).1 = true →
      (elf_read_section_header fap sec.sec_idx).2.2.sh_type = SHT_NOBITS →
      0 < (elf_read_section_header fap sec.sec_idx).2.2.sh_size →
      (flipper_application_load_section_data fap sec).1 = true ∧
        (flipper_application_load_section_data fap sec).2.2.data ≠ 0 ∧
        (∀ i, i < (elf_read_section_header fap sec.sec_idx).2.2.sh_size →
          read8 (flipper_application_load_section_data fap sec).2.1.mem
            ((flipper_application_load_section_data fap sec).2.2.data + i) = 0) ∧
        (flipper_application_load_section_data fap sec).2.1.fd =
          (elf_read_section_header fap sec.sec_idx).2.1.fd) ∧
    (sec.sec_idx = 0 → flipper_application_load_section_data fap sec = (true, fap, sec)) ∧
    (sec.sec_idx ≠ 0 → (elf_read_section_header fap sec.sec_idx).1 = true →
      (elf_read_section_header fap sec.sec_idx).2.2.sh_size = 0 →
      flipper_application_load_section_data fap sec =
        (true, (elf_read_section_header fap sec.sec_idx).2.1, sec)) ∧
    (sec.data = 0 →
      (sec.sec_idx = 0 ∨ ((elf_read_section_header fap sec.sec_idx).1 = true ∧
        (elf_read_section_header fap sec.sec_idx).2.2.sh_size = 0)) →
      (flipper_application_load_section_data fap sec).1 = true ∧
        (flipper_application_load_section_data fap sec).2.2.data = 0) := by
  have hb : sec.sec_idx = 0 → flipper_application_load_section_data fap sec = (true, fap, sec) := by
    intro h
    unfold flipper_application_load_section_data
    simp [h]
  have hc : sec.sec_idx ≠ 0 → (elf_read_section_header fap sec.sec_idx).1 = true →
      (elf_read_section_header fap sec.sec_idx).2.2.sh_size = 0 →
      flipper_application_load_section_data fap sec =
        (true, (elf_read_section_header fap sec.sec_idx).2.1, sec) := by
    intro h1 h2 h3
    unfold flipper_application_load_section_data
    simp [h1, h2, h3]
  refine ⟨?_, hb, hc, ?_⟩
  · intro h1 h2 h3 h4
    have heq : flipper_application_load_section_data fap sec =
        (true, (aligned_malloc (elf_read_section_header fap sec.sec_idx).2.1
            (elf_read_section_header fap sec.sec_idx).2.2.sh_size
            (elf_read_section_header fap sec.sec_idx).2.2.sh_addralign).2,
          { sec with data := (aligned_malloc (elf_read_section_header fap sec.sec_idx).2.1
            (elf_read_section_header fap sec.sec_idx).2.2.sh_size
            (elf_read_section_header fap sec.sec_idx).2.2.sh_addralign).1 }) := by
      have h5 : (elf_read_section_header fap sec.sec_idx).2.2.sh_size ≠ 0 := by omega
      unfold flipper_application_load_section_data
      simp [h1, h2, h3, h5]
    rw [heq]
    exact ⟨rfl,
      aligned_malloc_ne_zero (elf_read_section_header fap sec.sec_idx).2.1
        (elf_read_section_header fap sec.sec_idx).2.2.sh_size
        (elf_read_section_header fap sec.sec_idx).2.2.sh_addralign,
      fun i hi => aligned_malloc_zero (elf_read_section_header fap sec.sec_idx).2.1
        (elf_read_section_header fap sec.sec_idx).2.2.sh_size
        (elf_read_section_header fap sec.sec_idx).2.2.sh_addralign i hi, rfl⟩
  · intro hd h
    rcases h with h | ⟨h1, h2⟩
    · rw [hb h]; exact ⟨rfl, hd⟩
    · by_cases h0 : sec.sec_idx = 0
      · rw [hb h0]; exact ⟨rfl, hd⟩
      · rw [hc h0 h1 h2]; exact ⟨rfl, hd⟩

set_option maxRecDepth 1000000 in
/-- C12 witness: the `.bss` record of `elf_basic 1 12 16 8` (16 bytes, `SHT_NOBITS`), a
record with `sec_idx = 0` on `elf_reloc 28`, and the empty `.bss` of `elf_empty_bss`. -/
theorem C12_nobits_and_empty_witness :
    ((flipper_application_load_section_data (fap_classified (elf_basic 1 12 16 8))
        { data := 0, sec_idx := 2, rel_sec_idx := 0 }).1 = true ∧
      (flipper_application_load_section_data (fap_classified (elf_basic 1 12 16 8))
        { data := 0, sec_idx := 2, rel_sec_idx := 0 }).2.2.data ≠ 0 ∧
      (∀ i, i < (elf_read_section_header (fap_classified (elf_basic 1 12 16 8))
          ({ data := 0, sec_idx := 2, rel_sec_idx := 0 } : ELFSection).sec_idx).2.2.sh_size →
        read8 (flipper_application_load_section_data (fap_classified (elf_basic 1 12 16 8))
            { data := 0, sec_idx := 2, rel_sec_idx := 0 }).2.1.mem
          ((flipper_application_load_section_data (fap_classified (elf_basic 1 12 16 8))
            { data := 0, sec_idx := 2, rel_sec_idx := 0 }).2.2.data + i) = 0) ∧
      (flipper_application_load_section_data (fap_classified (elf_basic 1 12 16 8))
          { data := 0, sec_idx := 2, rel_sec_idx := 0 }).2.1.fd =
        (elf_read_section_header (fap_classified (elf_basic 1 12 16 8))
          ({ data := 0, sec_idx := 2, rel_sec_idx := 0 } : ELFSection).sec_idx).2.1.fd) ∧
    flipper_application_load_section_data (fap_classified (elf_reloc 28))
        { data := 0, sec_idx := 0, rel_sec_idx := 2 } =
      (true, fap_classified (elf_reloc 28), { data := 0, sec_idx := 0, rel_sec_idx := 2 }) ∧
    flipper_application_load_section_data (fap_classified elf_empty_bss)
        { data := 0, sec_idx := 2, rel_sec_idx := 0 } =
      (true, (elf_read_section_header (fap_classified elf_empty_bss)
          ({ data := 0, sec_idx := 2, rel_sec_idx := 0 } : ELFSection).sec_idx).2.1,
        { data := 0, sec_idx := 2, rel_sec_idx := 0 }) ∧
    ((flipper_application_load_section_data (fap_classified elf_empty_bss)
        { data := 0, sec_idx := 2, rel_sec_idx := 0 }).1 = true ∧
      (flipper_application_load_section_data (fap_classified elf_empty_bss)
        { data := 0, sec_idx := 2, rel_sec_idx := 0 }).2.2.data = 0) :=
  ⟨(C12_nobits_and_empty (fap_classified (elf_basic 1 12 16 8))
      { data := 0, sec_idx := 2, rel_sec_idx := 0 }).1 (by decide) (by decide) (by decide)
      (by decide),
    (C12_nobits_and_empty (fap_classified (elf_reloc 28))
      { data := 0, sec_idx := 0, rel_sec_idx := 2 }).2.1 (by decide),
    (C12_nobits_and_empty (fap_classified elf_empty_bss)
      { data := 0, sec_idx := 2, rel_sec_idx := 0 }).2.2.1 (by decide) (by decide) (by decide),
    (C12_nobits_and_empty (fap_classified elf_empty_bss)
      { data := 0, sec_idx := 2, rel_sec_idx := 0 }).2.2.2 (by decide)
      (Or.inr ⟨by decide, by decide⟩)⟩

/-! ## The manifest section -/

/-- When `LoadSectionTable` returns true, every section index was read and classified without
error. -/
theorem load_section_table_scan_ok (fap : FlipperApplication)
    (h : (flipper_application_load_section_table fap).1 = true) :
    scan_ok fap 1 (fap.elf.sections_count - 1) := by
  have hl := load_section_table_loop_iff (fap.elf.sections_count - 1) 1 SectionTypeERROR
    { fap with elf := { fap.elf with sections := [] },
               state := { fap.state with mmap_entry_count := 0 } } fap ⟨rfl, rfl, rfl, rfl, rfl⟩
  apply (hl.1 ?_).1
  unfold flipper_application_load_section_table at h
  simp only [] at h
  split at h
  · exact absurd h (by simp)
  · rename_i hc
    exact ⟨by simpa using hc, h⟩

theorem load_metadata_small (fap : FlipperApplication) (hdr : Elf32_Shdr)
    (h : hdr.sh_size < fap.manifest_size) :
    flipper_application_load_metadata fap hdr = (false, fap) := by
  unfold flipper_application_load_metadata
  rw [if_pos h]

theorem load_metadata_iff (fap : FlipperApplication) (hdr : Elf32_Shdr)
    (h : fap.manifest_size ≤ hdr.sh_size) :
    (flipper_application_load_metadata fap hdr).1 = true ↔
      ((storage_file_seek fap.fd hdr.sh_offset).1 = true ∧
        (storage_file_read (storage_file_seek fap.fd hdr.sh_offset).2 hdr.sh_size).1.length =
          hdr.sh_size) := by
  unfold flipper_application_load_metadata
  rw [if_neg (by omega)]
  simp only []
  by_cases hs : (storage_file_seek fap.fd hdr.sh_offset).1 = true
  · simp [hs]
  · simp [hs]

/-- C13: `flipper_application_load_metadata` returns false and leaves the whole handle, the
cursor and the manifest field included, unchanged for every section header whose `sh_size`
is smaller than the manifest record; for `sh_size` at least the record size it returns true
exactly when the seek to `sh_offset` and the read of `sh_size` bytes succeed; and
`flipper_application_load_section_table` returns false whenever a section with index in
`1 .. sections_count - 1` is named `.fapmeta` and is smaller than the manifest record. -/
theorem C13_load_metadata (fap : FlipperApplication) (hdr : Elf32_Shdr) :
    (hdr.sh_size < fap.manifest_size →
      flipper_application_load_metadata fap hdr = (false, fap)) ∧
    (fap.manifest_size ≤ hdr.sh_size →
      ((flipper_application_load_metadata fap hdr).1 = true ↔
        ((storage_file_seek fap.fd hdr.sh_offset).1 = true ∧
          (storage_file_read (storage_file_seek fap.fd hdr.sh_offset).2 hdr.sh_size).1.length =
            hdr.sh_size))) ∧
    (∀ i, 1 ≤ i → i < fap.elf.sections_count → section_name_at fap i = cstr ".fapmeta" →
      (section_header_at fap i).sh_size < fap.manifest_size →
      (flipper_application_load_section_table fap).1 = false) := by
  refine ⟨load_metadata_small fap hdr, load_metadata_iff fap hdr, ?_⟩
  intro i h1 h2 hn hs
  by_contra hc
  have ht : (flipper_application_load_section_table fap).1 = true := by simpa using hc
  have hok := (load_section_table_scan_ok fap ht i h1 (by omega)).2
  apply hok
  unfold section_class
  rw [preload_class_error]
  left
  refine ⟨hn, ?_⟩
  have hm : (elf_read_section fap i []).2.1.manifest_size = fap.manifest_size :=
    (elf_read_section_src fap i []).2.2.2.2
  rw [load_metadata_small _ _ (by rw [hm]; exact hs)]

set_option maxRecDepth 1000000 in
/-- C13 witness: `elf_basic 1 12 16 8`, whose `.fapmeta` (section 6) has 4 bytes, with a
manifest record of 8 bytes (rejected) and of 4 bytes (accepted). -/
theorem C13_load_metadata_witness :
    flipper_application_load_metadata
        { fap_headers (elf_basic 1 12 16 8) with manifest_size := 8 }
        (section_header_at { fap_headers (elf_basic 1 12 16 8) with manifest_size := 8 } 6) =
      (false, { fap_headers (elf_basic 1 12 16 8) with manifest_size := 8 }) ∧
    ((flipper_application_load_metadata (fap_headers (elf_basic 1 12 16 8))
        (section_header_at (fap_headers (elf_basic 1 12 16 8)) 6)).1 = true ↔
      ((storage_file_seek (fap_headers (elf_basic 1 12 16 8)).fd
          (section_header_at (fap_headers (elf_basic 1 12 16 8)) 6).sh_offset).1 = true ∧
        (storage_file_read
          (storage_file_seek (fap_headers (elf_basic 1 12 16 8)).fd
            (section_header_at (fap_headers (elf_basic 1 12 16 8)) 6).sh_offset).2
          (section_header_at (fap_headers (elf_basic 1 12 16 8)) 6).sh_size).1.length =
          (section_header_at (fap_headers (elf_basic 1 12 16 8)) 6).sh_size)) ∧
    (flipper_application_load_section_table
      { fap_headers (elf_basic 1 12 16 8) with manifest_size := 8 }).1 = false :=
  ⟨(C13_load_metadata { fap_headers (elf_basic 1 12 16 8) with manifest_size := 8 }
      (section_header_at { fap_headers (elf_basic 1 12 16 8) with manifest_size := 8 } 6)).1
      (by decide),
    (C13_load_metadata (fap_headers (elf_basic 1 12 16 8))
      (section_header_at (fap_headers (elf_basic 1 12 16 8)) 6)).2.1 (by decide),
    (C13_load_metadata { fap_headers (elf_basic 1 12 16 8) with manifest_size := 8 }
      default).2.2 6 (by decide) (by decide) (by decide) (by decide)⟩

/-! ## The manifest scan -/

/-- After a successful `flipper_application_load_metadata` the head of the manifest field is
the run of file bytes at `sh_offset`. -/
theorem load_metadata_manifest (fap : FlipperApplication) (hdr : Elf32_Shdr)
    (h : (flipper_application_load_metadata fap hdr).1 = true) :
    (flipper_application_load_metadata fap hdr).2.manifest.take hdr.sh_size =
      ((fap.fd.bytes.drop hdr.sh_offset).take hdr.sh_size).map (fun b => b % 256) := by
  unfold flipper_application_load_metadata at h ⊢
  split at h
  · exact absurd h (by simp)
  · rename_i hsz
    rw [if_neg hsz]
    simp only [] at h ⊢
    by_cases hs : (storage_file_seek fap.fd hdr.sh_offset).1 = true
    · rw [if_pos hs] at h ⊢
      simp only [beq_iff_eq] at h
      have hp := storage_file_seek_pos _ _ hs
      have hr : (storage_file_read (storage_file_seek fap.fd hdr.sh_offset).2 hdr.sh_size).1 =
          ((fap.fd.bytes.drop hdr.sh_offset).take hdr.sh_size).map (fun b => b % 256) := by
        unfold storage_file_read
        simp only []
        rw [hp.1, storage_file_seek_bytes]
      simp only []
      rw [← hr, List.take_append_eq_append_take, h]
      simp
      exact le_of_eq h
    · rw [if_neg hs] at h
      exact absurd h (by simp)

theorem load_manifest_loop_iff (n : Nat) :
    ∀ (idx : Nat) (fap fap0 : FlipperApplication), same_src fap fap0 →
      ((flipper_application_load_manifest_loop n idx fap).1 = true ↔
        ∃ k, k < idx + n ∧ first_fapmeta fap0 idx k ∧
          (flipper_application_load_metadata (elf_read_section fap0 k []).2.1
            (section_header_at fap0 k)).1 = true) ∧
      ((flipper_application_load_manifest_loop n idx fap).1 = true →
        ∃ k, k < idx + n ∧ first_fapmeta fap0 idx k ∧
          (flipper_application_load_manifest_loop n idx fap).2.manifest.take
              (section_header_at fap0 k).sh_size =
            ((fap0.fd.bytes.drop (section_header_at fap0 k).sh_offset).take
              (section_header_at fap0 k).sh_size).map (fun b => b % 256)) := by
  induction n with
  | zero =>
    intro idx fap fap0 _
    unfold flipper_application_load_manifest_loop
    refine ⟨⟨fun h => absurd h (by simp), ?_⟩, fun h => absurd h (by simp)⟩
    rintro ⟨k, h1, h2, _⟩
    have := h2.1
    omega
  | succ n ih =>
    intro idx fap fap0 hsrc
    have hr := elf_read_section_congr fap fap0 hsrc idx []
    have hs1 : same_src (elf_read_section fap idx []).2.1 fap0 :=
      same_src_trans (elf_read_section_src fap idx []) hsrc
    have hs0 : same_src (elf_read_section fap idx []).2.1 (elf_read_section fap0 idx []).2.1 :=
      same_src_trans hs1 (same_src_symm (elf_read_section_src fap0 idx []))
    have hname : (elf_read_section fap idx []).2.2.2 = section_name_at fap0 idx := by
      unfold section_name_at; rw [← hr.2]
    have hhdr : (elf_read_section fap idx []).2.2.1 = section_header_at fap0 idx := by
      unfold section_header_at; rw [← hr.2]
    unfold flipper_application_load_manifest_loop
    simp only []
    rw [hname, hhdr]
    by_cases hok : (elf_read_section fap idx []).1 = true
    · have hok0 : (elf_read_section fap0 idx []).1 = true := by rw [← hr.1]; exact hok
      simp only [hok, Bool.not_true, Bool.false_eq_true, if_false]
      by_cases hn : section_name_at fap0 idx = cstr ".fapmeta"
      · rw [if_pos hn]
        have hfirst : first_fapmeta fap0 idx idx :=
          ⟨le_refl _, fun i h1 h2 => by
            have : i = idx := by omega
            rw [this]; exact hok0, fun i h1 h2 => by omega, hn⟩
        have huniq : ∀ k, first_fapmeta fap0 idx k → k = idx := by
          intro k hk
          by_contra hne
          exact hk.2.2.1 idx (le_refl _) (by have := hk.1; omega) hn
        have hmc := flipper_application_load_metadata_congr _ _ hs0 (section_header_at fap0 idx)
        constructor
        · constructor
          · intro h
            exact ⟨idx, by omega, hfirst, by rw [← hmc]; exact h⟩
          · rintro ⟨k, _, hk, hl⟩
            rw [huniq k hk] at hl
            rw [hmc]; exact hl
        · intro h
          refine ⟨idx, by omega, hfirst, ?_⟩
          rw [load_metadata_manifest _ _ h, hs1.1]
      · rw [if_neg hn]
        have hih := ih (idx + 1) (elf_read_section fap idx []).2.1 fap0 hs1
        have hext : ∀ k, first_fapmeta fap0 (idx + 1) k → first_fapmeta fap0 idx k := by
          intro k hk
          refine ⟨by have := hk.1; omega, fun i h1 h2 => ?_, fun i h1 h2 => ?_, hk.2.2.2⟩
          · by_cases hi : i = idx
            · rw [hi]; exact hok0
            · exact hk.2.1 i (by omega) h2
          · by_cases hi : i = idx
            · rw [hi]; exact hn
            · exact hk.2.2.1 i (by omega) h2
        have hres : ∀ k, first_fapmeta fap0 idx k → first_fapmeta fap0 (idx + 1) k := by
          intro k hk
          have hne : k ≠ idx := fun h => hn (h ▸ hk.2.2.2)
          exact ⟨by have := hk.1; omega, fun i h1 h2 => hk.2.1 i (by omega) h2,
            fun i h1 h2 => hk.2.2.1 i (by omega) h2, hk.2.2.2⟩
        constructor
        · rw [hih.1]
          constructor
          · rintro ⟨k, h1, h2, h3⟩
            exact ⟨k, by omega, hext k h2, h3⟩
          · rintro ⟨k, h1, h2, h3⟩
            exact ⟨k, by omega, hres k h2, h3⟩
        · intro h
          obtain ⟨k, h1, h2, h3⟩ := hih.2 h
          exact ⟨k, by omega, hext k h2, h3⟩
    · have hokf : (elf_read_section fap idx []).1 = false := by simpa using hok
      simp only [hokf, Bool.not_false, if_true]
      refine ⟨⟨fun h => absurd h (by simp), ?_⟩, fun h => absurd h (by simp)⟩
      rintro ⟨k, _, hk, _⟩
      have := hk.2.1 idx (le_refl _) hk.1
      rw [← hr.1, hokf] at this
      exact absurd this (by simp)

theorem load_metadata_true_iff (fap : FlipperApplication) (hdr : Elf32_Shdr) :
    (flipper_application_load_metadata fap hdr).1 = true ↔
      (fap.manifest_size ≤ hdr.sh_size ∧ (storage_file_seek fap.fd hdr.sh_offset).1 = true ∧
        (storage_file_read (storage_file_seek fap.fd hdr.sh_offset).2 hdr.sh_size).1.length =
          hdr.sh_size) := by
  unfold flipper_application_load_metadata
  by_cases hsz : hdr.sh_size < fap.manifest_size
  · rw [if_pos hsz]
    constructor
    · intro h; exact absurd h (by simp)
    · intro h; omega
  · rw [if_neg hsz]
    simp only []
    by_cases hs : (storage_file_seek fap.fd hdr.sh_offset).1 = true
    · simp [hs]; omega
    · simp [hs]

/-- C14: `flipper_application_load_manifest` returns true if and only if some section index
`k` in `1 .. sections_count - 1` is the first section named exactly `.fapmeta`, every header
and name from index 1 up to and including `k` is read, and
`flipper_application_load_metadata` succeeds for that section; the latter succeeds exactly
when `sh_size` is at least the manifest record and the seek and the read succeed; on success
the first `sh_size` bytes of the manifest field are the file bytes in
`[sh_offset, sh_offset + sh_size)` of that section. -/
theorem C14_load_manifest (fap : FlipperApplication) :
    ((flipper_application_load_manifest fap).1 = true ↔
      ∃ k, k < fap.elf.sections_count ∧ first_fapmeta fap 1 k ∧
        (flipper_application_load_metadata (elf_read_section fap k []).2.1
          (section_header_at fap k)).1 = true) ∧
    (∀ (g : FlipperApplication) (hdr : Elf32_Shdr),
      (flipper_application_load_metadata g hdr).1 = true ↔
        (g.manifest_size ≤ hdr.sh_size ∧ (storage_file_seek g.fd hdr.sh_offset).1 = true ∧
          (storage_file_read (storage_file_seek g.fd hdr.sh_offset).2 hdr.sh_size).1.length =
            hdr.sh_size)) ∧
    ((flipper_application_load_manifest fap).1 = true →
      ∃ k, k < fap.elf.sections_count ∧ first_fapmeta fap 1 k ∧
        (flipper_application_load_manifest fap).2.manifest.take (section_header_at fap k).sh_size =
          ((fap.fd.bytes.drop (section_header_at fap k).sh_offset).take
            (section_header_at fap k).sh_size).map (fun b => b % 256)) := by
  have h := load_manifest_loop_iff (fap.elf.sections_count - 1) 1
    { fap with elf := { fap.elf with sections := [] } } fap ⟨rfl, rfl, rfl, rfl, rfl⟩
  have hl : flipper_application_load_manifest fap =
      flipper_application_load_manifest_loop (fap.elf.sections_count - 1) 1
        { fap with elf := { fap.elf with sections := [] } } := rfl
  rw [hl]
  refine ⟨?_, load_metadata_true_iff, ?_⟩
  · rw [h.1]
    constructor
    · rintro ⟨k, h1, h2, h3⟩
      exact ⟨k, by have := h2.1; omega, h2, h3⟩
    · rintro ⟨k, h1, h2, h3⟩
      exact ⟨k, by have := h2.1; omega, h2, h3⟩
  · intro ht
    obtain ⟨k, h1, h2, h3⟩ := h.2 ht
    exact ⟨k, by have := h2.1; omega, h2, h3⟩

set_option maxRecDepth 1000000 in
/-- C14 witness: `elf_basic 1 12 16 8`, whose `.fapmeta` section holds the four bytes
`1, 2, 3, 4` of the manifest record. -/
theorem C14_load_manifest_witness :
    (flipper_application_load_manifest (fap_headers (elf_basic 1 12 16 8))).1 = true ∧
    (flipper_application_load_manifest (fap_headers (elf_basic 1 12 16 8))).2.manifest =
      [1, 2, 3, 4] ∧
    ∃ k, k < (fap_headers (elf_basic 1 12 16 8)).elf.sections_count ∧
      first_fapmeta (fap_headers (elf_basic 1 12 16 8)) 1 k ∧
      (flipper_application_load_manifest (fap_headers (elf_basic 1 12 16 8))).2.manifest.take
          (section_header_at (fap_headers (elf_basic 1 12 16 8)) k).sh_size =
        (((fap_headers (elf_basic 1 12 16 8)).fd.bytes.drop
            (section_header_at (fap_headers (elf_basic 1 12 16 8)) k).sh_offset).take
          (section_header_at (fap_headers (elf_basic 1 12 16 8)) k).sh_size).map
          (fun b => b % 256) :=
  ⟨by decide, by decide,
    (C14_load_manifest (fap_headers (elf_basic 1 12 16 8))).2.2 (by decide)⟩

/-! ## The ELF header -/

/-- The verdict of `flipper_application_load_elf_headers` and the ELF summary it leaves, for a
file that exists. -/
theorem load_elf_headers_some (fap : FlipperApplication) (path bytes : List Nat)
    (hs : fap.storage path = some bytes) :
    ((flipper_application_load_elf_headers fap path).1 = true ↔
      (52 ≤ bytes.length ∧ shstr_header_offset bytes + 40 ≤ bytes.length)) ∧
    ((flipper_application_load_elf_headers fap path).1 = true →
      (flipper_application_load_elf_headers fap path).2.elf.entry = (file_ehdr bytes).e_entry ∧
      (flipper_application_load_elf_headers fap path).2.elf.sections_count =
        (file_ehdr bytes).e_shnum ∧
      (flipper_application_load_elf_headers fap path).2.elf.section_table =
        (file_ehdr bytes).e_shoff ∧
      (flipper_application_load_elf_headers fap path).2.elf.section_table_strings =
        (file_shstr_header bytes).sh_offset) ∧
    ((flipper_application_load_elf_headers fap path).1 = false →
      (flipper_application_load_elf_headers fap path).2.elf = fap.elf) := by
  have hrd : (storage_file_read { bytes := bytes, pos := 0 } 52).1 =
      (bytes.take 52).map (fun b => b % 256) := by
    simp [storage_file_read]
  unfold file_shstr_header shstr_header_offset file_ehdr
  unfold flipper_application_load_elf_headers storage_file_open
  simp only [hs]
  have hseek0 : storage_file_seek { bytes := bytes, pos := 0 } 0 =
      (true, { bytes := bytes, pos := 0 }) := by
    simp [storage_file_seek]
  simp only [hseek0, hrd, Bool.not_true, Bool.false_eq_true, if_false]
  generalize ((parse_ehdr ((bytes.take 52).map (fun b => b % 256))).e_shoff +
    (parse_ehdr ((bytes.take 52).map (fun b => b % 256))).e_shstrndx * 40) % 4294967296 = off
  by_cases h52 : 52 ≤ bytes.length
  · have hlen : ((bytes.take 52).map (fun b => b % 256)).length = 52 := by
      simp [h52]
    simp only [hlen, bne_self_eq_false, Bool.false_eq_true, if_false]
    by_cases hoff : off ≤ bytes.length
    · have hsk : storage_file_seek (storage_file_read { bytes := bytes, pos := 0 } 52).2 off =
          (true, { bytes := bytes, pos := off }) := by
        have hb : (storage_file_read { bytes := bytes, pos := 0 } 52).2.bytes = bytes := rfl
        unfold storage_file_seek
        rw [hb, if_pos hoff]
      simp only [hsk, Bool.not_true, Bool.false_eq_true, if_false]
      have hl2 : (storage_file_read { bytes := bytes, pos := off } 40).1.length =
          min 40 (bytes.length - off) := by
        simp [storage_file_read]
      by_cases h40 : off + 40 ≤ bytes.length
      · have hl3 : (storage_file_read { bytes := bytes, pos := off } 40).1.length = 40 := by
          rw [hl2]; omega
        simp only [hl3, bne_self_eq_false, Bool.false_eq_true, if_false]
        exact ⟨⟨fun _ => ⟨h52, h40⟩, fun _ => trivial⟩,
          fun _ => ⟨trivial, trivial, trivial, rfl⟩, fun h => absurd h (by simp)⟩
      · have hl3 : ((storage_file_read { bytes := bytes, pos := off } 40).1.length != 40) =
            true := by
          rw [hl2, bne_iff_ne]; omega
        simp only [hl3, if_true]
        exact ⟨⟨fun h => absurd h (by simp), fun h => absurd h.2 h40⟩,
          fun h => absurd h (by simp), fun _ => trivial⟩
    · have hsk : (storage_file_seek (storage_file_read { bytes := bytes, pos := 0 } 52).2
          off).1 = false := by
        unfold storage_file_seek
        have : (storage_file_read { bytes := bytes, pos := 0 } 52).2.bytes = bytes := rfl
        rw [this, if_neg hoff]
      simp only [hsk, Bool.not_false, if_true]
      exact ⟨⟨fun h => absurd h (by simp), fun h => absurd h.2 (by omega)⟩,
        fun h => absurd h (by simp), fun _ => trivial⟩
  · have hlen : (((bytes.take 52).map (fun b => b % 256)).length != 52) = true := by
      rw [bne_iff_ne]; simp; omega
    simp only [hlen, if_true]
    exact ⟨⟨fun h => absurd h (by simp), fun h => absurd h.1 h52⟩,
      fun h => absurd h (by simp), fun _ => trivial⟩

set_option maxRecDepth 1000000 in
/-- C15, counterexample: the file `elf_foreign`, whose header announces the 64-bit class, the
big-endian encoding and the machine x86-64, passes `flipper_application_load_elf_headers`,
which fills the summary fields from it. -/
theorem C15_counterexample :
    elf_foreign.getD 4 0 = 2 ∧ elf_foreign.getD 5 0 = 2 ∧ le16 elf_foreign 18 = 62 ∧
    (flipper_application_load_elf_headers (fap_with elf_foreign) []).1 = true ∧
    (flipper_application_load_elf_headers (fap_with elf_foreign) []).2.elf.entry = 1 ∧
    (flipper_application_load_elf_headers (fap_with elf_foreign) []).2.elf.sections_count = 7 ∧
    (flipper_application_load_elf_headers (fap_with elf_foreign) []).2.elf.section_table = 52 ∧
    (flipper_application_load_elf_headers (fap_with elf_foreign) []).2.elf.section_table_strings =
      332 := by
  decide

/-- C15, amended: `flipper_application_load_elf_headers` checks no identification field. It
returns true exactly when the file exists, holds the 52 bytes of an ELF header and holds the
40 bytes of a section header at `e_shoff + e_shstrndx * 40` (modulo 2^32); on success
`entry`, `sections_count` and `section_table` are `e_entry`, `e_shnum` and `e_shoff` of the
header, whatever its class, data encoding and machine, and `section_table_strings` is
`sh_offset` of that section header; on failure the ELF summary of the handle is
unchanged. -/
theorem C15_load_elf_headers (fap : FlipperApplication) (path : List Nat) :
    ((flipper_application_load_elf_headers fap path).1 = true ↔
      ∃ bytes, fap.storage path = some bytes ∧ 52 ≤ bytes.length ∧
        shstr_header_offset bytes + 40 ≤ bytes.length) ∧
    (∀ bytes, fap.storage path = some bytes →
      (flipper_application_load_elf_headers fap path).1 = true →
      (flipper_application_load_elf_headers fap path).2.elf.entry = (file_ehdr bytes).e_entry ∧
      (flipper_application_load_elf_headers fap path).2.elf.sections_count =
        (file_ehdr bytes).e_shnum ∧
      (flipper_application_load_elf_headers fap path).2.elf.section_table =
        (file_ehdr bytes).e_shoff ∧
      (flipper_application_load_elf_headers fap path).2.elf.section_table_strings =
        (file_shstr_header bytes).sh_offset) ∧
    ((flipper_application_load_elf_headers fap path).1 = false →
      (flipper_application_load_elf_headers fap path).2.elf = fap.elf) := by
  cases hs : fap.storage path with
  | none =>
    have hf : flipper_application_load_elf_headers fap path = (false, fap) := by
      unfold flipper_application_load_elf_headers storage_file_open
      simp [hs]
    rw [hf]
    refine ⟨⟨fun h => absurd h (by simp), ?_⟩, fun bytes hb => absurd hb (by simp), fun _ => rfl⟩
    rintro ⟨bytes, hb, _⟩
    exact absurd hb (by simp)
  | some bytes =>
    have h := load_elf_headers_some fap path bytes hs
    refine ⟨?_, ?_, h.2.2⟩
    · rw [h.1]
      constructor
      · intro hc; exact ⟨bytes, rfl, hc⟩
      · rintro ⟨b, hb, hc⟩
        have : b = bytes := by
          simp only [Option.some.injEq] at hb
          exact hb.symm
        rw [this] at hc
        exact hc
    · intro b hb
      have : b = bytes := by
        simp only [Option.some.injEq] at hb
        exact hb.symm
      rw [this]
      exact h.2.1

set_option maxRecDepth 1000000 in
/-- C15 witness: the headers of `elf_basic 1 12 16 8`. -/
theorem C15_load_elf_headers_witness :
    (fap_with (elf_basic 1 12 16 8)).storage [] = some (elf_basic 1 12 16 8) ∧
    (flipper_application_load_elf_headers (fap_with (elf_basic 1 12 16 8)) []).1 = true ∧
    ((flipper_application_load_elf_headers (fap_with (elf_basic 1 12 16 8)) []).2.elf.entry =
        (file_ehdr (elf_basic 1 12 16 8)).e_entry ∧
      (flipper_application_load_elf_headers
          (fap_with (elf_basic 1 12 16 8)) []).2.elf.sections_count =
        (file_ehdr (elf_basic 1 12 16 8)).e_shnum ∧
      (flipper_application_load_elf_headers
          (fap_with (elf_basic 1 12 16 8)) []).2.elf.section_table =
        (file_ehdr (elf_basic 1 12 16 8)).e_shoff ∧
      (flipper_application_load_elf_headers
          (fap_with (elf_basic 1 12 16 8)) []).2.elf.section_table_strings =
        (file_shstr_header (elf_basic 1 12 16 8)).sh_offset) :=
  ⟨rfl, by decide,
    (C15_load_elf_headers (fap_with (elf_basic 1 12 16 8)) []).2.1 (elf_basic 1 12 16 8) rfl
      (by decide)⟩

/-! ## The BL placeholder -/

theorem bl_placeholder_offset : thumb_branch_offset 0xF7FF 0xFFFE = -4 := by decide

theorem mask25_signed_of_fits (x : Int) (h1 : -16777216 ≤ x) (h2 : x < 16777216) :
    mask25_signed x = x := by
  unfold mask25_signed
  split <;> omega

theorem jmp_call_insn_bl_400 (relAddr : Nat) :
    jmp_call_insn 0xF7FF 0xFFFE relAddr (relAddr + 0x400) = (0xF000, 0xF9FE) := by
  have hno : new_offset 0xF7FF 0xFFFE relAddr (relAddr + 0x400) = 1020 := by
    unfold new_offset
    rw [bl_placeholder_offset]
    unfold toI32 toU32 sub32
    split <;> omega
  rw [jmp_call_insn_eq, hno]
  decide

/-- C16: for the BL placeholder halfwords `0xF7FF 0xFFFE` at `relAddr` and every `symAddr`
whose displacement `symAddr - relAddr` is even and such that the displacement minus 4 fits
in a signed 25-bit offset, after `elf_relocate_jmp_call` the target
`relAddr + 4 + decoded offset` of the patched branch is `symAddr`; for
`symAddr = relAddr + 0x400` the patched halfwords are `0xF000 0xF9FE`, whose decoded offset
is `0x400 - 4`. -/
theorem C16_bl_placeholder (mem : Mem) (relAddr : Nat) (type : Int) (symAddr : Nat)
    (hu : read16 mem relAddr = 0xF7FF) (hl : read16 mem (relAddr + 2) = 0xFFFE)
    (heven : ((symAddr : Int) - (relAddr : Int)) % 2 = 0)
    (hlo : -16777216 ≤ (symAddr : Int) - (relAddr : Int) - 4)
    (hhi : (symAddr : Int) - (relAddr : Int) - 4 < 16777216) :
    (relAddr : Int) + 4 +
        thumb_branch_offset (read16 (elf_relocate_jmp_call mem relAddr type symAddr) relAddr)
          (read16 (elf_relocate_jmp_call mem relAddr type symAddr) (relAddr + 2)) =
      (symAddr : Int) ∧
    (symAddr = relAddr + 0x400 →
      read16 (elf_relocate_jmp_call mem relAddr type symAddr) relAddr = 0xF000 ∧
      read16 (elf_relocate_jmp_call mem relAddr type symAddr) (relAddr + 2) = 0xF9FE ∧
      thumb_branch_offset 0xF000 0xF9FE = 0x400 - 4) := by
  have hr := elf_relocate_jmp_call_read mem relAddr type symAddr
  rw [hu, hl] at hr
  constructor
  · rw [hr.1, hr.2, decode_patched, bl_placeholder_offset]
    have he : ((symAddr : Int) - (relAddr : Int) + -4) % 2 = 0 := by omega
    rw [he, sub_zero, mask25_signed_of_fits _ (by omega) (by omega)]
    omega
  · intro hs
    rw [hr.1, hr.2, hs, jmp_call_insn_bl_400]
    exact ⟨rfl, rfl, by decide⟩

/-- C16 witness: the placeholder at `0x20000000` relocated to `0x20000400`. -/
theorem C16_bl_placeholder_witness :
    read16 mem_bl_placeholder 0x20000000 = 0xF7FF ∧
    read16 mem_bl_placeholder (0x20000000 + 2) = 0xFFFE ∧
    (((0x20000000 + 0x400 : Nat) : Int) - ((0x20000000 : Nat) : Int)) % 2 = 0 ∧
    (((0x20000000 : Nat) : Int) + 4 +
        thumb_branch_offset
          (read16 (elf_relocate_jmp_call mem_bl_placeholder 0x20000000 R_ARM_THM_PC22
            (0x20000000 + 0x400)) 0x20000000)
          (read16 (elf_relocate_jmp_call mem_bl_placeholder 0x20000000 R_ARM_THM_PC22
            (0x20000000 + 0x400)) (0x20000000 + 2)) =
      ((0x20000000 + 0x400 : Nat) : Int) ∧
    ((0x20000000 + 0x400 : Nat) = 0x20000000 + 0x400 →
      read16 (elf_relocate_jmp_call mem_bl_placeholder 0x20000000 R_ARM_THM_PC22
        (0x20000000 + 0x400)) 0x20000000 = 0xF000 ∧
      read16 (elf_relocate_jmp_call mem_bl_placeholder 0x20000000 R_ARM_THM_PC22
        (0x20000000 + 0x400)) (0x20000000 + 2) = 0xF9FE ∧
      thumb_branch_offset 0xF000 0xF9FE = 0x400 - 4)) :=
  ⟨by decide, by decide, by decide,
    C16_bl_placeholder mem_bl_placeholder 0x20000000 R_ARM_THM_PC22 (0x20000000 + 0x400)
      (by decide) (by decide) (by decide) (by decide) (by decide)⟩

/-! ## The relocation cache -/

theorem elf_read_section_header_elf (fap : FlipperApplication) (i : Nat) :
    (elf_read_section_header fap i).2.1.elf = fap.elf := by
  unfold elf_read_section_header
  simp only []
  split <;> rfl

theorem elf_read_section_elf (fap : FlipperApplication) (i : Nat) (name : List Nat) :
    (elf_read_section fap i name).2.1.elf = fap.elf := by
  unfold elf_read_section
  simp only []
  split
  · exact elf_read_section_header_elf fap i
  · split
    · exact Eq.trans rfl (elf_read_section_header_elf fap i)
    · exact elf_read_section_header_elf fap i

theorem elf_read_symbol_elf (e : FlipperApplication) (n : Nat) (name : List Nat) :
    (elf_read_symbol e n name).2.1.elf = e.elf := by
  unfold elf_read_symbol
  simp only []
  split
  · split
    · split
      · rfl
      · exact elf_read_section_elf _ _ _
    · rfl
  · rfl

theorem relocation_cache_get_put (cache : List (Nat × Nat)) (k v : Nat) :
    relocation_cache_get (relocation_cache_put cache k v) k = some v := by
  simp [relocation_cache_get, relocation_cache_put, List.lookup]

theorem relocation_cache_get_put_other (cache : List (Nat × Nat)) (k j v : Nat) (h : j ≠ k) :
    relocation_cache_get (relocation_cache_put cache k v) j = relocation_cache_get cache j := by
  unfold relocation_cache_get relocation_cache_put
  have hjk : (j == k) = false := by simpa using h
  rw [List.lookup_cons, hjk]
  simp only []
  induction cache with
  | nil => rfl
  | cons p rest ih =>
    obtain ⟨a, b⟩ := p
    by_cases ha : a = k
    · have hak : ((a, b).1 != k) = false := by simp [ha]
      have hja : (j == a) = false := by rw [ha]; exact hjk
      rw [List.filter_cons_of_neg (by simp [ha]), List.lookup_cons, hja]
      exact ih
    · rw [List.filter_cons_of_pos (by simpa using ha), List.lookup_cons, List.lookup_cons, ih]

/-- C17, amended: the relocation cache holds the result of every resolution, the sentinel
included. When `elf_relocate_resolve` misses the cache for a symbol index and reads the
symbol, it stores the address returned by `elf_address_of` under that index, whether it is
valid or `ELF_INVALID_ADDRESS`, and leaves the entries of the other indices as they were; a
cache hit returns the cached value and does not change the handle. -/
theorem C17_cache_holds_every_result (e : FlipperApplication) (symEntry : Nat) :
    (relocation_cache_get e.elf.relocation_cache symEntry = none →
      (elf_relocate_resolve e symEntry).1 = true →
      relocation_cache_get (elf_relocate_resolve e symEntry).2.1.elf.relocation_cache symEntry =
          some (elf_relocate_resolve e symEntry).2.2 ∧
        (elf_relocate_resolve e symEntry).2.2 =
          elf_address_of (elf_read_symbol e symEntry []).2.1
            (elf_read_symbol e symEntry []).2.2.1 (elf_read_symbol e symEntry []).2.2.2 ∧
        ∀ j, j ≠ symEntry →
          relocation_cache_get (elf_relocate_resolve e symEntry).2.1.elf.relocation_cache j =
            relocation_cache_get e.elf.relocation_cache j) ∧
    (∀ a, relocation_cache_get e.elf.relocation_cache symEntry = some a →
      elf_relocate_resolve e symEntry = (true, e, a)) := by
  constructor
  · intro hmiss hok
    have he := elf_read_symbol_elf e symEntry []
    unfold elf_relocate_resolve at hok ⊢
    rw [hmiss] at hok ⊢
    simp only [] at hok ⊢
    have hr : (elf_read_symbol e symEntry []).1 = true := by
      by_contra hc
      simp [hc] at hok
    simp only [hr, Bool.not_true, Bool.false_eq_true, if_false]
    rw [he]
    exact ⟨relocation_cache_get_put _ _ _, trivial,
      fun j hj => relocation_cache_get_put_other _ _ _ _ hj⟩
  · intro a ha
    unfold elf_relocate_resolve
    rw [ha]

set_option maxRecDepth 1000000 in
/-- C17, counterexample: in the relocation of `.text` of `elf_reloc 1` the symbol of the first
entry (the unresolved `foo`, symbol index 1) gets `ELF_INVALID_ADDRESS`; the sentinel is
stored in the relocation cache under that index and is still there when the relocation of
the image has ended. -/
theorem C17_counterexample :
    (next_resolve reloc_start).1 = true ∧
    (next_resolve reloc_start).2.2 = ELF_INVALID_ADDRESS ∧
    relocation_cache_get (next_resolve reloc_start).2.1.elf.relocation_cache
      (ELF32_R_SYM (next_rel reloc_start).r_info) = some ELF_INVALID_ADDRESS ∧
    relocation_cache_get (after_relocate (fap_classified (elf_reloc 1))).2.elf.relocation_cache 1 =
      some ELF_INVALID_ADDRESS := by
  decide

set_option maxRecDepth 1000000 in
/-- C17 witness: symbol index 1 of `elf_reloc 1` resolved on an empty cache, and resolved
again on the cache that results. -/
theorem C17_cache_holds_every_result_witness :
    relocation_cache_get reloc_start.elf.relocation_cache 1 = none ∧
    (elf_relocate_resolve reloc_start 1).1 = true ∧
    relocation_cache_get (elf_relocate_resolve reloc_start 1).2.1.elf.relocation_cache 1 =
      some (elf_relocate_resolve reloc_start 1).2.2 ∧
    elf_relocate_resolve (elf_relocate_resolve reloc_start 1).2.1 1 =
      (true, (elf_relocate_resolve reloc_start 1).2.1, ELF_INVALID_ADDRESS) :=
  ⟨by decide, by decide,
    ((C17_cache_holds_every_result reloc_start 1).1 (by decide) (by decide)).1,
    (C17_cache_holds_every_result (elf_relocate_resolve reloc_start 1).2.1 1).2
      ELF_INVALID_ADDRESS (by decide)⟩

/-! ## The key of a section record -/

theorem ELFSectionDict_get_set_at (d : List (List Nat × ELFSection)) (key : List Nat)
    (v : ELFSection) : ELFSectionDict_get (ELFSectionDict_set_at d key v) key = some v := by
  unfold ELFSectionDict_get
  induction d with
  | nil => simp [ELFSectionDict_set_at, List.lookup]
  | cons p rest ih =>
    obtain ⟨k, w⟩ := p
    unfold ELFSectionDict_set_at
    by_cases hk : k = key
    · rw [if_pos hk, List.lookup_cons]
      simp [hk]
    · rw [if_neg hk, List.lookup_cons]
      have : (key == k) = false := by simpa using fun h => hk h.symm
      rw [this]
      exact ih

theorem ELFSectionDict_get_set_at_other (d : List (List Nat × ELFSection)) (key k2 : List Nat)
    (v : ELFSection) (h : k2 ≠ key) :
    ELFSectionDict_get (ELFSectionDict_set_at d key v) k2 = ELFSectionDict_get d k2 := by
  unfold ELFSectionDict_get
  induction d with
  | nil =>
    have : (k2 == key) = false := by simpa using h
    simp [ELFSectionDict_set_at, List.lookup, this]
  | cons p rest ih =>
    obtain ⟨k, w⟩ := p
    unfold ELFSectionDict_set_at
    by_cases hk : k = key
    · have : (k2 == k) = false := by rw [hk]; simpa using h
      rw [if_pos hk, List.lookup_cons, List.lookup_cons, this]
    · rw [if_neg hk, List.lookup_cons, List.lookup_cons, ih]

/-- What `flipper_application_preload_section` does for a name that matches an entry `p` of
`lookup_sections`: the class is the one of the entry, and only the section map changes. -/
theorem preload_section_match (fap : FlipperApplication) (idx : Nat) (hdr : Elf32_Shdr)
    (name : List Nat) (p : List Nat × Nat)
    (h : lookup_sections.find? (fun q => cstr_prefix q.1 name) = some p) :
    (flipper_application_preload_section fap idx hdr name).1 = p.2 ∧
    (flipper_application_preload_section fap idx hdr name).2 =
      { fap with elf := { fap.elf with
          sections := (flipper_application_preload_section fap idx hdr name).2.elf.sections } } ∧
    (flipper_application_preload_section fap idx hdr name).2.elf.sections =
      ELFSectionDict_set_at
        (match ELFSectionDict_get fap.elf.sections (preload_key p name) with
          | some _ => fap.elf.sections
          | none => ELFSectionDict_set_at fap.elf.sections (preload_key p name)
              { data := 0, sec_idx := 0, rel_sec_idx := 0 })
        (preload_key p name)
        (if (p.2 &&& SectionTypeRelocate) ≠ 0 then
          { (record_or_new fap.elf.sections (preload_key p name)) with rel_sec_idx := idx }
        else
          { (record_or_new fap.elf.sections (preload_key p name)) with sec_idx := idx }) := by
  unfold flipper_application_preload_section
  rw [h]
  simp only []
  refine ⟨trivial, trivial, ?_⟩
  unfold preload_key
  generalize (if (p.2 &&& SectionTypeRelocate) ≠ 0 then name.drop 4 else name) = key
  unfold record_or_new
  cases hg : ELFSectionDict_get fap.elf.sections key with
  | some r => simp only [hg, Option.getD]
  | none => simp only [ELFSectionDict_get_set_at, Option.getD]

theorem lookup_sections_payload (name : List Nat) (h : is_payload_name name = true) :
    ∃ p, lookup_sections.find? (fun q => cstr_prefix q.1 name) = some p ∧
      (p.2 &&& SectionTypeRelocate) = 0 := by
  unfold is_payload_name at h
  simp only [Bool.or_eq_true] at h
  unfold lookup_sections
  cases h1 : cstr_prefix (cstr ".text") name with
  | true => exact ⟨(cstr ".text", SectionTypeText), by simp only [List.find?, h1], by decide⟩
  | false =>
    cases h2 : cstr_prefix (cstr ".rodata") name with
    | true => exact ⟨(cstr ".rodata", SectionTypeRodata), by simp only [List.find?, h1, h2], by decide⟩
    | false =>
      cases h3 : cstr_prefix (cstr ".data") name with
      | true => exact ⟨(cstr ".data", SectionTypeData), by simp only [List.find?, h1, h2, h3], by decide⟩
      | false =>
        cases h4 : cstr_prefix (cstr ".bss") name with
        | true => exact ⟨(cstr ".bss", SectionTypeBss), by simp only [List.find?, h1, h2, h3, h4], by decide⟩
        | false => simp [h1, h2, h3, h4] at h

/-- A name that begins with `.rel` begins with none of the payload prefixes. -/
theorem rel_not_payload (t : List Nat) : is_payload_name (cstr ".rel" ++ t) = false := by
  have h : cstr ".rel" = [46, 114, 101, 108] := by decide
  rw [h]
  have h1 : cstr ".text" = [46, 116, 101, 120, 116] := by decide
  have h2 : cstr ".rodata" = [46, 114, 111, 100, 97, 116, 97] := by decide
  have h3 : cstr ".data" = [46, 100, 97, 116, 97] := by decide
  have h4 : cstr ".bss" = [46, 98, 115, 115] := by decide
  unfold is_payload_name cstr_prefix
  rw [h1, h2, h3, h4]
  simp [List.isPrefixOf]

theorem rel_prefix_split (name : List Nat) (h : is_rel_name name = true) :
    ∃ t, name = cstr ".rel" ++ t := by
  unfold is_rel_name cstr_prefix at h
  simp only [Bool.or_eq_true, List.isPrefixOf_iff_prefix] at h
  have e1 : cstr ".rel.text" = cstr ".rel" ++ cstr ".text" := by decide
  have e2 : cstr ".rel.rodata" = cstr ".rel" ++ cstr ".rodata" := by decide
  have e3 : cstr ".rel.data" = cstr ".rel" ++ cstr ".data" := by decide
  rcases h with (⟨t, ht⟩ | ⟨t, ht⟩) | ⟨t, ht⟩
  · exact ⟨cstr ".text" ++ t, by rw [← ht, e1, List.append_assoc]⟩
  · exact ⟨cstr ".rodata" ++ t, by rw [← ht, e2, List.append_assoc]⟩
  · exact ⟨cstr ".data" ++ t, by rw [← ht, e3, List.append_assoc]⟩

theorem lookup_sections_rel (name : List Nat) (h : is_rel_name name = true) :
    ∃ p, lookup_sections.find? (fun q => cstr_prefix q.1 name) = some p ∧
      (p.2 &&& SectionTypeRelocate) ≠ 0 := by
  obtain ⟨t, ht⟩ := rel_prefix_split name h
  have hp := rel_not_payload t
  rw [← ht] at hp
  unfold is_payload_name at hp
  simp only [Bool.or_eq_false_iff] at hp
  obtain ⟨⟨⟨h1, h2⟩, h3⟩, h4⟩ := hp
  unfold is_rel_name at h
  simp only [Bool.or_eq_true] at h
  unfold lookup_sections
  cases h5 : cstr_prefix (cstr ".rel.text") name with
  | true =>
    exact ⟨(cstr ".rel.text", SectionTypeRelText),
      by simp only [List.find?, h1, h2, h3, h4, h5], by decide⟩
  | false =>
    cases h6 : cstr_prefix (cstr ".rel.rodata") name with
    | true =>
      exact ⟨(cstr ".rel.rodata", SectionTypeRelRodata),
        by simp only [List.find?, h1, h2, h3, h4, h5, h6], by decide⟩
    | false =>
      cases h7 : cstr_prefix (cstr ".rel.data") name with
      | true =>
        exact ⟨(cstr ".rel.data", SectionTypeRelData),
          by simp only [List.find?, h1, h2, h3, h4, h5, h6, h7], by decide⟩
      | false => simp [h5, h6, h7] at h

/-- C18, counterexample: the section `.text.startup` at index 1, classified from an empty
section map, is recorded under the key `.text.startup`, and no record is keyed `.text`;
the section `.rel.text.startup` at index 2, classified when the map holds a record keyed
`.text`, leaves that record as it was and creates a record keyed `.text.startup`. -/
theorem C18_counterexample :
    cstr_prefix (cstr ".text") (cstr ".text.startup") = true ∧
    ELFSectionDict_get
      (flipper_application_preload_section (fap_with []) 1 default
        (cstr ".text.startup")).2.elf.sections (cstr ".text") = none ∧
    ELFSectionDict_get
      (flipper_application_preload_section (fap_with []) 1 default
        (cstr ".text.startup")).2.elf.sections (cstr ".text.startup") =
      some { data := 0, sec_idx := 1, rel_sec_idx := 0 } ∧
    cstr_prefix (cstr ".rel.text") (cstr ".rel.text.startup") = true ∧
    ELFSectionDict_get
      (flipper_application_preload_section
        (flipper_application_preload_section (fap_with []) 1 default (cstr ".text")).2
        2 default (cstr ".rel.text.startup")).2.elf.sections (cstr ".text") =
      some { data := 0, sec_idx := 1, rel_sec_idx := 0 } ∧
    ELFSectionDict_get
      (flipper_application_preload_section
        (flipper_application_preload_section (fap_with []) 1 default (cstr ".text")).2
        2 default (cstr ".rel.text.startup")).2.elf.sections (cstr ".text.startup") =
      some { data := 0, sec_idx := 0, rel_sec_idx := 2 } := by
  decide

/-- C18, amended: for every section whose name begins with `.text`, `.rodata`, `.data` or
`.bss`, `flipper_application_preload_section` upserts the record keyed by the full section
name (the prefix only when the name is the prefix itself), setting its `sec_idx` to the
section index and keeping the other fields of an existing record (a fresh record has
`data = NULL` and both indices 0); for every section whose name begins with `.rel.text`,
`.rel.rodata` or `.rel.data` it upserts the record keyed by the full name without its
first four characters `.rel`, setting its `rel_sec_idx`; in both cases the records under
every other key are unchanged. -/
theorem C18_preload_key_is_full_name (fap : FlipperApplication) (idx : Nat) (hdr : Elf32_Shdr)
    (name : List Nat) :
    (is_payload_name name = true →
      ELFSectionDict_get (flipper_application_preload_section fap idx hdr name).2.elf.sections
          name =
        some { (record_or_new fap.elf.sections name) with sec_idx := idx } ∧
      ∀ k, k ≠ name →
        ELFSectionDict_get (flipper_application_preload_section fap idx hdr name).2.elf.sections
          k = ELFSectionDict_get fap.elf.sections k) ∧
    (is_rel_name name = true →
      ELFSectionDict_get (flipper_application_preload_section fap idx hdr name).2.elf.sections
          (name.drop 4) =
        some { (record_or_new fap.elf.sections (name.drop 4)) with rel_sec_idx := idx } ∧
      ∀ k, k ≠ name.drop 4 →
        ELFSectionDict_get (flipper_application_preload_section fap idx hdr name).2.elf.sections
          k = ELFSectionDict_get fap.elf.sections k) := by
  constructor
  · intro h
    obtain ⟨p, hp, hbit⟩ := lookup_sections_payload name h
    have hm := (preload_section_match fap idx hdr name p hp).2.2
    have hk : preload_key p name = name := by
      unfold preload_key
      rw [if_neg (not_not.mpr hbit)]
    rw [hk, if_neg (not_not.mpr hbit)] at hm
    rw [hm]
    refine ⟨ELFSectionDict_get_set_at _ _ _, ?_⟩
    intro k hkn
    rw [ELFSectionDict_get_set_at_other _ _ _ _ hkn]
    cases hg : ELFSectionDict_get fap.elf.sections name with
    | some r => rfl
    | none => exact ELFSectionDict_get_set_at_other _ _ _ _ hkn
  · intro h
    obtain ⟨p, hp, hbit⟩ := lookup_sections_rel name h
    have hm := (preload_section_match fap idx hdr name p hp).2.2
    have hk : preload_key p name = name.drop 4 := by
      unfold preload_key
      rw [if_pos hbit]
    rw [hk, if_pos hbit] at hm
    rw [hm]
    refine ⟨ELFSectionDict_get_set_at _ _ _, ?_⟩
    intro k hkn
    rw [ELFSectionDict_get_set_at_other _ _ _ _ hkn]
    cases hg : ELFSectionDict_get fap.elf.sections (name.drop 4) with
    | some r => rfl
    | none => exact ELFSectionDict_get_set_at_other _ _ _ _ hkn

/-- C18 witness: `.text.startup` at index 1 on an empty map, and `.rel.text.startup` at
index 2 on the map that results. -/
theorem C18_preload_key_is_full_name_witness :
    is_payload_name (cstr ".text.startup") = true ∧
    ELFSectionDict_get
      (flipper_application_preload_section (fap_with []) 1 default
        (cstr ".text.startup")).2.elf.sections (cstr ".text.startup") =
      some { (record_or_new (fap_with []).elf.sections (cstr ".text.startup")) with
        sec_idx := 1 } ∧
    is_rel_name (cstr ".rel.text.startup") = true ∧
    ELFSectionDict_get
      (flipper_application_preload_section
        (flipper_application_preload_section (fap_with []) 1 default (cstr ".text.startup")).2
        2 default (cstr ".rel.text.startup")).2.elf.sections
        ((cstr ".rel.text.startup").drop 4) =
      some { (record_or_new
          (flipper_application_preload_section (fap_with []) 1 default
            (cstr ".text.startup")).2.elf.sections
          ((cstr ".rel.text.startup").drop 4)) with rel_sec_idx := 2 } :=
  ⟨by decide,
    ((C18_preload_key_is_full_name (fap_with []) 1 default (cstr ".text.startup")).1
      (by decide)).1,
    by decide,
    ((C18_preload_key_is_full_name
      (flipper_application_preload_section (fap_with []) 1 default (cstr ".text.startup")).2
      2 default (cstr ".rel.text.startup")).2 (by decide)).1⟩

/-! ## A section and its relocation section -/

theorem ELFSectionDict_set_at_absent (d : List (List Nat × ELFSection)) (key : List Nat)
    (v : ELFSection) (h : ELFSectionDict_get d key = none) :
    ELFSectionDict_set_at d key v = d ++ [(key, v)] := by
  unfold ELFSectionDict_get at h
  induction d with
  | nil => rfl
  | cons p rest ih =>
    obtain ⟨k, w⟩ := p
    rw [List.lookup_cons] at h
    cases hk : (key == k) with
    | true => rw [hk] at h; exact absurd h (by simp)
    | false =>
      rw [hk] at h
      have hne : ¬ k = key := fun e => by simp [e] at hk
      unfold ELFSectionDict_set_at
      rw [if_neg hne, ih h]
      rfl

theorem ELFSectionDict_get_append (d : List (List Nat × ELFSection)) (key : List Nat)
    (v : ELFSection) (h : ELFSectionDict_get d key = none) :
    ELFSectionDict_get (d ++ [(key, v)]) key = some v := by
  rw [← ELFSectionDict_set_at_absent d key v h]
  exact ELFSectionDict_get_set_at d key v

theorem ELFSectionDict_set_at_append (d : List (List Nat × ELFSection)) (key : List Nat)
    (v w : ELFSection) (h : ELFSectionDict_get d key = none) :
    ELFSectionDict_set_at (d ++ [(key, v)]) key w = d ++ [(key, w)] := by
  unfold ELFSectionDict_get at h
  induction d with
  | nil => simp [ELFSectionDict_set_at]
  | cons p rest ih =>
    obtain ⟨k, u⟩ := p
    rw [List.lookup_cons] at h
    cases hk : (key == k) with
    | true => rw [hk] at h; exact absurd h (by simp)
    | false =>
      rw [hk] at h
      have hne : ¬ k = key := fun e => by simp [e] at hk
      rw [List.cons_append]
      unfold ELFSectionDict_set_at
      rw [if_neg hne, ih h]
      rfl

theorem relocatable_is_payload (name : List Nat) (h : is_relocatable_name name = true) :
    is_payload_name name = true := by
  unfold is_relocatable_name at h
  unfold is_payload_name
  rw [h]
  rfl

theorem rel_of_relocatable (name : List Nat) (h : is_relocatable_name name = true) :
    is_rel_name (cstr ".rel" ++ name) = true := by
  have e1 : cstr ".rel.text" = cstr ".rel" ++ cstr ".text" := by decide
  have e2 : cstr ".rel.rodata" = cstr ".rel" ++ cstr ".rodata" := by decide
  have e3 : cstr ".rel.data" = cstr ".rel" ++ cstr ".data" := by decide
  unfold is_relocatable_name cstr_prefix at h
  unfold is_rel_name cstr_prefix
  simp only [Bool.or_eq_true, List.isPrefixOf_iff_prefix] at h ⊢
  rw [e1, e2, e3]
  simp only [List.prefix_append_right_inj]
  exact h

theorem drop_rel (name : List Nat) : (cstr ".rel" ++ name).drop 4 = name := by
  have h : cstr ".rel" = [46, 114, 101, 108] := by decide
  rw [h]
  rfl

/-- The section map after `flipper_application_preload_section` on a payload name. -/
theorem preload_payload_sections (fap : FlipperApplication) (idx : Nat) (hdr : Elf32_Shdr)
    (name : List Nat) (h : is_payload_name name = true) :
    (flipper_application_preload_section fap idx hdr name).2 =
      { fap with elf := { fap.elf with
          sections := (flipper_application_preload_section fap idx hdr name).2.elf.sections } } ∧
    (ELFSectionDict_get fap.elf.sections name = none →
      (flipper_application_preload_section fap idx hdr name).2.elf.sections =
        fap.elf.sections ++ [(name, { data := 0, sec_idx := idx, rel_sec_idx := 0 })]) ∧
    (∀ r, ELFSectionDict_get fap.elf.sections name = some r →
      (flipper_application_preload_section fap idx hdr name).2.elf.sections =
        ELFSectionDict_set_at fap.elf.sections name { r with sec_idx := idx }) := by
  obtain ⟨p, hp, hbit⟩ := lookup_sections_payload name h
  obtain ⟨-, hfr, hm⟩ := preload_section_match fap idx hdr name p hp
  have hk : preload_key p name = name := by
    unfold preload_key
    rw [if_neg (not_not.mpr hbit)]
  rw [hk, if_neg (not_not.mpr hbit)] at hm
  refine ⟨hfr, ?_, ?_⟩
  · intro hn
    rw [hm]
    unfold record_or_new
    simp only [hn, Option.getD]
    rw [ELFSectionDict_set_at_absent _ _ _ hn, ELFSectionDict_set_at_append _ _ _ _ hn]
  · intro r hr
    rw [hm]
    unfold record_or_new
    simp only [hr, Option.getD]

/-- The section map after `flipper_application_preload_section` on a `.rel` name. -/
theorem preload_rel_sections (fap : FlipperApplication) (idx : Nat) (hdr : Elf32_Shdr)
    (name : List Nat) (h : is_rel_name name = true) :
    (flipper_application_preload_section fap idx hdr name).2 =
      { fap with elf := { fap.elf with
          sections := (flipper_application_preload_section fap idx hdr name).2.elf.sections } } ∧
    (ELFSectionDict_get fap.elf.sections (name.drop 4) = none →
      (flipper_application_preload_section fap idx hdr name).2.elf.sections =
        fap.elf.sections ++ [(name.drop 4, { data := 0, sec_idx := 0, rel_sec_idx := idx })]) ∧
    (∀ r, ELFSectionDict_get fap.elf.sections (name.drop 4) = some r →
      (flipper_application_preload_section fap idx hdr name).2.elf.sections =
        ELFSectionDict_set_at fap.elf.sections (name.drop 4) { r with rel_sec_idx := idx }) := by
  obtain ⟨p, hp, hbit⟩ := lookup_sections_rel name h
  obtain ⟨-, hfr, hm⟩ := preload_section_match fap idx hdr name p hp
  have hk : preload_key p name = name.drop 4 := by
    unfold preload_key
    rw [if_pos hbit]
  rw [hk, if_pos hbit] at hm
  refine ⟨hfr, ?_, ?_⟩
  · intro hn
    rw [hm]
    unfold record_or_new
    simp only [hn, Option.getD]
    rw [ELFSectionDict_set_at_absent _ _ _ hn, ELFSectionDict_set_at_append _ _ _ _ hn]
  · intro r hr
    rw [hm]
    unfold record_or_new
    simp only [hr, Option.getD]

/-- A `.rel` section of a name that begins with `.bss` matches no entry of
`lookup_sections` and none of the four exact names. -/
theorem rel_bss_unused (fap : FlipperApplication) (idx : Nat) (hdr : Elf32_Shdr)
    (name : List Nat) (h : cstr_prefix (cstr ".bss") name = true) :
    flipper_application_preload_section fap idx hdr (cstr ".rel" ++ name) =
      (SectionTypeUnused, fap) := by
  unfold cstr_prefix at h
  rw [List.isPrefixOf_iff_prefix] at h
  obtain ⟨t, ht⟩ := h
  subst ht
  have hb : cstr ".bss" = [46, 98, 115, 115] := by decide
  have hr : cstr ".rel" = [46, 114, 101, 108] := by decide
  have h1 : cstr ".text" = [46, 116, 101, 120, 116] := by decide
  have h2 : cstr ".rodata" = [46, 114, 111, 100, 97, 116, 97] := by decide
  have h3 : cstr ".data" = [46, 100, 97, 116, 97] := by decide
  have h5 : cstr ".rel.text" = [46, 114, 101, 108, 46, 116, 101, 120, 116] := by decide
  have h6 : cstr ".rel.rodata" = [46, 114, 101, 108, 46, 114, 111, 100, 97, 116, 97] := by
    decide
  have h7 : cstr ".rel.data" = [46, 114, 101, 108, 46, 100, 97, 116, 97] := by decide
  have h8 : cstr ".symtab" = [46, 115, 121, 109, 116, 97, 98] := by decide
  have h9 : cstr ".strtab" = [46, 115, 116, 114, 116, 97, 98] := by decide
  have h10 : cstr ".fapmeta" = [46, 102, 97, 112, 109, 101, 116, 97] := by decide
  have h11 : cstr ".gnu_debuglink" =
      [46, 103, 110, 117, 95, 100, 101, 98, 117, 103, 108, 105, 110, 107] := by decide
  unfold flipper_application_preload_section lookup_sections cstr_prefix
  rw [hb, hr, h1, h2, h3, h5, h6, h7, h8, h9, h10, h11]
  simp [List.find?, List.isPrefixOf]

/-- C19, counterexample: for X = `.bss`, i = 1 and j = 2, starting from an empty map, the
section `.rel.bss` is classified as unused, and in either order the record keyed `.bss`
ends with `sec_idx = 1` and `rel_sec_idx = 0`, not 2. -/
theorem C19_counterexample :
    is_payload_name (cstr ".bss") = true ∧
    (flipper_application_preload_section (fap_with []) 2 default
      (cstr ".rel" ++ cstr ".bss")).1 = SectionTypeUnused ∧
    (flipper_application_preload_section
      (flipper_application_preload_section (fap_with []) 1 default (cstr ".bss")).2
      2 default (cstr ".rel" ++ cstr ".bss")).2.elf.sections =
      [(cstr ".bss", { data := 0, sec_idx := 1, rel_sec_idx := 0 })] ∧
    (flipper_application_preload_section
      (flipper_application_preload_section (fap_with []) 2 default
        (cstr ".rel" ++ cstr ".bss")).2
      1 default (cstr ".bss")).2.elf.sections =
      [(cstr ".bss", { data := 0, sec_idx := 1, rel_sec_idx := 0 })] := by
  decide

/-- C19, amended: for every name X that begins with `.text`, `.rodata` or `.data`, every
pair of section indices i and j and every handle whose section map has no record for X,
classifying a section named X at index i and a section named `.rel`+X at index j gives, in
either order, the same handle: the input handle with one record appended to the section
map, keyed by X, with `data = NULL`, `sec_idx = i` and `rel_sec_idx = j`. For a name X that
begins with `.bss` the section `.rel`+X is classified as unused and changes nothing, since
`lookup_sections` has no `.rel.bss` entry. -/
theorem C19_order_independent (fap : FlipperApplication) (X : List Nat) (i j : Nat)
    (hi hj : Elf32_Shdr) :
    (is_relocatable_name X = true → ELFSectionDict_get fap.elf.sections X = none →
      (flipper_application_preload_section
        (flipper_application_preload_section fap i hi X).2 j hj (cstr ".rel" ++ X)).2 =
        { fap with
          elf := { fap.elf with
                   sections := fap.elf.sections ++
                     [(X, { data := 0, sec_idx := i, rel_sec_idx := j })] } } ∧
      (flipper_application_preload_section
        (flipper_application_preload_section fap j hj (cstr ".rel" ++ X)).2 i hi X).2 =
        { fap with
          elf := { fap.elf with
                   sections := fap.elf.sections ++
                     [(X, { data := 0, sec_idx := i, rel_sec_idx := j })] } }) ∧
    ( cstr_prefix (cstr ".bss") X = true →
      flipper_application_preload_section fap j hj (cstr ".rel" ++ X) =
        (SectionTypeUnused, fap)) := by
  refine ⟨?_, rel_bss_unused fap j hj X⟩
  intro hX hnone
  have hpay := relocatable_is_payload X hX
  have hrel := rel_of_relocatable X hX
  constructor
  · obtain ⟨hf1, hn1, -⟩ := preload_payload_sections fap i hi X hpay
    have hs1 := hn1 hnone
    obtain ⟨hf2, -, hs2⟩ := preload_rel_sections
      (flipper_application_preload_section fap i hi X).2 j hj (cstr ".rel" ++ X) hrel
    rw [drop_rel] at hs2
    have hg : ELFSectionDict_get (flipper_application_preload_section fap i hi X).2.elf.sections
        X = some { data := 0, sec_idx := i, rel_sec_idx := 0 } := by
      rw [hs1]
      exact ELFSectionDict_get_append _ _ _ hnone
    have hs3 := hs2 _ hg
    rw [hs1, ELFSectionDict_set_at_append _ _ _ _ hnone] at hs3
    rw [hf2, hs3, hf1]
  · obtain ⟨hf1, hn1, -⟩ := preload_rel_sections fap j hj (cstr ".rel" ++ X) hrel
    rw [drop_rel] at hn1
    have hs1 := hn1 hnone
    obtain ⟨hf2, -, hs2⟩ := preload_payload_sections
      (flipper_application_preload_section fap j hj (cstr ".rel" ++ X)).2 i hi X hpay
    have hg : ELFSectionDict_get
        (flipper_application_preload_section fap j hj (cstr ".rel" ++ X)).2.elf.sections
        X = some { data := 0, sec_idx := 0, rel_sec_idx := j } := by
      rw [hs1]
      exact ELFSectionDict_get_append _ _ _ hnone
    have hs3 := hs2 _ hg
    rw [hs1, ELFSectionDict_set_at_append _ _ _ _ hnone] at hs3
    rw [hf2, hs3, hf1]

set_option maxRecDepth 1000000 in
/-- C19 witness: X = `.text.startup`, i = 1, j = 2, on the section map built from
`elf_basic 1 12 16 8`, which has no record for X. -/
theorem C19_order_independent_witness :
    is_relocatable_name (cstr ".text.startup") = true ∧
    ELFSectionDict_get (fap_classified (elf_basic 1 12 16 8)).elf.sections
      (cstr ".text.startup") = none ∧
    (flipper_application_preload_section
      (flipper_application_preload_section (fap_classified (elf_basic 1 12 16 8)) 1 default
        (cstr ".text.startup")).2 2 default (cstr ".rel" ++ cstr ".text.startup")).2 =
      (flipper_application_preload_section
        (flipper_application_preload_section (fap_classified (elf_basic 1 12 16 8)) 2 default
          (cstr ".rel" ++ cstr ".text.startup")).2 1 default (cstr ".text.startup")).2 :=
  ⟨by decide, by decide,
    (((C19_order_independent (fap_classified (elf_basic 1 12 16 8)) (cstr ".text.startup")
      1 2 default default).1 (by decide) (by decide)).1).trans
    (((C19_order_independent (fap_classified (elf_basic 1 12 16 8)) (cstr ".text.startup")
      1 2 default default).1 (by decide) (by decide)).2).symm⟩

/-! ## The address of a symbol -/

theorem elf_section_of_first (elf : ELFFile) (index : Nat)
    (pre post : List (List Nat × ELFSection)) (key : List Nat) (sec : ELFSection)
    (hs : elf.sections = pre ++ (key, sec) :: post) (hi : sec.sec_idx = index)
    (hpre : ∀ q ∈ pre, q.2.sec_idx ≠ index) : elf_section_of elf index = some sec := by
  unfold elf_section_of
  rw [hs]
  clear hs
  induction pre with
  | nil => simp [List.find?, hi]
  | cons p rest ih =>
    have hp : (p.2.sec_idx == index) = false := by
      simpa using hpre p (List.mem_cons_self _ _)
    rw [List.cons_append, List.find?_cons, hp]
    exact ih (fun q hq => hpre q (List.mem_cons_of_mem _ hq))

theorem elf_section_of_none (elf : ELFFile) (index : Nat)
    (h : ∀ q ∈ elf.sections, q.2.sec_idx ≠ index) : elf_section_of elf index = none := by
  unfold elf_section_of
  rw [Option.map_eq_none', List.find?_eq_none]
  intro q hq
  simpa using h q hq

/-- C20: `elf_address_of` returns, for a symbol with `st_shndx == SHN_UNDEF`, the address
that the host resolver supplies for the symbol name, and `ELF_INVALID_ADDRESS` when the
resolver fails; for a defined symbol it returns `data + st_value` modulo 2^32 of the first
record of the section map whose `sec_idx` equals `st_shndx`, and `ELF_INVALID_ADDRESS`
when no record has that `sec_idx`. -/
theorem C20_elf_address_of (e : FlipperApplication) (sym : Elf32_Sym) (sName : List Nat) :
    (sym.st_shndx = SHN_UNDEF →
      (∀ addr, e.resolver_callback sName = some addr → elf_address_of e sym sName = addr) ∧
      (e.resolver_callback sName = none → elf_address_of e sym sName = ELF_INVALID_ADDRESS)) ∧
    (sym.st_shndx ≠ SHN_UNDEF →
      (∀ (pre post : List (List Nat × ELFSection)) (key : List Nat) (sec : ELFSection),
        e.elf.sections = pre ++ (key, sec) :: post → sec.sec_idx = sym.st_shndx →
        (∀ q ∈ pre, q.2.sec_idx ≠ sym.st_shndx) →
        elf_address_of e sym sName = (sec.data + sym.st_value) % 4294967296) ∧
      ((∀ q ∈ e.elf.sections, q.2.sec_idx ≠ sym.st_shndx) →
        elf_address_of e sym sName = ELF_INVALID_ADDRESS)) := by
  constructor
  · intro hu
    unfold elf_address_of
    rw [if_pos hu]
    constructor
    · intro addr ha
      rw [ha]
    · intro hn
      rw [hn]
  · intro hd
    unfold elf_address_of
    rw [if_neg hd]
    constructor
    · intro pre post key sec hs hi hpre
      rw [elf_section_of_first e.elf sym.st_shndx pre post key sec hs hi hpre]
    · intro hn
      rw [elf_section_of_none e.elf sym.st_shndx hn]

set_option maxRecDepth 1000000 in
/-- C20 witness: on the loaded image of `elf_reloc 1`, whose records are the one of `.text`
(section 1, at `0x20000000`) and the one of `.bss` (section 7, at `0x20000008`), the
undefined symbol `bar` resolves to `0xDEADBEEF`, the undefined symbol `foo` to the
sentinel, a symbol of section 7 with value 5 to `0x2000000D`, and a symbol of section 3 to
the sentinel. -/
theorem C20_elf_address_of_witness :
    elf_address_of reloc_start
        { st_name := 0, st_value := 0, st_size := 0, st_info := 0, st_other := 0,
          st_shndx := SHN_UNDEF } (cstr "bar") = 0xDEADBEEF ∧
    elf_address_of reloc_start
        { st_name := 0, st_value := 0, st_size := 0, st_info := 0, st_other := 0,
          st_shndx := SHN_UNDEF } (cstr "foo") = ELF_INVALID_ADDRESS ∧
    elf_address_of reloc_start
        { st_name := 0, st_value := 5, st_size := 0, st_info := 0, st_other := 0,
          st_shndx := 7 } [] = (0x20000008 + 5) % 4294967296 ∧
    elf_address_of reloc_start
        { st_name := 0, st_value := 5, st_size := 0, st_info := 0, st_other := 0,
          st_shndx := 3 } [] = ELF_INVALID_ADDRESS :=
  ⟨((C20_elf_address_of reloc_start
        { st_name := 0, st_value := 0, st_size := 0, st_info := 0, st_other := 0,
          st_shndx := SHN_UNDEF } (cstr "bar")).1 rfl).1 0xDEADBEEF (by decide),
    ((C20_elf_address_of reloc_start
        { st_name := 0, st_value := 0, st_size := 0, st_info := 0, st_other := 0,
          st_shndx := SHN_UNDEF } (cstr "foo")).1 rfl).2 (by decide),
    ((C20_elf_address_of reloc_start
        { st_name := 0, st_value := 5, st_size := 0, st_info := 0, st_other := 0,
          st_shndx := 7 } []).2 (by decide)).1 [(cstr ".text", reloc_text)] [] (cstr ".bss")
      { data := 0x20000008, sec_idx := 7, rel_sec_idx := 0 }
      (by decide) (by decide) (by decide),
    ((C20_elf_address_of reloc_start
        { st_name := 0, st_value := 5, st_size := 0, st_info := 0, st_other := 0,
          st_shndx := 3 } []).2 (by decide)).2 (by decide)⟩

/-! ## The string reader -/

theorem takeWhile_take_append (p : Nat → Bool) :
    ∀ (l : List Nat) (k : Nat) (rest : List Nat), (l.takeWhile p).length < k →
      (∃ x ∈ l, p x = false) → (l.take k ++ rest).takeWhile p = l.takeWhile p := by
  intro l
  induction l with
  | nil => intro k rest _ h; obtain ⟨x, hx, _⟩ := h; cases hx
  | cons a l ih =>
    intro k rest hk hex
    cases k with
    | zero => omega
    | succ k =>
      rw [List.take_succ_cons, List.cons_append]
      cases hpa : p a with
      | true =>
        rw [List.takeWhile_cons_of_pos hpa, List.takeWhile_cons_of_pos hpa]
        rw [List.takeWhile_cons_of_pos hpa, List.length_cons] at hk
        congr 1
        apply ih k rest (by omega)
        obtain ⟨x, hx, hpx⟩ := hex
        rcases List.mem_cons.1 hx with rfl | hm
        · rw [hpa] at hpx; cases hpx
        · exact ⟨x, hm, hpx⟩
      | false =>
        rw [List.takeWhile_cons_of_neg (by simp [hpa]),
          List.takeWhile_cons_of_neg (by simp [hpa])]

theorem takeWhile_take_full (p : Nat → Bool) :
    ∀ (l : List Nat) (k : Nat), k ≤ (l.takeWhile p).length →
      (l.take k).takeWhile p = l.take k ∧ (l.take k).length = k ∧
        l.takeWhile p = l.take k ++ (l.drop k).takeWhile p ∧
        ((∃ x ∈ l, p x = false) → ∃ x ∈ l.drop k, p x = false) := by
  intro l
  induction l with
  | nil =>
    intro k hk
    simp only [List.takeWhile_nil, List.length_nil, Nat.le_zero] at hk
    subst hk
    simp
  | cons a l ih =>
    intro k hk
    cases k with
    | zero => simp
    | succ k =>
      cases hpa : p a with
      | true =>
        rw [List.takeWhile_cons_of_pos hpa, List.length_cons] at hk
        obtain ⟨h1, h2, h3, h4⟩ := ih k (by omega)
        refine ⟨?_, ?_, ?_, ?_⟩
        · rw [List.take_succ_cons, List.takeWhile_cons_of_pos hpa, h1]
        · rw [List.take_succ_cons, List.length_cons, h2]
        · rw [List.takeWhile_cons_of_pos hpa, List.take_succ_cons, List.drop_succ_cons,
            List.cons_append, ← h3]
        · rintro ⟨x, hx, hpx⟩
          rw [List.drop_succ_cons]
          apply h4
          rcases List.mem_cons.1 hx with rfl | hm
          · rw [hpa] at hpx; cases hpx
          · exact ⟨x, hm, hpx⟩
      | false =>
        rw [List.takeWhile_cons_of_neg (by simp [hpa])] at hk
        simp at hk

theorem takeWhile_length_lt (p : Nat → Bool) :
    ∀ (l : List Nat), (∃ x ∈ l, p x = false) → (l.takeWhile p).length < l.length := by
  intro l
  induction l with
  | nil => rintro ⟨x, hx, _⟩; cases hx
  | cons a l ih =>
    rintro ⟨x, hx, hpx⟩
    cases hpa : p a with
    | true =>
      rw [List.takeWhile_cons_of_pos hpa, List.length_cons, List.length_cons]
      have : ∃ x ∈ l, p x = false := by
        rcases List.mem_cons.1 hx with rfl | hm
        · rw [hpa] at hpx; cases hpx
        · exact ⟨x, hm, hpx⟩
      have := ih this
      omega
    | false =>
      rw [List.takeWhile_cons_of_neg (by simp [hpa])]
      simp

theorem storage_file_read_eq (fd : File) (n : Nat) :
    (storage_file_read fd n).1 = (file_bytes_from fd fd.pos).take n := by
  unfold storage_file_read file_bytes_from
  simp [List.map_take]

theorem file_bytes_from_read (fd : File) (n : Nat) :
    file_bytes_from (storage_file_read fd n).2 (storage_file_read fd n).2.pos =
      (file_bytes_from fd fd.pos).drop ((file_bytes_from fd fd.pos).take n).length := by
  rw [storage_file_read_pos, storage_file_read_eq]
  unfold file_bytes_from
  rw [storage_file_read_bytes, ← List.map_drop, List.drop_drop]

/-- The name loop on a file that holds a NUL at or after the cursor: it succeeds and appends
the bytes before the first NUL. -/
theorem elf_read_string_loop_nul (fuel : Nat) :
    ∀ (fd : File) (buffer name : List Nat), buffer.length = 32 →
      0 ∈ file_bytes_from fd fd.pos →
      (c_string_of (file_bytes_from fd fd.pos)).length < 32 * fuel →
      (elf_read_string_loop fuel fd buffer name).1 = true ∧
        (elf_read_string_loop fuel fd buffer name).2.2 =
          name ++ c_string_of (file_bytes_from fd fd.pos) := by
  induction fuel with
  | zero => intro fd buffer name _ _ h; omega
  | succ n ih =>
    intro fd buffer name hb h0 hn
    have hex : ∃ x ∈ file_bytes_from fd fd.pos, (fun b => b != 0) x = false :=
      ⟨0, h0, by simp⟩
    unfold c_string_of at hn
    rw [elf_read_string_loop.eq_def]
    simp only []
    rw [storage_file_read_eq]
    by_cases hlt : ((file_bytes_from fd fd.pos).takeWhile (fun b => b != 0)).length < 32
    · have ht := takeWhile_take_append (fun b => b != 0) (file_bytes_from fd fd.pos) 32
        (buffer.drop ((file_bytes_from fd fd.pos).take 32).length) hlt hex
      rw [ht, if_pos hlt]
      exact ⟨rfl, rfl⟩
    · obtain ⟨h1, h2, h3, h4⟩ := takeWhile_take_full (fun b => b != 0)
        (file_bytes_from fd fd.pos) 32 (by omega)
      have hd : buffer.drop ((file_bytes_from fd fd.pos).take 32).length = [] := by
        rw [h2, List.drop_eq_nil_iff]; omega
      rw [hd, List.append_nil, h1, h2]
      rw [if_neg (by omega), if_neg (by simp [storage_file_get_error])]
      have hfb := file_bytes_from_read fd 32
      rw [h2] at hfb
      have hih := ih (storage_file_read fd 32).2 ((file_bytes_from fd fd.pos).take 32)
        (name ++ (file_bytes_from fd fd.pos).take 32) h2
        (by
          rw [hfb]
          obtain ⟨x, hx, hpx⟩ := h4 hex
          have : x = 0 := by simpa using hpx
          rw [← this]; exact hx)
        (by
          unfold c_string_of
          rw [hfb]
          have := congrArg List.length h3
          rw [List.length_append, h2] at this
          omega)
      rw [hfb] at hih
      unfold c_string_of at hih ⊢
      rw [hih.2, List.append_assoc, ← h3]
      exact ⟨hih.1, rfl⟩

/-- C21: for every handle and every offset such that the file holds a NUL byte at or after
the offset, `elf_read_string_from_offset` returns true and appends to `name` exactly the
file bytes from the offset up to, but not including, the first NUL, whatever the length of
the string (below, equal to or above the 32-byte block); it leaves the file content as it
was and, the cursor being inside the file before the call, it leaves the whole handle, the
cursor included, as it was. -/
theorem C21_read_string (fap : FlipperApplication) (offset : Nat) (name : List Nat)
    (hnul : 0 ∈ file_bytes_from fap.fd offset) :
    (elf_read_string_from_offset fap offset name).1 = true ∧
      (elf_read_string_from_offset fap offset name).2.2 =
        name ++ c_string_of (file_bytes_from fap.fd offset) ∧
      (elf_read_string_from_offset fap offset name).2.1.fd.bytes = fap.fd.bytes ∧
      (fap.fd.pos ≤ fap.fd.bytes.length →
        (elf_read_string_from_offset fap offset name).2.1 = fap) := by
  have hex : ∃ x ∈ file_bytes_from fap.fd offset, (fun b => b != 0) x = false :=
    ⟨0, hnul, by simp⟩
  have hlen := takeWhile_length_lt (fun b => b != 0) _ hex
  have hl : (file_bytes_from fap.fd offset).length = fap.fd.bytes.length - offset := by
    simp [file_bytes_from]
  rw [hl] at hlen
  have hoff : offset ≤ fap.fd.bytes.length := by omega
  have hs : storage_file_seek fap.fd offset = (true, { fap.fd with pos := offset }) := by
    unfold storage_file_seek
    rw [if_pos hoff]
  have hloop := elf_read_string_loop_nul (fap.fd.bytes.length - offset + 1)
    { fap.fd with pos := offset } ((fap.stack_garbage ++ List.replicate 32 0).take 32) name
    (by simp) hnul
    (by
      show (c_string_of (file_bytes_from fap.fd offset)).length <
        32 * (fap.fd.bytes.length - offset + 1)
      unfold c_string_of
      omega)
  have hbytes := elf_read_string_loop_bytes (fap.fd.bytes.length - offset + 1)
    { fap.fd with pos := offset } ((fap.stack_garbage ++ List.replicate 32 0).take 32) name
  unfold elf_read_string_from_offset
  simp only [hs, if_true]
  refine ⟨hloop.1, hloop.2, ?_, ?_⟩
  · rw [storage_file_seek_bytes, hbytes]
  · intro hpos
    have hback : storage_file_seek (elf_read_string_loop (fap.fd.bytes.length - offset + 1)
        { fap.fd with pos := offset } ((fap.stack_garbage ++ List.replicate 32 0).take 32)
        name).2.1 (storage_file_tell fap.fd) = (true, fap.fd) := by
      unfold storage_file_seek storage_file_tell
      rw [hbytes, if_pos hpos]
    rw [hback]

set_option maxRecDepth 1000000 in
/-- C21 witness: strings of 3, 32 and 40 letters at offset 2, read with the cursor at 1. -/
theorem C21_read_string_witness :
    (0 ∈ file_bytes_from (fap_string 40).fd 2 ∧
      (elf_read_string_from_offset (fap_string 40) 2 [1]).1 = true ∧
      (elf_read_string_from_offset (fap_string 40) 2 [1]).2.2 =
        [1] ++ c_string_of (file_bytes_from (fap_string 40).fd 2) ∧
      (elf_read_string_from_offset (fap_string 40) 2 [1]).2.1.fd.bytes =
        (fap_string 40).fd.bytes ∧
      ((fap_string 40).fd.pos ≤ (fap_string 40).fd.bytes.length →
        (elf_read_string_from_offset (fap_string 40) 2 [1]).2.1 = fap_string 40)) ∧
    (elf_read_string_from_offset (fap_string 40) 2 [1]).2.2 = [1] ++ List.replicate 40 65 ∧
    (elf_read_string_from_offset (fap_string 32) 2 [1]).2.2 = [1] ++ List.replicate 32 65 ∧
    (elf_read_string_from_offset (fap_string 3) 2 [1]).2.2 = [1, 65, 65, 65] ∧
    (elf_read_string_from_offset (fap_string 40) 2 [1]).2.1.fd.pos = 1 :=
  ⟨⟨by decide, C21_read_string (fap_string 40) 2 [1] (by decide)⟩, by decide, by decide,
    by decide, by decide⟩

/-! ## The opcode bits of a patched branch -/

theorem read16_lt (m : Mem) (a : Nat) : read16 m a < 65536 := by
  unfold read16 read8
  omega

theorem elf_relocate_jmp_call_frame (mem : Mem) (relAddr : Nat) (type : Int) (symAddr a : Nat)
    (h : a < relAddr ∨ relAddr + 4 ≤ a) :
    elf_relocate_jmp_call mem relAddr type symAddr a = mem a := by
  unfold elf_relocate_jmp_call write16 write8
  rw [if_neg (by omega), if_neg (by omega), if_neg (by omega), if_neg (by omega)]

/-- The opcode bits of the pair written by `elf_relocate_jmp_call`, as masks. -/
theorem jmp_call_insn_opcode (upper lower relAddr symAddr : Nat) :
    (jmp_call_insn upper lower relAddr symAddr).1 &&& 0xf800 = upper &&& 0xf800 ∧
      (jmp_call_insn upper lower relAddr symAddr).2 &&& 0xd000 = lower &&& 0xd000 := by
  rw [jmp_call_insn_eq]
  simp only []
  generalize hs : (new_offset upper lower relAddr symAddr / 16777216 % 2).toNat = s
  generalize hd : (new_offset upper lower relAddr symAddr / 4096 % 1024).toNat = d
  generalize ha : (new_offset upper lower relAddr symAddr / 8388608 % 2).toNat = j1
  generalize hb : (new_offset upper lower relAddr symAddr / 4194304 % 2).toNat = j2
  generalize he : (new_offset upper lower relAddr symAddr / 2 % 2048).toNat = e
  have hs1 : s ≤ 1 := by omega
  have hd1 : d < 1024 := by omega
  have he1 : e < 2048 := by omega
  generalize hx : (s + (1 - j1)) % 2 = x
  generalize hy : (s + (1 - j2)) % 2 = y
  have hx1 : x ≤ 1 := by omega
  have hy1 : y ≤ 1 := by omega
  constructor
  · rw [and_f800, and_f800]
    omega
  · rw [and_d000, and_d000]
    omega

theorem testBit_of_mask (x y m i : Nat) (h : x &&& m = y &&& m) (hm : m.testBit i = true) :
    x.testBit i = y.testBit i := by
  have := congrArg (fun z => z.testBit i) h
  simpa [Nat.testBit_and, hm] using this

/-- C22: for every pair of halfwords at the site and every `relAddr` and `symAddr`,
`elf_relocate_jmp_call` keeps the opcode bits of the instruction pair: the upper halfword
keeps its bits 15..11 (mask `0xF800`) and the lower halfword its bits 15, 14 and 12 (mask
`0xD000`), so only bits 10..0 of the upper and bits 13, 11 and 10..0 of the lower halfword
can change; and every byte outside the four bytes at `relAddr` is left as it was. -/
theorem C22_opcode_bits_preserved (mem : Mem) (relAddr : Nat) (type : Int) (symAddr : Nat) :
    read16 (elf_relocate_jmp_call mem relAddr type symAddr) relAddr &&& 0xf800 =
        read16 mem relAddr &&& 0xf800 ∧
      read16 (elf_relocate_jmp_call mem relAddr type symAddr) (relAddr + 2) &&& 0xd000 =
        read16 mem (relAddr + 2) &&& 0xd000 ∧
      (∀ i, 11 ≤ i →
        (read16 (elf_relocate_jmp_call mem relAddr type symAddr) relAddr).testBit i =
          (read16 mem relAddr).testBit i) ∧
      (∀ i, (i = 12 ∨ 14 ≤ i) →
        (read16 (elf_relocate_jmp_call mem relAddr type symAddr) (relAddr + 2)).testBit i =
          (read16 mem (relAddr + 2)).testBit i) ∧
      (∀ a, (a < relAddr ∨ relAddr + 4 ≤ a) →
        elf_relocate_jmp_call mem relAddr type symAddr a = mem a) := by
  have hr := elf_relocate_jmp_call_read mem relAddr type symAddr
  have ho := jmp_call_insn_opcode (read16 mem relAddr) (read16 mem (relAddr + 2)) relAddr symAddr
  rw [← hr.1, ← hr.2] at ho
  have hbig : ∀ (x : Nat), x < 65536 → ∀ i, 16 ≤ i → x.testBit i = false := by
    intro x hx i hi
    apply Nat.testBit_eq_false_of_lt
    calc x < 2 ^ 16 := hx
      _ ≤ 2 ^ i := Nat.pow_le_pow_right (by norm_num) hi
  refine ⟨ho.1, ho.2, ?_, ?_,
    fun a ha => elf_relocate_jmp_call_frame mem relAddr type symAddr a ha⟩
  · intro i hi
    by_cases h16 : 16 ≤ i
    · rw [hbig _ (read16_lt _ _) i h16, hbig _ (read16_lt _ _) i h16]
    · apply testBit_of_mask _ _ 0xf800 i ho.1
      have : i = 11 ∨ i = 12 ∨ i = 13 ∨ i = 14 ∨ i = 15 := by omega
      rcases this with rfl | rfl | rfl | rfl | rfl <;> decide
  · intro i hi
    by_cases h16 : 16 ≤ i
    · rw [hbig _ (read16_lt _ _) i h16, hbig _ (read16_lt _ _) i h16]
    · apply testBit_of_mask _ _ 0xd000 i ho.2
      have : i = 12 ∨ i = 14 ∨ i = 15 := by omega
      rcases this with rfl | rfl | rfl <;> decide

/-- C22 witness: the BL placeholder `0xF7FF 0xFFFE` at `0x20000000` relocated to
`0x20000400`: bit 15 of the upper and bit 12 of the lower halfword are kept, and the byte at
`0x20000004` is left as it was. -/
theorem C22_opcode_bits_preserved_witness :
    (read16 (elf_relocate_jmp_call mem_bl_placeholder 0x20000000 R_ARM_THM_PC22 0x20000400)
        0x20000000).testBit 15 = (read16 mem_bl_placeholder 0x20000000).testBit 15 ∧
    (read16 (elf_relocate_jmp_call mem_bl_placeholder 0x20000000 R_ARM_THM_PC22 0x20000400)
        (0x20000000 + 2)).testBit 12 = (read16 mem_bl_placeholder (0x20000000 + 2)).testBit 12 ∧
    elf_relocate_jmp_call mem_bl_placeholder 0x20000000 R_ARM_THM_PC22 0x20000400 0x20000004 =
      mem_bl_placeholder 0x20000004 :=
  ⟨(C22_opcode_bits_preserved mem_bl_placeholder 0x20000000 R_ARM_THM_PC22
      0x20000400).2.2.1 15 (by decide),
    (C22_opcode_bits_preserved mem_bl_placeholder 0x20000000 R_ARM_THM_PC22
      0x20000400).2.2.2.1 12 (Or.inl rfl),
    (C22_opcode_bits_preserved mem_bl_placeholder 0x20000000 R_ARM_THM_PC22
      0x20000400).2.2.2.2 0x20000004 (Or.inr (by decide))⟩

/-! ## The size of the manifest read -/

set_option maxRecDepth 1000000 in
/-- C23 (the read overruns the manifest field): `flipper_application_load_metadata` reads
`sh_size` bytes, not the size of the manifest record, into the manifest field: for the
4-byte `.fapmeta` section of `elf_basic 1 12 16 8` and a manifest record of 2 bytes the
header is accepted, 4 bytes are read and the field, 2 bytes before the call, holds 4 bytes
after it; and for every handle and every accepted header the number of bytes read is
`sh_size`, which is at least the size of the record and exceeds it whenever the section is
larger, the field then holding `sh_size` bytes. -/
theorem C23_manifest_overrun :
    ((section_header_at fap_short_record 6).sh_size = 4 ∧
      fap_short_record.manifest_size = 2 ∧ fap_short_record.manifest.length = 2 ∧
      (flipper_application_load_metadata fap_short_record
        (section_header_at fap_short_record 6)).1 = true ∧
      (storage_file_read
        (storage_file_seek fap_short_record.fd
          (section_header_at fap_short_record 6).sh_offset).2
        (section_header_at fap_short_record 6).sh_size).1.length = 4 ∧
      (flipper_application_load_metadata fap_short_record
        (section_header_at fap_short_record 6)).2.manifest = [1, 2, 3, 4]) ∧
    (∀ (fap : FlipperApplication) (hdr : Elf32_Shdr),
      (flipper_application_load_metadata fap hdr).1 = true →
      fap.manifest_size ≤ hdr.sh_size ∧
        (storage_file_read (storage_file_seek fap.fd hdr.sh_offset).2 hdr.sh_size).1.length =
          hdr.sh_size ∧
        (flipper_application_load_metadata fap hdr).2.manifest =
          (storage_file_read (storage_file_seek fap.fd hdr.sh_offset).2 hdr.sh_size).1 ++
            fap.manifest.drop hdr.sh_size ∧
        (fap.manifest.length = fap.manifest_size →
          (flipper_application_load_metadata fap hdr).2.manifest.length = hdr.sh_size)) := by
  refine ⟨by decide, ?_⟩
  intro fap hdr h
  have hi := (load_metadata_true_iff fap hdr).1 h
  obtain ⟨h1, h2, h3⟩ := hi
  have hm : (flipper_application_load_metadata fap hdr).2.manifest =
      (storage_file_read (storage_file_seek fap.fd hdr.sh_offset).2 hdr.sh_size).1 ++
        fap.manifest.drop hdr.sh_size := by
    unfold flipper_application_load_metadata
    rw [if_neg (by omega)]
    simp only [h2, if_true]
    rw [h3]
  refine ⟨h1, h3, hm, ?_⟩
  intro hl
  rw [hm, List.length_append, h3, List.length_drop]
  omega

end FlipperElf
